import Mathlib

/-!
Thai QR payment payload codec (`internal/qr/qr.go`)

A shallow embedding of the tag-length-value codec of `internal/qr/qr.go` and
the properties of its specification that were checked against it.

Modelling conventions

* A Go `string` is a sequence of bytes.  The decoder reads a payload only
  through `[]rune(s)` and `utf8.RuneCountInString`, and every string that it
  stores or returns is made from runes; such strings, and every string that is
  valid UTF-8, are modelled as the list of their code points (`Str`).  The
  encoder writes the bytes of the strings that it is given as they are and
  takes the checksum of these bytes; the strings that come from outside (the
  payload, the fields of a model to encode, the entries of a map to serialize)
  are modelled as lists of bytes (`Bytes`) in the definitions whose names end
  in `B`, and `utf8Bytes` takes the code points of a valid string to its bytes.
  The definitions on code points are the definitions on bytes restricted to
  valid UTF-8 (`ConvertQRToMapB_toBytes`, `ConvertMapToStringB_toBytes`,
  `runes_utf8Bytes`).
* A Go `map[string]string` is an association list with unique keys; reading a
  missing key gives the empty string, as in Go.
* The two package-level variables `stringWithNoCRC` and `crcFromStr` are the
  explicit state `Scratch`, threaded through every function that touches them.
  They only ever hold text made from runes.
* A run-time panic is a result of its own (`Run.panic`).  A slice expression
  `[]rune(s)[lo:hi]` panics unless `0 ≤ lo ≤ hi ≤ cap`; the language leaves the
  capacity of `[]rune(s)` to the implementation (it is at least the length),
  so the spare capacity is the parameter `slack` of the model.
* Output written by `fmt.Println` and `log.Println` is not modelled.
* The package `github.com/howeyc/crc16` is not part of the sources; its function
  `ChecksumCCITTFalse` is modelled from the parameters that the specification
  gives for the checksum.
-/

namespace ThaiQR

/-! ## Strings, maps and results -/

/-- A Go string that is valid UTF-8, as the sequence of its code points.  A
string of arbitrary bytes is a `Bytes`. -/
abbrev Str := List Char

/-- A Go `map[string]string`: entries with pairwise different keys. -/
abbrev TagMap := List (Str × Str)

/-- The Go expression `m[key]`: the stored value, or the empty string. -/
def mapGet : TagMap → Str → Str
  | [], _ => []
  | (k, v) :: rest, key => if k = key then v else mapGet rest key

/-- The Go statement `m[key] = val`. -/
def mapSet : TagMap → Str → Str → TagMap
  | [], key, val => [(key, val)]
  | (k, v) :: rest, key, val =>
    if k = key then (k, val) :: rest else (k, v) :: mapSet rest key val

/-- The keys of a map. -/
def mapKeys (m : TagMap) : List Str := m.map Prod.fst

/-- The package-level variables of `qr.go`. -/
structure Scratch where
  stringWithNoCRC : Str
  crcFromStr : Str
deriving DecidableEq, Repr

/-- How a call of a function that uses the package-level variables ends. -/
inductive Run (α : Type) where
  /-- The call returned `val` and left the package-level variables as `st`. -/
  | ret (val : α) (st : Scratch)
  /-- The call ended in a run-time panic. -/
  | panic
  /-- The loop of the model was cut off before the Go loop would have ended;
  no function of the model ends so (`DecodeQRVisa_finishes`). -/
  | unfinished
deriving DecidableEq, Repr

/-! ## Library functions used by the codec -/

/-- The rune slice expression `[]rune(s)[lo:hi]`, converted back to a string.
It panics (`none`) when the bounds are negative, inverted or beyond the
capacity `len + slack`; elements between the length and the capacity are zero. -/
def sliceRunes (slack : Nat) (rs : Str) (lo hi : Int) : Option Str :=
  if 0 ≤ lo ∧ lo ≤ hi ∧ hi ≤ (rs.length : Int) + (slack : Int) then
    some (((rs ++ List.replicate slack (Char.ofNat 0)).drop lo.toNat).take (hi - lo).toNat)
  else none

/-- The value of a decimal digit. -/
def decDigit (c : Char) : Option Nat :=
  if 48 ≤ c.toNat ∧ c.toNat ≤ 57 then some (c.toNat - 48) else none

/-- The digit loop of `strconv.ParseUint(s, 10, 0)`: `none` is a syntax error
(the empty string is one too, see `parseInt10`). -/
def parseUint10 : Str → Nat → Option Nat
  | [], acc => some acc
  | c :: cs, acc =>
    match decDigit c with
    | some d => parseUint10 cs (acc * 10 + d)
    | none => none

/-- The call `l64, _ := strconv.ParseInt(ls, 10, 0)`: an optional sign and
decimal digits; the result is 0 when the text does not parse (the error is
discarded by the caller).  The texts parsed here have two code points, so the
range error of `ParseInt` cannot occur. -/
def parseInt10 (ls : Str) : Int :=
  match ls with
  | [] => 0
  | c :: cs =>
    if c = '+' then
      (match cs with
       | [] => 0
       | _ :: _ => match parseUint10 cs 0 with
         | some n => (n : Int)
         | none => 0)
    else if c = '-' then
      (match cs with
       | [] => 0
       | _ :: _ => match parseUint10 cs 0 with
         | some n => - (n : Int)
         | none => 0)
    else match parseUint10 (c :: cs) 0 with
      | some n => (n : Int)
      | none => 0

/-- The decimal text of a natural number, `strconv.Itoa` on a non-negative
argument. -/
def itoa (n : Nat) : Str := Nat.toDigits 10 n

/-- The format `fmt.Sprintf("%02d", l)`. -/
def sprintf02d (l : Int) : Str :=
  if l < 0 then '-' :: itoa l.natAbs
  else if l < 10 then '0' :: itoa l.toNat
  else itoa l.toNat

/-- The UTF-8 bytes of a code point. -/
def utf8EncodeChar (c : Char) : List Nat :=
  let v := c.toNat
  if v < 0x80 then [v]
  else if v < 0x800 then [0xC0 + v / 64, 0x80 + v % 64]
  else if v < 0x10000 then [0xE0 + v / 4096, 0x80 + v / 64 % 64, 0x80 + v % 64]
  else [0xF0 + v / 262144, 0x80 + v / 4096 % 64, 0x80 + v / 64 % 64, 0x80 + v % 64]

/-- The conversion `[]byte(s)`. -/
def utf8Bytes (s : Str) : List Nat := s.flatMap utf8EncodeChar

/-- One shift of the 16-bit CRC register: polynomial 0x1021, most significant
bit first. -/
def crcShift (crc : Nat) : Nat :=
  if 0x8000 ≤ crc % 0x10000 then ((crc * 2) % 0x10000) ^^^ 0x1021 else (crc * 2) % 0x10000

/-- The CRC register after one more byte. -/
def crcByte (crc b : Nat) : Nat :=
  crcShift (crcShift (crcShift (crcShift (crcShift (crcShift (crcShift (crcShift
    (crc ^^^ (b * 256)))))))))

/-- Modelled from the spec: the function `ChecksumCCITTFalse` of the package
`github.com/howeyc/crc16`, which `qr.go` calls and whose code is not under
`src/`.  It is the CRC-16 with polynomial 0x1021 and initial value 0xFFFF, the
bytes taken in order and each from its highest bit, not reflected, no final
exclusive-or. -/
def ChecksumCCITTFalse (bytes : List Nat) : Nat := bytes.foldl crcByte 0xFFFF

/-- An upper-case hexadecimal digit. -/
def hexDigitUpper (d : Nat) : Char :=
  if d < 10 then Char.ofNat (48 + d) else Char.ofNat (55 + d)

/-- The format `fmt.Sprintf("%X", v)` of a 16-bit value: upper-case
hexadecimal without leading zeros. -/
def sprintfX (v : Nat) : Str :=
  if v < 0x10 then [hexDigitUpper v]
  else if v < 0x100 then [hexDigitUpper (v / 0x10), hexDigitUpper (v % 0x10)]
  else if v < 0x1000 then
    [hexDigitUpper (v / 0x100), hexDigitUpper (v / 0x10 % 0x10), hexDigitUpper (v % 0x10)]
  else
    [hexDigitUpper (v / 0x1000 % 0x10), hexDigitUpper (v / 0x100 % 0x10),
     hexDigitUpper (v / 0x10 % 0x10), hexDigitUpper (v % 0x10)]

/-- How `strconv.ParseUint` ends. -/
inductive Parsed where
  | value (n : Nat)
  | invalid
  | overflow
deriving DecidableEq, Repr

/-- The value of a hexadecimal digit of either case. -/
def hexVal (c : Char) : Option Nat :=
  let v := c.toNat
  if 48 ≤ v ∧ v ≤ 57 then some (v - 48)
  else if 97 ≤ v ∧ v ≤ 102 then some (v - 87)
  else if 65 ≤ v ∧ v ≤ 70 then some (v - 55)
  else none

/-- The digit loop of `strconv.ParseUint` in base 16 with bit size 64, as
reached from base 0 through the prefix `0x`: underscores are skipped, a
character that is no hexadecimal digit is a syntax error, and a value that no
longer fits 64 bits is a range error. -/
def parseHexLoop : Str → Nat → Parsed
  | [], n => .value n
  | c :: cs, n =>
    if c = '_' then parseHexLoop cs n
    else match hexVal c with
      | none => .invalid
      | some d => if 2 ^ 60 ≤ n then .overflow else parseHexLoop cs (n * 16 + d)

/-- The last character seen by `underscoreOK`. -/
inductive Saw where
  | digit
  | underscore
  | other
deriving DecidableEq, Repr

/-- The loop of `underscoreOK` of package `strconv` after a `0x` prefix: an
underscore may only stand between the prefix or a digit and a digit. -/
def underscoreOKLoop : Str → Saw → Bool
  | [], saw => decide (saw ≠ Saw.underscore)
  | c :: cs, saw =>
    if (hexVal c).isSome then underscoreOKLoop cs Saw.digit
    else if c = '_' then
      (if saw ≠ Saw.digit then false else underscoreOKLoop cs Saw.underscore)
    else if saw = Saw.underscore then false
    else underscoreOKLoop cs Saw.other

/-- The call `crcInt, _ := strconv.ParseInt("0x"+crc, 0, 64)`, as `strconv`
behaves since Go 1.13: with an empty `crc` the text `0x` is read as octal and
fails; a syntax error gives 0 and a value of 2^63 or more gives 2^63 - 1 (the
errors are discarded by the caller). -/
def parseCRCInt (crc : Str) : Nat :=
  match crc with
  | [] => 0
  | _ :: _ =>
    match parseHexLoop crc 0 with
    | .invalid => 0
    | .overflow => 2 ^ 63 - 1
    | .value n =>
      if crc.contains '_' ∧ underscoreOKLoop crc Saw.digit = false then 0
      else if 2 ^ 63 ≤ n then 2 ^ 63 - 1
      else n

/-- A Go `error`, as its message. -/
abbrev GoError := String

/-! ## The data model -/

structure QRMerchantIDPromptPay where
  AID : Str
  MobileNumber : Str
  NationalID : Str
  EWalletID : Str
  BankAccount : Str
  NationalEWalletID : Str
deriving DecidableEq, Repr

structure QRMerchantIDPromptPayBillPayment where
  AID : Str
  BillerID : Str
  Reference1 : Str
  Reference2 : Str
deriving DecidableEq, Repr

structure QRMerchantIDPromptPayAPI where
  AID : Str
  AcquirerID : Str
  MerchantID : Str
  TransactionRef : Str
  ReferenceNo : Str
  TerminalID : Str
deriving DecidableEq, Repr

structure QRMerchantID where
  Visa : Str
  MasterCard : Str
  CUP : Str
  JCB : Str
  UnionPay : Str
  EMVCo : Str
  AMEX : Str
  TPN : Str
  PromptCard : Str
  VisaLocal : Str
  PromptPay : QRMerchantIDPromptPay
  PromptPayBillPayment : QRMerchantIDPromptPayBillPayment
  API : QRMerchantIDPromptPayAPI
deriving DecidableEq, Repr

structure QRMerchant where
  ID : QRMerchantID
  CategoryCode : Str
  Name : Str
  City : Str
deriving DecidableEq, Repr

structure QRTransaction where
  CurrencyCode : Str
  Amount : Str
deriving DecidableEq, Repr

structure QRAdditionalData where
  BillNumber : Str
  MobileNumber : Str
  StoreID : Str
  LoyaltyNumber : Str
  ReferenceID : Str
  ConsumerID : Str
  TerminalID : Str
  PurposeOfTransaction : Str
  AdditionalConsumerDataRequest : Str
deriving DecidableEq, Repr

structure QR where
  PayloadFormatIndicator : Str
  PointOfInitiationMethod : Str
  Merchant : QRMerchant
  Transaction : QRTransaction
  CountryCode : Str
  AdditionalData : QRAdditionalData
  CRC : Str
  DataObjectForMerchantAccountInformationByMasterCard : Str
deriving DecidableEq, Repr

/-- The zero value of `QR`, what `new(QR)` points to. -/
def zeroQR : QR :=
  { PayloadFormatIndicator := [], PointOfInitiationMethod := [],
    Merchant :=
      { ID :=
          { Visa := [], MasterCard := [], CUP := [], JCB := [], UnionPay := [], EMVCo := [],
            AMEX := [], TPN := [], PromptCard := [], VisaLocal := [],
            PromptPay :=
              { AID := [], MobileNumber := [], NationalID := [], EWalletID := [],
                BankAccount := [], NationalEWalletID := [] },
            PromptPayBillPayment := { AID := [], BillerID := [], Reference1 := [], Reference2 := [] },
            API :=
              { AID := [], AcquirerID := [], MerchantID := [], TransactionRef := [],
                ReferenceNo := [], TerminalID := [] } },
        CategoryCode := [], Name := [], City := [] },
    Transaction := { CurrencyCode := [], Amount := [] },
    CountryCode := [],
    AdditionalData :=
      { BillNumber := [], MobileNumber := [], StoreID := [], LoyaltyNumber := [],
        ReferenceID := [], ConsumerID := [], TerminalID := [], PurposeOfTransaction := [],
        AdditionalConsumerDataRequest := [] },
    CRC := [], DataObjectForMerchantAccountInformationByMasterCard := [] }

/-! ## Decoding -/

/-- The function `checkCRC`: `none` is the `nil` error. -/
def checkCRC (str crc : Str) : Option GoError :=
  let validCRC := ChecksumCCITTFalse (utf8Bytes str)
  let crcInt := parseCRCInt crc
  if validCRC ≠ crcInt % 0x10000 then
    some "Error, CRC is mismatch or QR(string) is invalid."
  else none

/-- The loop of `ConvertStringToMap`, started at index `i` with the map `m`.
The first argument is the capacity beyond the length of `[]rune(s)`, the third
bounds the number of iterations. -/
def tokenLoop (slack : Nat) (rs : Str) :
    Nat → Int → TagMap → Scratch → Run (TagMap × Option GoError)
  | 0, _, _, _ => Run.unfinished
  | fuel + 1, i, m, st =>
    let n : Int := rs.length
    if ¬ (i < n) then Run.ret (m, none) st
    else if i + 2 ≥ n then Run.ret (m, some "QRVisa(string) is invalid") st
    else
      match sliceRunes slack rs i (i + 2) with
      | none => Run.panic
      | some key =>
        match sliceRunes slack rs (i + 2) (i + 2 + 2) with
        | none => Run.panic
        | some ls =>
          let l := parseInt10 ls
          if i + 2 + 2 + l - 1 ≥ n then Run.ret (m, some "QRVisa(string) is invalid") st
          else
            match sliceRunes slack rs (i + 2 + 2) (i + 2 + 2 + l) with
            | none => Run.panic
            | some val =>
              let st1 : Scratch :=
                if key = ['6', '3'] then { st with crcFromStr := val } else st
              let st2 : Scratch :=
                if key ≠ ['6', '3'] then
                  { st1 with stringWithNoCRC := st1.stringWithNoCRC ++ (key ++ sprintf02d l ++ val) }
                else st1
              tokenLoop slack rs fuel (i + 2 + 2 + l - 1 + 1) (mapSet m key val) st2

/-- The function `ConvertStringToMap`.  The loop advances by at least four
code points per record, so `s.length + 1` iterations are never used up
(`ConvertStringToMap_finishes`). -/
def ConvertStringToMap (slack : Nat → Nat) (st : Scratch) (s : Str) :
    Run (TagMap × Option GoError) :=
  tokenLoop (slack s.length) s (s.length + 1) 0 [] { st with stringWithNoCRC := [] }

/-- The text of a decimal number in an error message (the verb `%d`). -/
def fmtD (n : Nat) : String := String.mk (itoa n)

/-- The length checks at the end of `ConvertMapToQR`: the first violated one
gives its error. -/
def decodeLengthCheck (qr : QR) : Option GoError :=
  if qr.PayloadFormatIndicator ≠ [] ∧ qr.PayloadFormatIndicator.length ≠ 2 then
    some ("Invalid QR (utf8.RuneCountInString(qr.PayloadFormatIndicator) must be 2 but got "
      ++ fmtD qr.PayloadFormatIndicator.length)
  else if qr.PointOfInitiationMethod ≠ [] ∧ qr.PointOfInitiationMethod.length ≠ 2 then
    some ("Invalid QR (utf8.RuneCountInString(qr.PointOfInitiationMethod) must be 2 but got "
      ++ fmtD qr.PointOfInitiationMethod.length)
  else if qr.Merchant.CategoryCode ≠ [] ∧ qr.Merchant.CategoryCode.length ≠ 4 then
    some ("Invalid QR (utf8.RuneCountInString(qr.Merchant.CategoryCode) must be 4 but got "
      ++ fmtD qr.Merchant.CategoryCode.length)
  else if qr.Transaction.CurrencyCode ≠ [] ∧ qr.Transaction.CurrencyCode.length ≠ 3 then
    some ("Invalid QR (utf8.RuneCountInString(qr.Transaction.CurrencyCode) must be 3 but got "
      ++ fmtD qr.Transaction.CurrencyCode.length)
  else if qr.CountryCode ≠ [] ∧ qr.CountryCode.length ≠ 2 then
    some ("Invalid QR (utf8.RuneCountInString(qr.CountryCode) must be 2 but got "
      ++ fmtD qr.CountryCode.length)
  else if qr.CRC ≠ [] ∧ qr.CRC.length ≠ 4 then
    some ("Invalid QR (utf8.RuneCountInString(qr.CRC) must be 4 but got "
      ++ fmtD qr.CRC.length)
  else if qr.DataObjectForMerchantAccountInformationByMasterCard ≠ [] ∧
      qr.DataObjectForMerchantAccountInformationByMasterCard.length ≠ 25 then
    some ("Invalid QR (utf8.RuneCountInString(qr.DataObjectForMerchantAccountInformationByMasterCard) must be 25 but got "
      ++ fmtD qr.DataObjectForMerchantAccountInformationByMasterCard.length)
  else none

/-- The struct that `ConvertMapToQR` assembles from the top-level map and the
maps of the four nested groups. -/
def assembleQR (m promptPay promptPayBillPayment api additional : TagMap) : QR :=
  let qrTnx : QRTransaction :=
    { CurrencyCode := mapGet m "53".toList, Amount := mapGet m "54".toList }
  let qrMerPP : QRMerchantIDPromptPay :=
    { AID := mapGet promptPay "00".toList,
      MobileNumber := mapGet promptPay "01".toList,
      NationalID := mapGet promptPay "02".toList,
      EWalletID := mapGet promptPay "03".toList,
      BankAccount := mapGet promptPay "04".toList,
      NationalEWalletID := mapGet promptPay "05".toList }
  let qrMerPPBillPay : QRMerchantIDPromptPayBillPayment :=
    { AID := mapGet promptPayBillPayment "00".toList,
      BillerID := mapGet promptPayBillPayment "01".toList,
      Reference1 := mapGet promptPayBillPayment "02".toList,
      Reference2 := mapGet promptPayBillPayment "03".toList }
  let qrMerAPI : QRMerchantIDPromptPayAPI :=
    { AID := mapGet api "00".toList,
      AcquirerID := mapGet api "01".toList,
      MerchantID := mapGet api "02".toList,
      TransactionRef := mapGet api "03".toList,
      ReferenceNo := mapGet api "04".toList,
      TerminalID := mapGet api "05".toList }
  let qrMerID : QRMerchantID :=
    { Visa := mapGet m "02".toList,
      MasterCard := mapGet m "04".toList,
      CUP := mapGet m "14".toList,
      JCB := [],
      TPN := mapGet m "26".toList,
      PromptCard := mapGet m "27".toList,
      VisaLocal := mapGet m "28".toList,
      UnionPay := mapGet m "15".toList,
      EMVCo := mapGet m "17".toList,
      AMEX := [],
      PromptPay := qrMerPP,
      PromptPayBillPayment := qrMerPPBillPay,
      API := qrMerAPI }
  let qrMer : QRMerchant :=
    { ID := qrMerID,
      CategoryCode := mapGet m "52".toList,
      Name := mapGet m "59".toList,
      City := mapGet m "60".toList }
  let qrAdditionalData : QRAdditionalData :=
    { BillNumber := mapGet additional "01".toList,
      MobileNumber := mapGet additional "02".toList,
      StoreID := mapGet additional "03".toList,
      LoyaltyNumber := mapGet additional "04".toList,
      ReferenceID := mapGet additional "05".toList,
      ConsumerID := mapGet additional "06".toList,
      TerminalID := mapGet additional "07".toList,
      PurposeOfTransaction := mapGet additional "08".toList,
      AdditionalConsumerDataRequest := mapGet additional "09".toList }
  { PayloadFormatIndicator := mapGet m "00".toList,
    PointOfInitiationMethod := mapGet m "01".toList,
    Merchant := qrMer,
    AdditionalData := qrAdditionalData,
    CountryCode := mapGet m "58".toList,
    CRC := mapGet m "63".toList,
    Transaction := qrTnx,
    DataObjectForMerchantAccountInformationByMasterCard := mapGet m "51".toList }

/-- The part of `ConvertMapToQR` after the four nested groups were tokenized:
the fixed values, the struct and the length checks. -/
def finishMapToQR (m promptPay promptPayBillPayment api additional : TagMap) :
    Option QR × Option GoError :=
  if mapGet m "58".toList ≠ "TH".toList then
    (none, some "invalid country code, expected \x27TH\x27")
  else if mapGet m "53".toList ≠ "764".toList then
    (none, some "invalid transaction currency code, expected \x27764\x27")
  else
    let qr := assembleQR m promptPay promptPayBillPayment api additional
    match decodeLengthCheck qr with
    | some e => (none, some e)
    | none => (some qr, none)

/-- One nested group of `ConvertMapToQR`: when the value under `tag` is not
empty it is tokenized, and `aid` (when given) is required under `00`.  The
result is the map of the group (empty when the tag is), or the error. -/
def decodeGroup (slack : Nat → Nat) (st : Scratch) (m : TagMap) (tag : Str)
    (aid : Option (Str × GoError)) : Run (TagMap × Option GoError) :=
  if mapGet m tag ≠ [] then
    match ConvertStringToMap slack st (mapGet m tag) with
    | Run.ret (sub, some e) st1 => Run.ret (sub, some e) st1
    | Run.ret (sub, none) st1 =>
      (match aid with
       | some (a, e) => if mapGet sub "00".toList ≠ a then Run.ret (sub, some e) st1
                        else Run.ret (sub, none) st1
       | none => Run.ret (sub, none) st1)
    | Run.panic => Run.panic
    | Run.unfinished => Run.unfinished
  else Run.ret ([], none) st

/-- The function `ConvertMapToQR`; a `nil` pointer is `none`. -/
def ConvertMapToQR (slack : Nat → Nat) (st : Scratch) (m : TagMap) :
    Run (Option QR × Option GoError) :=
  let stringToCheckCRC := st.stringWithNoCRC ++ "6304".toList
  match checkCRC stringToCheckCRC st.crcFromStr with
  | some e => Run.ret (none, some e) st
  | none =>
    match decodeGroup slack st m "29".toList
        (some ("A000000677010111".toList,
          "invalid subtag \x27Credit Transfer with PromptPayID\x27")) with
    | Run.panic => Run.panic
    | Run.unfinished => Run.unfinished
    | Run.ret (_, some e) st1 => Run.ret (none, some e) st1
    | Run.ret (promptPay, none) st1 =>
      match decodeGroup slack st1 m "30".toList
          (some ("A000000677010112".toList, "invalid subtag \x27Promptpay Bill Payment\x27")) with
      | Run.panic => Run.panic
      | Run.unfinished => Run.unfinished
      | Run.ret (_, some e) st2 => Run.ret (none, some e) st2
      | Run.ret (promptPayBillPayment, none) st2 =>
        match decodeGroup slack st2 m "31".toList none with
        | Run.panic => Run.panic
        | Run.unfinished => Run.unfinished
        | Run.ret (_, some e) st3 => Run.ret (none, some e) st3
        | Run.ret (api, none) st3 =>
          match decodeGroup slack st3 m "62".toList none with
          | Run.panic => Run.panic
          | Run.unfinished => Run.unfinished
          | Run.ret (_, some e) st4 => Run.ret (none, some e) st4
          | Run.ret (additional, none) st4 =>
            Run.ret (finishMapToQR m promptPay promptPayBillPayment api additional) st4

/-- The function `DecodeQRVisa`: the pointer returned (`new(QR)` points to
the zero value) and the error. -/
def DecodeQRVisa (slack : Nat → Nat) (st : Scratch) (s : Str) :
    Run (Option QR × Option GoError) :=
  match ConvertStringToMap slack st s with
  | Run.panic => Run.panic
  | Run.unfinished => Run.unfinished
  | Run.ret (_, some e) st1 => Run.ret (some zeroQR, some e) st1
  | Run.ret (stringConverted, none) st1 =>
    match ConvertMapToQR slack st1 stringConverted with
    | Run.panic => Run.panic
    | Run.unfinished => Run.unfinished
    | Run.ret (_, some e) st2 => Run.ret (some zeroQR, some e) st2
    | Run.ret (mapConverted, none) st2 => Run.ret (mapConverted, none) st2

/-! ## Encoding -/

/-- The length checks at the start of `ConvertQRToMap`: the first violated one
gives its error.  The last check compares with 4 while its message says 25. -/
def encodeLengthCheck (qr : QR) : Option GoError :=
  if qr.PayloadFormatIndicator ≠ [] ∧ qr.PayloadFormatIndicator.length ≠ 2 then
    some ("utf8.RuneCountInString(qr.PayloadFormatIndicator) must be 2 (got "
      ++ fmtD qr.PayloadFormatIndicator.length ++ ")")
  else if qr.PointOfInitiationMethod ≠ [] ∧ qr.PointOfInitiationMethod.length ≠ 2 then
    some ("utf8.RuneCountInString(qr.PointOfInitiationMethod) must be 2 (got "
      ++ fmtD qr.PointOfInitiationMethod.length ++ ")")
  else if qr.Merchant.CategoryCode ≠ [] ∧ qr.Merchant.CategoryCode.length ≠ 4 then
    some ("utf8.RuneCountInString(qr.Merchant.CategoryCode) must be 4 (got "
      ++ fmtD qr.Merchant.CategoryCode.length ++ ")")
  else if qr.Transaction.CurrencyCode ≠ [] ∧ qr.Transaction.CurrencyCode.length ≠ 3 then
    some ("utf8.RuneCountInString(qr.Transaction.CurrencyCode) must be 3 (got "
      ++ fmtD qr.Transaction.CurrencyCode.length ++ ")")
  else if qr.CountryCode ≠ [] ∧ qr.CountryCode.length ≠ 2 then
    some ("utf8.RuneCountInString(qr.CountryCode) must be 2 (got "
      ++ fmtD qr.CountryCode.length ++ ")")
  else if qr.CRC ≠ [] ∧ qr.CRC.length ≠ 4 then
    some ("utf8.RuneCountInString(qr.CRC) must be 4 (got " ++ fmtD qr.CRC.length ++ ")")
  else if qr.DataObjectForMerchantAccountInformationByMasterCard ≠ [] ∧
      qr.DataObjectForMerchantAccountInformationByMasterCard.length ≠ 4 then
    some ("utf8.RuneCountInString(qr.DataObjectForMerchantAccountInformationByMasterCard) must be 25 (got "
      ++ fmtD qr.DataObjectForMerchantAccountInformationByMasterCard.length ++ ")")
  else none

/-- What `ConvertQRToMap` writes to the buffer of a group for one subfield:
nothing when the value is empty, else the id, the length (with a `0` in front
when it is below 10) and the value. -/
def subField (id val : Str) : Str :=
  if val ≠ [] then
    id ++ (if val.length < 10 then ['0'] else []) ++ itoa val.length ++ val
  else []

/-- The buffer of group 29. -/
def promptPayBlob (p : QRMerchantIDPromptPay) : Str :=
  subField "00".toList p.AID ++ subField "01".toList p.MobileNumber ++
  subField "02".toList p.NationalID ++ subField "03".toList p.EWalletID ++
  subField "04".toList p.BankAccount ++ subField "05".toList p.NationalEWalletID

/-- The buffer of group 30. -/
def billPaymentBlob (p : QRMerchantIDPromptPayBillPayment) : Str :=
  subField "00".toList p.AID ++ subField "01".toList p.BillerID ++
  subField "02".toList p.Reference1 ++ subField "03".toList p.Reference2

/-- The buffer of group 31. -/
def apiBlob (p : QRMerchantIDPromptPayAPI) : Str :=
  subField "00".toList p.AID ++ subField "01".toList p.AcquirerID ++
  subField "02".toList p.MerchantID ++ subField "03".toList p.TransactionRef ++
  subField "04".toList p.ReferenceNo ++ subField "05".toList p.TerminalID

/-- The buffer of group 62. -/
def additionalBlob (a : QRAdditionalData) : Str :=
  subField "01".toList a.BillNumber ++ subField "02".toList a.MobileNumber ++
  subField "03".toList a.StoreID ++ subField "04".toList a.LoyaltyNumber ++
  subField "05".toList a.ReferenceID ++ subField "06".toList a.ConsumerID ++
  subField "07".toList a.TerminalID ++ subField "08".toList a.PurposeOfTransaction ++
  subField "09".toList a.AdditionalConsumerDataRequest

/-- The map that `ConvertQRToMap` fills before its last loop. -/
def fillMap (qr : QR) : TagMap :=
  let m : TagMap := []
  let m := mapSet m "00".toList qr.PayloadFormatIndicator
  let m := mapSet m "01".toList qr.PointOfInitiationMethod
  let m := mapSet m "02".toList qr.Merchant.ID.Visa
  let m := mapSet m "04".toList qr.Merchant.ID.MasterCard
  let m := mapSet m "14".toList qr.Merchant.ID.CUP
  let m := mapSet m "15".toList qr.Merchant.ID.UnionPay
  let m := mapSet m "17".toList qr.Merchant.ID.EMVCo
  let m := mapSet m "26".toList qr.Merchant.ID.TPN
  let m := mapSet m "27".toList qr.Merchant.ID.PromptCard
  let m := mapSet m "28".toList qr.Merchant.ID.VisaLocal
  let m :=
    if qr.Merchant.ID.PromptPay.AID ≠ [] ∨ qr.Merchant.ID.PromptPay.MobileNumber ≠ [] ∨
        qr.Merchant.ID.PromptPay.NationalID ≠ [] ∨ qr.Merchant.ID.PromptPay.EWalletID ≠ [] ∨
        qr.Merchant.ID.PromptPay.BankAccount ≠ [] ∨
        qr.Merchant.ID.PromptPay.NationalEWalletID ≠ [] then
      mapSet m "29".toList (promptPayBlob qr.Merchant.ID.PromptPay)
    else m
  let m :=
    if qr.Merchant.ID.PromptPayBillPayment.AID ≠ [] ∨
        qr.Merchant.ID.PromptPayBillPayment.BillerID ≠ [] ∨
        qr.Merchant.ID.PromptPayBillPayment.Reference1 ≠ [] ∨
        qr.Merchant.ID.PromptPayBillPayment.Reference2 ≠ [] then
      mapSet m "30".toList (billPaymentBlob qr.Merchant.ID.PromptPayBillPayment)
    else m
  let m :=
    if qr.Merchant.ID.API.AID ≠ [] ∨ qr.Merchant.ID.API.AcquirerID ≠ [] ∨
        qr.Merchant.ID.API.MerchantID ≠ [] then
      mapSet m "31".toList (apiBlob qr.Merchant.ID.API)
    else m
  let m := mapSet m "52".toList qr.Merchant.CategoryCode
  let m := mapSet m "53".toList qr.Transaction.CurrencyCode
  let m := mapSet m "54".toList qr.Transaction.Amount
  let m := mapSet m "58".toList qr.CountryCode
  let m := mapSet m "59".toList qr.Merchant.Name
  let m := mapSet m "60".toList qr.Merchant.City
  let m :=
    if qr.AdditionalData.BillNumber ≠ [] ∨ qr.AdditionalData.MobileNumber ≠ [] ∨
        qr.AdditionalData.StoreID ≠ [] ∨ qr.AdditionalData.LoyaltyNumber ≠ [] ∨
        qr.AdditionalData.ReferenceID ≠ [] ∨ qr.AdditionalData.ConsumerID ≠ [] ∨
        qr.AdditionalData.TerminalID ≠ [] ∨ qr.AdditionalData.PurposeOfTransaction ≠ [] ∨
        qr.AdditionalData.AdditionalConsumerDataRequest ≠ [] then
      mapSet m "62".toList (additionalBlob qr.AdditionalData)
    else m
  let m := mapSet m "63".toList qr.CRC
  let m := mapSet m "63".toList qr.DataObjectForMerchantAccountInformationByMasterCard
  m

/-- The last loop of `ConvertQRToMap` over the entries of the map: the first
value with more than 99 code points gives the error.  Go visits the entries of
a map in no fixed order; the model visits them in the order in which the keys
were first written, which decides which tag the message names when several
values are too long. -/
def checkTagLengths : TagMap → Option GoError
  | [] => none
  | (key, subtag) :: rest =>
    if subtag.length > 99 then
      some ("length of each tag must not longer than 99, found tag " ++ String.mk key ++
        " with length " ++ fmtD subtag.length)
    else checkTagLengths rest

/-- The function `ConvertQRToMap`; a `nil` map is `none`. -/
def ConvertQRToMap (qr : QR) : Option TagMap × Option GoError :=
  match encodeLengthCheck qr with
  | some e => (none, some e)
  | none =>
    let m := fillMap qr
    match checkTagLengths m with
    | some e => (none, some e)
    | none => (some m, none)

/-- The order of `sort.Strings` on two different strings: byte-wise on the
UTF-8 text, which is code point by code point. -/
def strLE : Str → Str → Bool
  | [], _ => true
  | _ :: _, [] => false
  | a :: as, b :: bs =>
    if a.toNat < b.toNat then true
    else if b.toNat < a.toNat then false
    else strLE as bs

/-- The call `sort.Strings`. -/
def sortStrings (keys : List Str) : List Str :=
  List.insertionSort (fun a b => strLE a b = true) keys

/-- The record that `ConvertMapToString` writes for one entry: the key, the
length of the value (with a `0` in front when it has one digit) and the value. -/
def writeRecord (keyMap mapToPrint : Str) : Str :=
  keyMap ++ (if (itoa mapToPrint.length).length = 1 then ['0'] else []) ++
    itoa mapToPrint.length ++ mapToPrint

/-- The loop of `ConvertMapToString` over the sorted keys, with the buffer
`str` written so far: the final buffer, or the error of the check of a given
value of tag 63. -/
def serializeLoop (mapStr : TagMap) : List Str → Str → Str × Option GoError
  | [], str => (str, none)
  | keyMap :: rest, str =>
    let mapToPrint := mapGet mapStr keyMap
    if mapToPrint ≠ [] then
      let crcGeneratedHex := sprintfX (ChecksumCCITTFalse (utf8Bytes (str ++ "6304".toList)))
      if keyMap = "63".toList ∧ mapToPrint ≠ crcGeneratedHex then
        ([], some ("Invalid CRC ! expected " ++ String.mk crcGeneratedHex ++ ", but got, " ++
          String.mk (mapGet mapStr "63".toList)))
      else serializeLoop mapStr rest (str ++ writeRecord keyMap mapToPrint)
    else serializeLoop mapStr rest str

/-- The function `ConvertMapToString`. -/
def ConvertMapToString (mapStr : TagMap) : Str × Option GoError :=
  let sortedKey := sortStrings (mapKeys mapStr)
  match serializeLoop mapStr sortedKey [] with
  | (_, some e) => ([], some e)
  | (str, none) =>
    if mapGet mapStr "63".toList = [] then
      let crcGeneratedHex := sprintfX (ChecksumCCITTFalse (utf8Bytes (str ++ "6304".toList)))
      (str ++ "63".toList ++ "04".toList ++
        List.replicate (4 - crcGeneratedHex.length) '0' ++ crcGeneratedHex, none)
    else (str, none)

/-! ## Strings of arbitrary bytes

The definitions above take a string as the sequence of its code points, which
is what the string is when it is valid UTF-8.  The definitions of this section
take the strings that the program receives from outside as sequences of bytes:
the payload that is decoded, the fields of a model that is encoded and the
keys and values of a map that is serialized. -/

/-- A Go string as it is stored: a sequence of bytes. -/
abbrev Bytes := List Nat

/-- The rune at the head of a string and the number of bytes it takes, as the
conversion `[]rune(s)` and `utf8.RuneCountInString` read it: a byte below 0x80
is itself; a shortest-form encoding of two, three or four bytes of a code
point that is no surrogate and at most 0x10FFFF is that code point; every
other byte is U+FFFD and takes one byte. -/
def decodeRune : Bytes → Char × Nat
  | [] => (Char.ofNat 0xFFFD, 1)
  | b0 :: rest =>
    if b0 < 0x80 then (Char.ofNat b0, 1)
    else if 0xC0 ≤ b0 ∧ b0 < 0xE0 then
      match rest with
      | b1 :: _ =>
        if 0x80 ≤ b1 ∧ b1 ≤ 0xBF ∧ 0x7F < b0 % 32 * 64 + b1 % 64 then
          (Char.ofNat (b0 % 32 * 64 + b1 % 64), 2)
        else (Char.ofNat 0xFFFD, 1)
      | [] => (Char.ofNat 0xFFFD, 1)
    else if 0xE0 ≤ b0 ∧ b0 < 0xF0 then
      match rest with
      | b1 :: b2 :: _ =>
        if 0x80 ≤ b1 ∧ b1 ≤ 0xBF ∧ 0x80 ≤ b2 ∧ b2 ≤ 0xBF ∧
            0x7FF < b0 % 16 * 4096 + b1 % 64 * 64 + b2 % 64 ∧
            ¬ (0xD800 ≤ b0 % 16 * 4096 + b1 % 64 * 64 + b2 % 64 ∧
              b0 % 16 * 4096 + b1 % 64 * 64 + b2 % 64 ≤ 0xDFFF) then
          (Char.ofNat (b0 % 16 * 4096 + b1 % 64 * 64 + b2 % 64), 3)
        else (Char.ofNat 0xFFFD, 1)
      | _ => (Char.ofNat 0xFFFD, 1)
    else if 0xF0 ≤ b0 ∧ b0 < 0xF8 then
      match rest with
      | b1 :: b2 :: b3 :: _ =>
        if 0x80 ≤ b1 ∧ b1 ≤ 0xBF ∧ 0x80 ≤ b2 ∧ b2 ≤ 0xBF ∧ 0x80 ≤ b3 ∧ b3 ≤ 0xBF ∧
            0xFFFF < b0 % 8 * 262144 + b1 % 64 * 4096 + b2 % 64 * 64 + b3 % 64 ∧
            b0 % 8 * 262144 + b1 % 64 * 4096 + b2 % 64 * 64 + b3 % 64 ≤ 0x10FFFF then
          (Char.ofNat (b0 % 8 * 262144 + b1 % 64 * 4096 + b2 % 64 * 64 + b3 % 64), 4)
        else (Char.ofNat 0xFFFD, 1)
      | _ => (Char.ofNat 0xFFFD, 1)
    else (Char.ofNat 0xFFFD, 1)

/-- The loop of the conversion `[]rune(s)`; the first argument bounds the
number of runes. -/
def runesLoop : Nat → Bytes → Str
  | 0, _ => []
  | _, [] => []
  | fuel + 1, b :: rest =>
    (decodeRune (b :: rest)).1 :: runesLoop fuel ((b :: rest).drop (decodeRune (b :: rest)).2)

/-- The conversion `[]rune(s)`: every rune takes at least one byte, so the
bound is never used up. -/
def runes (s : Bytes) : Str := runesLoop s.length s

/-- The call `utf8.RuneCountInString(s)`. -/
def runeCount (s : Bytes) : Nat := (runes s).length

/-- The bytes of a string literal of the program. -/
def lit (s : String) : Bytes := utf8Bytes s.toList

/-- A Go `error` whose message may hold any bytes. -/
abbrev GoErrorB := Bytes

/-- A Go `map[string]string` whose keys and values hold any bytes. -/
abbrev TagMapB := List (Bytes × Bytes)

/-- The Go expression `m[key]`. -/
def mapGetB : TagMapB → Bytes → Bytes
  | [], _ => []
  | (k, v) :: rest, key => if k = key then v else mapGetB rest key

/-- The Go statement `m[key] = val`. -/
def mapSetB : TagMapB → Bytes → Bytes → TagMapB
  | [], key, val => [(key, val)]
  | (k, v) :: rest, key, val =>
    if k = key then (k, val) :: rest else (k, v) :: mapSetB rest key val

/-- The keys of a map. -/
def mapKeysB (m : TagMapB) : List Bytes := m.map Prod.fst

/-- The map whose keys and values are the UTF-8 texts of those of `m`. -/
def TagMap.toBytes (m : TagMap) : TagMapB := m.map (fun p => (utf8Bytes p.1, utf8Bytes p.2))

/-- The function `ConvertStringToMap` on a string of any bytes: the code reads
the string only through `[]rune(s)` and `utf8.RuneCountInString(s)`, and the
keys and values that it stores are made from runes. -/
def ConvertStringToMapB (slack : Nat → Nat) (st : Scratch) (s : Bytes) :
    Run (TagMap × Option GoError) :=
  ConvertStringToMap slack st (runes s)

/-- The function `DecodeQRVisa` on a string of any bytes: the payload is read
by `ConvertStringToMap` only. -/
def DecodeQRVisaB (slack : Nat → Nat) (st : Scratch) (s : Bytes) :
    Run (Option QR × Option GoError) :=
  DecodeQRVisa slack st (runes s)

structure QRMerchantIDPromptPayB where
  AID : Bytes
  MobileNumber : Bytes
  NationalID : Bytes
  EWalletID : Bytes
  BankAccount : Bytes
  NationalEWalletID : Bytes
deriving DecidableEq, Repr

structure QRMerchantIDPromptPayBillPaymentB where
  AID : Bytes
  BillerID : Bytes
  Reference1 : Bytes
  Reference2 : Bytes
deriving DecidableEq, Repr

structure QRMerchantIDPromptPayAPIB where
  AID : Bytes
  AcquirerID : Bytes
  MerchantID : Bytes
  TransactionRef : Bytes
  ReferenceNo : Bytes
  TerminalID : Bytes
deriving DecidableEq, Repr

structure QRMerchantIDB where
  Visa : Bytes
  MasterCard : Bytes
  CUP : Bytes
  JCB : Bytes
  UnionPay : Bytes
  EMVCo : Bytes
  AMEX : Bytes
  TPN : Bytes
  PromptCard : Bytes
  VisaLocal : Bytes
  PromptPay : QRMerchantIDPromptPayB
  PromptPayBillPayment : QRMerchantIDPromptPayBillPaymentB
  API : QRMerchantIDPromptPayAPIB
deriving DecidableEq, Repr

structure QRMerchantB where
  ID : QRMerchantIDB
  CategoryCode : Bytes
  Name : Bytes
  City : Bytes
deriving DecidableEq, Repr

structure QRTransactionB where
  CurrencyCode : Bytes
  Amount : Bytes
deriving DecidableEq, Repr

structure QRAdditionalDataB where
  BillNumber : Bytes
  MobileNumber : Bytes
  StoreID : Bytes
  LoyaltyNumber : Bytes
  ReferenceID : Bytes
  ConsumerID : Bytes
  TerminalID : Bytes
  PurposeOfTransaction : Bytes
  AdditionalConsumerDataRequest : Bytes
deriving DecidableEq, Repr

structure QRB where
  PayloadFormatIndicator : Bytes
  PointOfInitiationMethod : Bytes
  Merchant : QRMerchantB
  Transaction : QRTransactionB
  CountryCode : Bytes
  AdditionalData : QRAdditionalDataB
  CRC : Bytes
  DataObjectForMerchantAccountInformationByMasterCard : Bytes
deriving DecidableEq, Repr

/-- The value of type `QRMerchantIDPromptPay` whose strings are the UTF-8 texts of the code points. -/
def QRMerchantIDPromptPay.toBytes (p : QRMerchantIDPromptPay) : QRMerchantIDPromptPayB :=
  { AID := utf8Bytes p.AID, MobileNumber := utf8Bytes p.MobileNumber,
    NationalID := utf8Bytes p.NationalID, EWalletID := utf8Bytes p.EWalletID,
    BankAccount := utf8Bytes p.BankAccount, NationalEWalletID := utf8Bytes p.NationalEWalletID }

/-- The value of type `QRMerchantIDPromptPayBillPayment` whose strings are the UTF-8 texts of the code points. -/
def QRMerchantIDPromptPayBillPayment.toBytes (p : QRMerchantIDPromptPayBillPayment) : QRMerchantIDPromptPayBillPaymentB :=
  { AID := utf8Bytes p.AID, BillerID := utf8Bytes p.BillerID,
    Reference1 := utf8Bytes p.Reference1, Reference2 := utf8Bytes p.Reference2 }

/-- The value of type `QRMerchantIDPromptPayAPI` whose strings are the UTF-8 texts of the code points. -/
def QRMerchantIDPromptPayAPI.toBytes (p : QRMerchantIDPromptPayAPI) : QRMerchantIDPromptPayAPIB :=
  { AID := utf8Bytes p.AID, AcquirerID := utf8Bytes p.AcquirerID,
    MerchantID := utf8Bytes p.MerchantID, TransactionRef := utf8Bytes p.TransactionRef,
    ReferenceNo := utf8Bytes p.ReferenceNo, TerminalID := utf8Bytes p.TerminalID }

/-- The value of type `QRMerchantID` whose strings are the UTF-8 texts of the code points. -/
def QRMerchantID.toBytes (p : QRMerchantID) : QRMerchantIDB :=
  { Visa := utf8Bytes p.Visa, MasterCard := utf8Bytes p.MasterCard, CUP := utf8Bytes p.CUP,
    JCB := utf8Bytes p.JCB, UnionPay := utf8Bytes p.UnionPay, EMVCo := utf8Bytes p.EMVCo,
    AMEX := utf8Bytes p.AMEX, TPN := utf8Bytes p.TPN, PromptCard := utf8Bytes p.PromptCard,
    VisaLocal := utf8Bytes p.VisaLocal, PromptPay := p.PromptPay.toBytes,
    PromptPayBillPayment := p.PromptPayBillPayment.toBytes, API := p.API.toBytes }

/-- The value of type `QRMerchant` whose strings are the UTF-8 texts of the code points. -/
def QRMerchant.toBytes (p : QRMerchant) : QRMerchantB :=
  { ID := p.ID.toBytes, CategoryCode := utf8Bytes p.CategoryCode, Name := utf8Bytes p.Name,
    City := utf8Bytes p.City }

/-- The value of type `QRTransaction` whose strings are the UTF-8 texts of the code points. -/
def QRTransaction.toBytes (p : QRTransaction) : QRTransactionB :=
  { CurrencyCode := utf8Bytes p.CurrencyCode, Amount := utf8Bytes p.Amount }

/-- The value of type `QRAdditionalData` whose strings are the UTF-8 texts of the code points. -/
def QRAdditionalData.toBytes (p : QRAdditionalData) : QRAdditionalDataB :=
  { BillNumber := utf8Bytes p.BillNumber, MobileNumber := utf8Bytes p.MobileNumber,
    StoreID := utf8Bytes p.StoreID, LoyaltyNumber := utf8Bytes p.LoyaltyNumber,
    ReferenceID := utf8Bytes p.ReferenceID, ConsumerID := utf8Bytes p.ConsumerID,
    TerminalID := utf8Bytes p.TerminalID,
    PurposeOfTransaction := utf8Bytes p.PurposeOfTransaction,
    AdditionalConsumerDataRequest := utf8Bytes p.AdditionalConsumerDataRequest }

/-- The value of type `QR` whose strings are the UTF-8 texts of the code points. -/
def QR.toBytes (p : QR) : QRB :=
  { PayloadFormatIndicator := utf8Bytes p.PayloadFormatIndicator,
    PointOfInitiationMethod := utf8Bytes p.PointOfInitiationMethod,
    Merchant := p.Merchant.toBytes, Transaction := p.Transaction.toBytes,
    CountryCode := utf8Bytes p.CountryCode, AdditionalData := p.AdditionalData.toBytes,
    CRC := utf8Bytes p.CRC,
    DataObjectForMerchantAccountInformationByMasterCard := utf8Bytes p.DataObjectForMerchantAccountInformationByMasterCard }

/-- The length checks at the start of `ConvertQRToMap`, on strings of any
bytes: the first violated one gives its error.  The last check compares with 4
while its message says 25. -/
def encodeLengthCheckB (qr : QRB) : Option GoErrorB :=
  if qr.PayloadFormatIndicator ≠ [] ∧ runeCount qr.PayloadFormatIndicator ≠ 2 then
    some (lit ("utf8.RuneCountInString(qr.PayloadFormatIndicator) must be 2 (got "
      ++ fmtD (runeCount qr.PayloadFormatIndicator) ++ ")"))
  else if qr.PointOfInitiationMethod ≠ [] ∧ runeCount qr.PointOfInitiationMethod ≠ 2 then
    some (lit ("utf8.RuneCountInString(qr.PointOfInitiationMethod) must be 2 (got "
      ++ fmtD (runeCount qr.PointOfInitiationMethod) ++ ")"))
  else if qr.Merchant.CategoryCode ≠ [] ∧ runeCount qr.Merchant.CategoryCode ≠ 4 then
    some (lit ("utf8.RuneCountInString(qr.Merchant.CategoryCode) must be 4 (got "
      ++ fmtD (runeCount qr.Merchant.CategoryCode) ++ ")"))
  else if qr.Transaction.CurrencyCode ≠ [] ∧ runeCount qr.Transaction.CurrencyCode ≠ 3 then
    some (lit ("utf8.RuneCountInString(qr.Transaction.CurrencyCode) must be 3 (got "
      ++ fmtD (runeCount qr.Transaction.CurrencyCode) ++ ")"))
  else if qr.CountryCode ≠ [] ∧ runeCount qr.CountryCode ≠ 2 then
    some (lit ("utf8.RuneCountInString(qr.CountryCode) must be 2 (got "
      ++ fmtD (runeCount qr.CountryCode) ++ ")"))
  else if qr.CRC ≠ [] ∧ runeCount qr.CRC ≠ 4 then
    some (lit ("utf8.RuneCountInString(qr.CRC) must be 4 (got " ++ fmtD (runeCount qr.CRC) ++ ")"))
  else if qr.DataObjectForMerchantAccountInformationByMasterCard ≠ [] ∧
      runeCount qr.DataObjectForMerchantAccountInformationByMasterCard ≠ 4 then
    some (lit ("utf8.RuneCountInString(qr.DataObjectForMerchantAccountInformationByMasterCard) must be 25 (got "
      ++ fmtD (runeCount qr.DataObjectForMerchantAccountInformationByMasterCard) ++ ")"))
  else none

/-- What `ConvertQRToMap` writes to the buffer of a group for one subfield:
nothing when the value is empty, else the id, the number of runes (with a `0`
in front when it is below 10) and the bytes of the value as they are. -/
def subFieldB (id val : Bytes) : Bytes :=
  if val ≠ [] then
    id ++ (if runeCount val < 10 then lit "0" else []) ++ utf8Bytes (itoa (runeCount val)) ++ val
  else []

/-- The buffer of group 29, on strings of any bytes. -/
def promptPayBlobB (p : QRMerchantIDPromptPayB) : Bytes :=
  subFieldB (lit "00") p.AID ++ subFieldB (lit "01") p.MobileNumber ++
  subFieldB (lit "02") p.NationalID ++ subFieldB (lit "03") p.EWalletID ++
  subFieldB (lit "04") p.BankAccount ++ subFieldB (lit "05") p.NationalEWalletID

/-- The buffer of group 30, on strings of any bytes. -/
def billPaymentBlobB (p : QRMerchantIDPromptPayBillPaymentB) : Bytes :=
  subFieldB (lit "00") p.AID ++ subFieldB (lit "01") p.BillerID ++
  subFieldB (lit "02") p.Reference1 ++ subFieldB (lit "03") p.Reference2

/-- The buffer of group 31, on strings of any bytes. -/
def apiBlobB (p : QRMerchantIDPromptPayAPIB) : Bytes :=
  subFieldB (lit "00") p.AID ++ subFieldB (lit "01") p.AcquirerID ++
  subFieldB (lit "02") p.MerchantID ++ subFieldB (lit "03") p.TransactionRef ++
  subFieldB (lit "04") p.ReferenceNo ++ subFieldB (lit "05") p.TerminalID

/-- The buffer of group 62, on strings of any bytes. -/
def additionalBlobB (a : QRAdditionalDataB) : Bytes :=
  subFieldB (lit "01") a.BillNumber ++ subFieldB (lit "02") a.MobileNumber ++
  subFieldB (lit "03") a.StoreID ++ subFieldB (lit "04") a.LoyaltyNumber ++
  subFieldB (lit "05") a.ReferenceID ++ subFieldB (lit "06") a.ConsumerID ++
  subFieldB (lit "07") a.TerminalID ++ subFieldB (lit "08") a.PurposeOfTransaction ++
  subFieldB (lit "09") a.AdditionalConsumerDataRequest

/-- The map that `ConvertQRToMap` fills before its last loop, on strings of any
bytes. -/
def fillMapB (qr : QRB) : TagMapB :=
  let m : TagMapB := []
  let m := mapSetB m (lit "00") qr.PayloadFormatIndicator
  let m := mapSetB m (lit "01") qr.PointOfInitiationMethod
  let m := mapSetB m (lit "02") qr.Merchant.ID.Visa
  let m := mapSetB m (lit "04") qr.Merchant.ID.MasterCard
  let m := mapSetB m (lit "14") qr.Merchant.ID.CUP
  let m := mapSetB m (lit "15") qr.Merchant.ID.UnionPay
  let m := mapSetB m (lit "17") qr.Merchant.ID.EMVCo
  let m := mapSetB m (lit "26") qr.Merchant.ID.TPN
  let m := mapSetB m (lit "27") qr.Merchant.ID.PromptCard
  let m := mapSetB m (lit "28") qr.Merchant.ID.VisaLocal
  let m :=
    if qr.Merchant.ID.PromptPay.AID ≠ [] ∨ qr.Merchant.ID.PromptPay.MobileNumber ≠ [] ∨
        qr.Merchant.ID.PromptPay.NationalID ≠ [] ∨ qr.Merchant.ID.PromptPay.EWalletID ≠ [] ∨
        qr.Merchant.ID.PromptPay.BankAccount ≠ [] ∨
        qr.Merchant.ID.PromptPay.NationalEWalletID ≠ [] then
      mapSetB m (lit "29") (promptPayBlobB qr.Merchant.ID.PromptPay)
    else m
  let m :=
    if qr.Merchant.ID.PromptPayBillPayment.AID ≠ [] ∨
        qr.Merchant.ID.PromptPayBillPayment.BillerID ≠ [] ∨
        qr.Merchant.ID.PromptPayBillPayment.Reference1 ≠ [] ∨
        qr.Merchant.ID.PromptPayBillPayment.Reference2 ≠ [] then
      mapSetB m (lit "30") (billPaymentBlobB qr.Merchant.ID.PromptPayBillPayment)
    else m
  let m :=
    if qr.Merchant.ID.API.AID ≠ [] ∨ qr.Merchant.ID.API.AcquirerID ≠ [] ∨
        qr.Merchant.ID.API.MerchantID ≠ [] then
      mapSetB m (lit "31") (apiBlobB qr.Merchant.ID.API)
    else m
  let m := mapSetB m (lit "52") qr.Merchant.CategoryCode
  let m := mapSetB m (lit "53") qr.Transaction.CurrencyCode
  let m := mapSetB m (lit "54") qr.Transaction.Amount
  let m := mapSetB m (lit "58") qr.CountryCode
  let m := mapSetB m (lit "59") qr.Merchant.Name
  let m := mapSetB m (lit "60") qr.Merchant.City
  let m :=
    if qr.AdditionalData.BillNumber ≠ [] ∨ qr.AdditionalData.MobileNumber ≠ [] ∨
        qr.AdditionalData.StoreID ≠ [] ∨ qr.AdditionalData.LoyaltyNumber ≠ [] ∨
        qr.AdditionalData.ReferenceID ≠ [] ∨ qr.AdditionalData.ConsumerID ≠ [] ∨
        qr.AdditionalData.TerminalID ≠ [] ∨ qr.AdditionalData.PurposeOfTransaction ≠ [] ∨
        qr.AdditionalData.AdditionalConsumerDataRequest ≠ [] then
      mapSetB m (lit "62") (additionalBlobB qr.AdditionalData)
    else m
  let m := mapSetB m (lit "63") qr.CRC
  let m := mapSetB m (lit "63") qr.DataObjectForMerchantAccountInformationByMasterCard
  m

/-- The last loop of `ConvertQRToMap` over the entries of the map, on strings
of any bytes: the first value with more than 99 runes gives the error, visited
in the order of `checkTagLengths`. -/
def checkTagLengthsB : TagMapB → Option GoErrorB
  | [] => none
  | (key, subtag) :: rest =>
    if runeCount subtag > 99 then
      some (lit "length of each tag must not longer than 99, found tag " ++ key ++
        lit (" with length " ++ fmtD (runeCount subtag)))
    else checkTagLengthsB rest

/-- The function `ConvertQRToMap` on a model whose strings hold any bytes; a
`nil` map is `none`. -/
def ConvertQRToMapB (qr : QRB) : Option TagMapB × Option GoErrorB :=
  match encodeLengthCheckB qr with
  | some e => (none, some e)
  | none =>
    let m := fillMapB qr
    match checkTagLengthsB m with
    | some e => (none, some e)
    | none => (some m, none)

/-- The order of `sort.Strings` on two different strings: byte by byte. -/
def bytesLE : Bytes → Bytes → Bool
  | [], _ => true
  | _ :: _, [] => false
  | a :: as, b :: bs =>
    if a < b then true
    else if b < a then false
    else bytesLE as bs

/-- The call `sort.Strings` on strings of any bytes. -/
def sortStringsB (keys : List Bytes) : List Bytes :=
  List.insertionSort (fun a b => bytesLE a b = true) keys

/-- The record that `ConvertMapToString` writes for one entry: the key, the
number of runes of the value (with a `0` in front when it has one digit) and
the bytes of the value as they are. -/
def writeRecordB (keyMap mapToPrint : Bytes) : Bytes :=
  keyMap ++ (if (itoa (runeCount mapToPrint)).length = 1 then lit "0" else []) ++
    utf8Bytes (itoa (runeCount mapToPrint)) ++ mapToPrint

/-- The loop of `ConvertMapToString` over the sorted keys, on strings of any
bytes: the checksum is taken of the bytes written so far. -/
def serializeLoopB (mapStr : TagMapB) : List Bytes → Bytes → Bytes × Option GoErrorB
  | [], str => (str, none)
  | keyMap :: rest, str =>
    let mapToPrint := mapGetB mapStr keyMap
    if mapToPrint ≠ [] then
      let crcGeneratedHex := utf8Bytes (sprintfX (ChecksumCCITTFalse (str ++ lit "6304")))
      if keyMap = lit "63" ∧ mapToPrint ≠ crcGeneratedHex then
        ([], some (lit "Invalid CRC ! expected " ++ crcGeneratedHex ++ lit ", but got, " ++
          mapGetB mapStr (lit "63")))
      else serializeLoopB mapStr rest (str ++ writeRecordB keyMap mapToPrint)
    else serializeLoopB mapStr rest str

/-- The function `ConvertMapToString` on a map whose keys and values hold any
bytes. -/
def ConvertMapToStringB (mapStr : TagMapB) : Bytes × Option GoErrorB :=
  let sortedKey := sortStringsB (mapKeysB mapStr)
  match serializeLoopB mapStr sortedKey [] with
  | (_, some e) => ([], some e)
  | (str, none) =>
    if mapGetB mapStr (lit "63") = [] then
      let crcGeneratedHex := sprintfX (ChecksumCCITTFalse (str ++ lit "6304"))
      (str ++ lit "63" ++ lit "04" ++
        utf8Bytes (List.replicate (4 - crcGeneratedHex.length) '0') ++
        utf8Bytes crcGeneratedHex, none)
    else (str, none)


/-! ## Definitions used to state the properties -/

structure RawRecord where
  tag : Str
  len : Str
  val : Str

def RawRecord.text (r : RawRecord) : Str := r.tag ++ r.len ++ r.val

def RawRecord.WellFormed (r : RawRecord) : Prop :=
  r.tag.length = 2 ∧ r.len.length = 2 ∧ parseInt10 r.len = (r.val.length : Int)

def tokenStep (m : TagMap) (st : Scratch) (r : RawRecord) : TagMap × Scratch :=
  (mapSet m r.tag r.val,
   if r.tag = ['6', '3'] then { st with crcFromStr := r.val }
   else { st with stringWithNoCRC :=
            st.stringWithNoCRC ++ (r.tag ++ sprintf02d (r.val.length : Int) ++ r.val) })

def tokenSteps : List RawRecord → TagMap → Scratch → TagMap × Scratch
  | [], m, st => (m, st)
  | r :: rs, m, st => tokenSteps rs (tokenStep m st r).1 (tokenStep m st r).2

def rawText (recs : List RawRecord) : Str := recs.flatMap RawRecord.text


/-- The checksum text of a payload: the hexadecimal text `h`, filled with `0`
on the left to four characters. -/
def pad4 (h : Str) : Str := List.replicate (4 - h.length) '0' ++ h

/-- The two decimal digits of a number below 100. -/
def twoDigits (n : Nat) : Str := [Char.ofNat (48 + n / 10), Char.ofNat (48 + n % 10)]

/-- The well-formed record with tag `k` and value `v`. -/
def record (k v : Str) : RawRecord := ⟨k, twoDigits v.length, v⟩

/-- The records of the keys `keys` that have a non-empty value in `m`. -/
def recordsOf (m : TagMap) (keys : List Str) : List RawRecord :=
  (keys.filter (fun k => mapGet m k ≠ [])).map (fun k => record k (mapGet m k))

/-- The records that `ConvertMapToString` writes for a map without a value
under `63`, before the checksum record. -/
def bodyOf (m : TagMap) : Str := rawText (recordsOf m (sortStrings (mapKeys m)))

/-- The checksum text for a body: the CRC of the body and `6304`, as four
upper-case hexadecimal digits. -/
def checksumOf (body : Str) : Str :=
  pad4 (sprintfX (ChecksumCCITTFalse (utf8Bytes (body ++ "6304".toList))))

/-- The payload for a body: the body, the head `6304` of the checksum record
and the checksum. -/
def payloadOf (body : Str) : Str := body ++ "6304".toList ++ checksumOf body

/-- The subfields of group 29 by id. -/
def promptPayFields (p : QRMerchantIDPromptPay) : TagMap :=
  [("00".toList, p.AID), ("01".toList, p.MobileNumber), ("02".toList, p.NationalID),
   ("03".toList, p.EWalletID), ("04".toList, p.BankAccount),
   ("05".toList, p.NationalEWalletID)]

/-- The subfields of group 30 by id. -/
def billPaymentFields (p : QRMerchantIDPromptPayBillPayment) : TagMap :=
  [("00".toList, p.AID), ("01".toList, p.BillerID), ("02".toList, p.Reference1),
   ("03".toList, p.Reference2)]

/-- The subfields of group 31 by id. -/
def apiFields (p : QRMerchantIDPromptPayAPI) : TagMap :=
  [("00".toList, p.AID), ("01".toList, p.AcquirerID), ("02".toList, p.MerchantID),
   ("03".toList, p.TransactionRef), ("04".toList, p.ReferenceNo), ("05".toList, p.TerminalID)]

/-- The subfields of group 62 by id. -/
def additionalFields (a : QRAdditionalData) : TagMap :=
  [("01".toList, a.BillNumber), ("02".toList, a.MobileNumber), ("03".toList, a.StoreID),
   ("04".toList, a.LoyaltyNumber), ("05".toList, a.ReferenceID), ("06".toList, a.ConsumerID),
   ("07".toList, a.TerminalID), ("08".toList, a.PurposeOfTransaction),
   ("09".toList, a.AdditionalConsumerDataRequest)]

/-- Every key of the map has two code points. -/
def KeysTwo (m : TagMap) : Prop := ∀ k ∈ mapKeys m, k.length = 2

/-- The buffer that `ConvertQRToMap` writes for the subfields `f` of a group. -/
def blobOf (f : TagMap) : Str := f.flatMap (fun p => subField p.1 p.2)

/-- The conditions, beyond acceptance by `ConvertQRToMap`, under which a model
is given back by decoding its encoding. -/
structure Canonical (m : QR) : Prop where
  country : m.CountryCode = "TH".toList
  currency : m.Transaction.CurrencyCode = "764".toList
  dataObject : m.DataObjectForMerchantAccountInformationByMasterCard = []
  jcb : m.Merchant.ID.JCB = []
  amex : m.Merchant.ID.AMEX = []
  promptPay :
    (m.Merchant.ID.PromptPay.AID = [] ∧ m.Merchant.ID.PromptPay.MobileNumber = [] ∧
      m.Merchant.ID.PromptPay.NationalID = [] ∧ m.Merchant.ID.PromptPay.EWalletID = [] ∧
      m.Merchant.ID.PromptPay.BankAccount = [] ∧
      m.Merchant.ID.PromptPay.NationalEWalletID = []) ∨
    m.Merchant.ID.PromptPay.AID = "A000000677010111".toList
  billPayment :
    (m.Merchant.ID.PromptPayBillPayment.AID = [] ∧
      m.Merchant.ID.PromptPayBillPayment.BillerID = [] ∧
      m.Merchant.ID.PromptPayBillPayment.Reference1 = [] ∧
      m.Merchant.ID.PromptPayBillPayment.Reference2 = []) ∨
    m.Merchant.ID.PromptPayBillPayment.AID = "A000000677010112".toList
  api :
    (m.Merchant.ID.API.TransactionRef = [] ∧ m.Merchant.ID.API.ReferenceNo = [] ∧
      m.Merchant.ID.API.TerminalID = []) ∨
    m.Merchant.ID.API.AID ≠ [] ∨ m.Merchant.ID.API.AcquirerID ≠ [] ∨
    m.Merchant.ID.API.MerchantID ≠ []

/-- The value of the last record with key `k` in a list of records (key,
value), if there is one. -/
def lastValue : List (Str × Str) → Str → Option Str
  | [], _ => none
  | (a, v) :: rest, k =>
    match lastValue rest k with
    | some w => some w
    | none => if a = k then some v else none

/-- The value of the first entry with key `k`, if there is one. -/
def mapFind : TagMap → Str → Option Str
  | [], _ => none
  | (a, v) :: rest, k => if a = k then some v else mapFind rest k

/-- The text of the well-formed record with key `p.1` and value `p.2`. -/
def recordText (p : Str × Str) : Str := p.1 ++ twoDigits p.2.length ++ p.2


/-- The message of the last loop of `ConvertQRToMap` for the key `k` and the
value `v`. -/
def tooLongMessage (k v : Str) : GoError :=
  "length of each tag must not longer than 99, found tag " ++ String.mk k ++
    " with length " ++ fmtD v.length


/-- The text `out` is a sequence of well-formed records none of which has the
tag `tag`. -/
def HasNoRecord (tag out : Str) : Prop :=
  ∃ recs : List RawRecord, (∀ r ∈ recs, r.WellFormed) ∧ out = rawText recs ∧
    ∀ r ∈ recs, r.tag ≠ tag

/-- The top-level tags that `ConvertQRToMap` can write, without the checksum
tag `63`, in ascending order. -/
def encoderTags : List Str :=
  ["00".toList, "01".toList, "02".toList, "04".toList, "14".toList, "15".toList, "17".toList,
   "26".toList, "27".toList, "28".toList, "29".toList, "30".toList, "31".toList, "52".toList,
   "53".toList, "54".toList, "58".toList, "59".toList, "60".toList, "62".toList]

/-- The ids of the subfields of a group, in ascending order. -/
def groupIds (tag : Str) : List Str :=
  if tag = "29".toList then
    ["00".toList, "01".toList, "02".toList, "03".toList, "04".toList, "05".toList]
  else if tag = "30".toList then ["00".toList, "01".toList, "02".toList, "03".toList]
  else if tag = "31".toList then
    ["00".toList, "01".toList, "02".toList, "03".toList, "04".toList, "05".toList]
  else if tag = "62".toList then
    ["01".toList, "02".toList, "03".toList, "04".toList, "05".toList, "06".toList, "07".toList,
     "08".toList, "09".toList]
  else []

/-- Strictly ascending in the order of `sort.Strings`. -/
def Ascending (keys : List Str) : Prop :=
  keys.Sorted (fun a b => strLE a b = true ∧ a ≠ b)

/-- A canonical list of records (key, value): the keys are strictly
ascending and among `allowed`, and every value has between 1 and 99 code
points. -/
def CanonicalRecords (allowed : List Str) (recs : List (Str × Str)) : Prop :=
  Ascending (recs.map Prod.fst) ∧
  ∀ p ∈ recs, p.1 ∈ allowed ∧ p.2 ≠ [] ∧ p.2.length ≤ 99

/-- Every key of the map is among `allowed`. -/
def KeysIn (allowed : List Str) (m : TagMap) : Prop := ∀ k ∈ mapKeys m, k ∈ allowed

/-! ## Groups of subfields on strings of any bytes -/

/-- The bytes are all below 0x80. -/
def IsAscii (s : Bytes) : Prop := ∀ b ∈ s, b < 0x80

/-- The string is empty or starts with a byte below 0x80. -/
def AsciiHead (s : Bytes) : Prop := ∀ b ∈ s.head?, b < 0x80

/-- The subfields of group 29 by id, on strings of any bytes. -/
def promptPayFieldsB (p : QRMerchantIDPromptPayB) : TagMapB :=
  [(lit "00", p.AID), (lit "01", p.MobileNumber), (lit "02", p.NationalID),
   (lit "03", p.EWalletID), (lit "04", p.BankAccount), (lit "05", p.NationalEWalletID)]

/-- The subfields of group 30 by id, on strings of any bytes. -/
def billPaymentFieldsB (p : QRMerchantIDPromptPayBillPaymentB) : TagMapB :=
  [(lit "00", p.AID), (lit "01", p.BillerID), (lit "02", p.Reference1),
   (lit "03", p.Reference2)]

/-- The subfields of group 31 by id, on strings of any bytes. -/
def apiFieldsB (p : QRMerchantIDPromptPayAPIB) : TagMapB :=
  [(lit "00", p.AID), (lit "01", p.AcquirerID), (lit "02", p.MerchantID),
   (lit "03", p.TransactionRef), (lit "04", p.ReferenceNo), (lit "05", p.TerminalID)]

/-- The subfields of group 62 by id, on strings of any bytes. -/
def additionalFieldsB (a : QRAdditionalDataB) : TagMapB :=
  [(lit "01", a.BillNumber), (lit "02", a.MobileNumber), (lit "03", a.StoreID),
   (lit "04", a.LoyaltyNumber), (lit "05", a.ReferenceID), (lit "06", a.ConsumerID),
   (lit "07", a.TerminalID), (lit "08", a.PurposeOfTransaction),
   (lit "09", a.AdditionalConsumerDataRequest)]

/-- The groups of a model whose strings hold any bytes: the tag of each group
with its subfields by id. -/
def groupFieldsB (q : QRB) : List (Bytes × TagMapB) :=
  [(lit "29", promptPayFieldsB q.Merchant.ID.PromptPay),
   (lit "30", billPaymentFieldsB q.Merchant.ID.PromptPayBillPayment),
   (lit "31", apiFieldsB q.Merchant.ID.API),
   (lit "62", additionalFieldsB q.AdditionalData)]

/-- The text of the record with key `p.1` and value `p.2` of any bytes: the
key, the two decimal digits of the number of runes of the value, and the bytes
of the value as they are. -/
def recordTextB (p : Bytes × Bytes) : Bytes :=
  p.1 ++ utf8Bytes (twoDigits (runeCount p.2)) ++ p.2

/-- The buffer that `ConvertQRToMap` writes for the subfields `f` of a group,
on strings of any bytes. -/
def blobOfB (f : TagMapB) : Bytes := f.flatMap (fun p => subFieldB p.1 p.2)

/-- The map of the runes of the keys and values of `f`. -/
def TagMapB.runes (f : TagMapB) : TagMap := f.map (fun p => (ThaiQR.runes p.1, ThaiQR.runes p.2))

/-- The keys of the map are texts of one or more code points below 0x80. -/
def AsciiKeys (F : TagMapB) : Prop :=
  ∀ p ∈ F, ∃ k : Str, p.1 = utf8Bytes k ∧ k ≠ [] ∧ ∀ c ∈ k, c.toNat < 0x80


/-! ## Concrete models and payloads -/

/-- The state of the package-level variables when the program starts. -/
def freshScratch : Scratch := ⟨[], []⟩

/-- A rune slice without spare capacity: the capacity the language promises. -/
def tightSlack : Nat → Nat := fun _ => 0

/-- The payload of the scenario without its checksum value. -/
def scenarioBody : Str :=
  "000201".toList ++ "010211".toList ++ "2937".toList ++ "0016A000000677010111".toList ++
  "01130066812345678".toList ++ "52045999".toList ++ "5303764".toList ++ "5802TH".toList ++
  "6304".toList

/-- The payload of the scenario: the body and the four hexadecimal digits of
its CRC. -/
def scenarioPayload : Str :=
  scenarioBody ++ pad4 (sprintfX (ChecksumCCITTFalse (utf8Bytes scenarioBody)))

/-- The records of the scenario payload. -/
def scenarioRecords : List RawRecord :=
  [⟨"00".toList, "02".toList, "01".toList⟩, ⟨"01".toList, "02".toList, "11".toList⟩,
   ⟨"29".toList, "37".toList, "0016A00000067701011101130066812345678".toList⟩,
   ⟨"52".toList, "04".toList, "5999".toList⟩, ⟨"53".toList, "03".toList, "764".toList⟩,
   ⟨"58".toList, "02".toList, "TH".toList⟩]

/-- The records of group 29 of the scenario payload. -/
def scenarioPromptPayRecords : List RawRecord :=
  [⟨"00".toList, "16".toList, "A000000677010111".toList⟩,
   ⟨"01".toList, "13".toList, "0066812345678".toList⟩]

/-- The top-level map of the scenario payload with the checksum value `crc`. -/
def scenarioMap (crc : Str) : TagMap :=
  [("00".toList, "01".toList), ("01".toList, "11".toList),
   ("29".toList, "0016A00000067701011101130066812345678".toList),
   ("52".toList, "5999".toList), ("53".toList, "764".toList), ("58".toList, "TH".toList),
   ("63".toList, crc)]

/-- The model with only the two mandated values. -/
def minimalModel : QR :=
  { zeroQR with
    CountryCode := "TH".toList
    Transaction := { CurrencyCode := "764".toList, Amount := [] } }

/-- The model of the scenario payload, with the checksum value `crc`. -/
def scenarioModel (crc : Str) : QR :=
  { minimalModel with
    PayloadFormatIndicator := "01".toList
    PointOfInitiationMethod := "11".toList
    Merchant :=
      { zeroQR.Merchant with
        ID := { zeroQR.Merchant.ID with
                PromptPay := { zeroQR.Merchant.ID.PromptPay with
                               AID := "A000000677010111".toList
                               MobileNumber := "0066812345678".toList } }
        CategoryCode := "5999".toList }
    CRC := crc }

/-- The minimal model with a legacy data object of 25 code points. -/
def dataObjectModel : QR :=
  { minimalModel with
    DataObjectForMerchantAccountInformationByMasterCard := "ABCDEFGHIJKLMNOPQRSTUVWXY".toList }

/-- The minimal model with a merchant name of 100 code points. -/
def longNameModel : QR :=
  { minimalModel with Merchant := { zeroQR.Merchant with Name := List.replicate 100 'A' } }

/-- The minimal model with a PromptPay mobile number and no AID. -/
def mobileOnlyModel : QR :=
  { minimalModel with
    Merchant :=
      { zeroQR.Merchant with
        ID := { zeroQR.Merchant.ID with
                PromptPay := { zeroQR.Merchant.ID.PromptPay with
                               MobileNumber := "0812345678".toList } } } }

/-- The minimal model with only the terminal id in the API group. -/
def terminalOnlyModel : QR :=
  { minimalModel with
    Merchant :=
      { zeroQR.Merchant with
        ID := { zeroQR.Merchant.ID with
                API := { zeroQR.Merchant.ID.API with TerminalID := "T1".toList } } } }

/-- The minimal model with a JCB merchant id. -/
def jcbModel : QR :=
  { minimalModel with
    Merchant := { zeroQR.Merchant with ID := { zeroQR.Merchant.ID with JCB := "J1".toList } } }

/-- The minimal model with a legacy data object of 4 code points. -/
def shortDataObjectModel : QR :=
  { minimalModel with DataObjectForMerchantAccountInformationByMasterCard := "ABCD".toList }

/-- A payload body whose CRC, taken with the head `6304` of the checksum
record, is zero. -/
def zeroCrcBody : Str := "53037645406407.895802TH".toList

/-- The model of `zeroCrcBody`, with the checksum value `crc`. -/
def zeroCrcModel (crc : Str) : QR :=
  { minimalModel with
    Transaction := { CurrencyCode := "764".toList, Amount := "407.89".toList }
    CRC := crc }

/-- The records of the payload of the minimal model, without the checksum
record. -/
def minimalRecords : List RawRecord :=
  [⟨"53".toList, "03".toList, "764".toList⟩, ⟨"58".toList, "02".toList, "TH".toList⟩]

/-- The minimal model with the merchant city of the single byte 0x80. -/
def badCityModel : QRB :=
  { minimalModel.toBytes with
    Merchant := { minimalModel.toBytes.Merchant with City := [0x80] } }

/-- The minimal model with the PromptPay mobile number of the single byte 0xFF
and the AID of the group. -/
def badMobileModel : QRB :=
  { minimalModel.toBytes with
    Merchant :=
      { minimalModel.toBytes.Merchant with
        ID := { minimalModel.toBytes.Merchant.ID with
                PromptPay := { minimalModel.toBytes.Merchant.ID.PromptPay with
                               AID := lit "A000000677010111"
                               MobileNumber := [0xFF] } } } }

/-- The top-level records of the scenario payload before the checksum. -/
def scenarioTop : List (Str × Str) :=
  [("00".toList, "01".toList), ("01".toList, "11".toList),
   ("29".toList, "0016A00000067701011101130066812345678".toList),
   ("52".toList, "5999".toList), ("53".toList, "764".toList), ("58".toList, "TH".toList)]

/-- The records of group 29 of the scenario payload. -/
def scenarioSub29 : List (Str × Str) :=
  [("00".toList, "A000000677010111".toList), ("01".toList, "0066812345678".toList)]


/-! ## The tokenizer on well-formed records -/

theorem sliceRunes_eq (slack : Nat) (rs pre mid post : Str) (lo hi : Int)
    (hrs : rs = pre ++ mid ++ post) (hlo : lo = pre.length)
    (hhi : hi = (pre.length : Int) + mid.length) :
    sliceRunes slack rs lo hi = some mid := by
  subst hrs hlo hhi
  unfold sliceRunes
  rw [if_pos]
  · simp
  · simp; omega

theorem tokenLoop_record (slack : Nat) (rs pre post : Str) (r : RawRecord)
    (hr : r.WellFormed) (hrs : rs = pre ++ r.text ++ post) (fuel : Nat)
    (m : TagMap) (st : Scratch) :
    tokenLoop slack rs (fuel + 1) pre.length m st =
      tokenLoop slack rs fuel ((pre.length : Int) + r.text.length)
        (tokenStep m st r).1 (tokenStep m st r).2 := by
  obtain ⟨h1, h2, h3⟩ := hr
  have hlen : rs.length = pre.length + (2 + 2 + r.val.length) + post.length := by
    subst hrs; simp [RawRecord.text, h1, h2]; omega
  have hkey : sliceRunes slack rs pre.length ((pre.length : Int) + 2) = some r.tag := by
    apply sliceRunes_eq slack rs pre r.tag (r.len ++ r.val ++ post)
    · subst hrs; simp [RawRecord.text]
    · rfl
    · rw [h1]; rfl
  have hls : sliceRunes slack rs ((pre.length : Int) + 2) ((pre.length : Int) + 2 + 2) = some r.len := by
    apply sliceRunes_eq slack rs (pre ++ r.tag) r.len (r.val ++ post)
    · subst hrs; simp [RawRecord.text]
    · simp [h1]
    · simp [h1, h2]
  have hval : sliceRunes slack rs ((pre.length : Int) + 2 + 2)
      ((pre.length : Int) + 2 + 2 + parseInt10 r.len) = some r.val := by
    apply sliceRunes_eq slack rs (pre ++ r.tag ++ r.len) r.val post
    · subst hrs; simp [RawRecord.text]
    · simp [h1, h2]; omega
    · simp [h1, h2, h3]; omega
  have c1 : ¬ ¬ ((pre.length : Int) < (rs.length : Int)) := by rw [hlen]; push_cast; omega
  have c2 : ¬ ((pre.length : Int) + 2 ≥ (rs.length : Int)) := by rw [hlen]; push_cast; omega
  have c3 : ¬ ((pre.length : Int) + 2 + 2 + parseInt10 r.len - 1 ≥ (rs.length : Int)) := by
    rw [hlen, h3]; push_cast; omega
  rw [tokenLoop]
  simp only [hkey, hls, hval, if_neg c1, if_neg c2, if_neg c3]
  have hidx : (pre.length : Int) + 2 + 2 + parseInt10 r.len - 1 + 1
      = (pre.length : Int) + r.text.length := by
    simp [RawRecord.text, h1, h2, h3]; omega
  rw [hidx, h3]
  unfold tokenStep
  by_cases hk : r.tag = ['6', '3'] <;> simp [hk]

theorem tokenLoop_records (slack : Nat) (rs : Str) :
    ∀ (recs : List RawRecord) (pre : Str) (fuel : Nat) (m : TagMap) (st : Scratch),
      (∀ r ∈ recs, r.WellFormed) → rs = pre ++ rawText recs → recs.length < fuel →
      tokenLoop slack rs fuel pre.length m st =
        Run.ret ((tokenSteps recs m st).1, none) (tokenSteps recs m st).2 := by
  intro recs
  induction recs with
  | nil =>
    intro pre fuel m st _ hrs hf
    obtain ⟨f, rfl⟩ : ∃ f, fuel = f + 1 := ⟨fuel - 1, by simp at hf; omega⟩
    subst hrs
    simp [tokenLoop, rawText, tokenSteps]
  | cons r recs ih =>
    intro pre fuel m st hwf hrs hf
    obtain ⟨f, rfl⟩ : ∃ f, fuel = f + 1 := ⟨fuel - 1, by simp at hf; omega⟩
    have hrs2 : rs = pre ++ r.text ++ rawText recs := by
      rw [hrs]; simp [rawText]
    rw [tokenLoop_record slack rs pre (rawText recs) r (hwf r (List.mem_cons_self _ _)) hrs2]
    have := ih (pre ++ r.text) f (tokenStep m st r).1 (tokenStep m st r).2
      (fun x hx => hwf x (List.mem_cons_of_mem _ hx)) hrs2 (by simp at hf; omega)
    simp only [List.length_append, Nat.cast_add] at this
    rw [this]
    simp [tokenSteps]

theorem rawText_length (recs : List RawRecord) (h : ∀ r ∈ recs, r.WellFormed) :
    recs.length ≤ (rawText recs).length := by
  induction recs with
  | nil => simp
  | cons r recs ih =>
    have h1 := h r (List.mem_cons_self _ _)
    have := ih (fun x hx => h x (List.mem_cons_of_mem _ hx))
    simp [rawText, RawRecord.text, h1.1, h1.2.1] at *
    omega

theorem ConvertStringToMap_records (slack : Nat → Nat) (st : Scratch)
    (recs : List RawRecord) (h : ∀ r ∈ recs, r.WellFormed) :
    ConvertStringToMap slack st (rawText recs) =
      Run.ret ((tokenSteps recs [] { st with stringWithNoCRC := [] }).1, none)
        (tokenSteps recs [] { st with stringWithNoCRC := [] }).2 := by
  unfold ConvertStringToMap
  have := tokenLoop_records (slack (rawText recs).length) (rawText recs) recs []
    ((rawText recs).length + 1) [] { st with stringWithNoCRC := [] } h (by simp)
    (by have := rawText_length recs h; omega)
  simpa using this

theorem sliceRunes_bounds {slack : Nat} {rs : Str} {lo hi : Int} {v : Str}
    (h : sliceRunes slack rs lo hi = some v) :
    0 ≤ lo ∧ lo ≤ hi ∧ hi ≤ (rs.length : Int) + slack := by
  unfold sliceRunes at h
  split at h
  · assumption
  · simp at h

theorem tokenLoop_finishes (slack : Nat) (rs : Str) :
    ∀ (fuel : Nat) (i : Int) (m : TagMap) (st : Scratch), 1 ≤ fuel →
      (rs.length : Int) + 1 ≤ i + fuel →
      tokenLoop slack rs fuel i m st ≠ Run.unfinished := by
  intro fuel
  induction fuel with
  | zero =>
    intro i m st h0 h
    omega
  | succ fuel ih =>
    intro i m st h0 h
    unfold tokenLoop
    simp only []
    split
    · simp
    · split
      · simp
      · split
        · simp
        · split
          · simp
          · split
            · simp
            · split
              · simp
              · rename_i val hval
                have hb := sliceRunes_bounds hval
                apply ih
                · omega
                · omega

theorem ConvertStringToMap_finishes (slack : Nat → Nat) (st : Scratch) (s : Str) :
    ConvertStringToMap slack st s ≠ Run.unfinished := by
  unfold ConvertStringToMap
  apply tokenLoop_finishes
  · omega
  · push_cast; omega

theorem finishMapToQR_ok {m pp bp api ad : TagMap} {r : Option QR}
    (h : finishMapToQR m pp bp api ad = (r, none)) :
    mapGet m "58".toList = "TH".toList ∧ mapGet m "53".toList = "764".toList ∧
    r = some (assembleQR m pp bp api ad) ∧
    decodeLengthCheck (assembleQR m pp bp api ad) = none := by
  unfold finishMapToQR at h
  split at h
  · simp at h
  · split at h
    · simp at h
    · rename_i h1 h2
      simp only [] at h
      split at h
      · simp at h
      · rename_i h3
        simp at h
        simp at h1 h2
        exact ⟨by simpa using h1, by simpa using h2, h.symm, h3⟩

theorem ConvertMapToQR_ok {slack : Nat → Nat} {st st' : Scratch} {m : TagMap} {r : Option QR}
    (h : ConvertMapToQR slack st m = Run.ret (r, none) st') :
    checkCRC (st.stringWithNoCRC ++ "6304".toList) st.crcFromStr = none ∧
    ∃ pp st1 bp st2 api st3 ad,
      decodeGroup slack st m "29".toList
        (some ("A000000677010111".toList,
          "invalid subtag \x27Credit Transfer with PromptPayID\x27")) = Run.ret (pp, none) st1 ∧
      decodeGroup slack st1 m "30".toList
        (some ("A000000677010112".toList, "invalid subtag \x27Promptpay Bill Payment\x27"))
        = Run.ret (bp, none) st2 ∧
      decodeGroup slack st2 m "31".toList none = Run.ret (api, none) st3 ∧
      decodeGroup slack st3 m "62".toList none = Run.ret (ad, none) st' ∧
      finishMapToQR m pp bp api ad = (r, none) := by
  unfold ConvertMapToQR at h
  simp only [] at h
  split at h
  · simp at h
  · rename_i hcrc
    refine ⟨hcrc, ?_⟩
    split at h
    · simp at h
    · simp at h
    · simp at h
    · rename_i pp st1 h29
      split at h
      · simp at h
      · simp at h
      · simp at h
      · rename_i bp st2 h30
        split at h
        · simp at h
        · simp at h
        · simp at h
        · rename_i api st3 h31
          split at h
          · simp at h
          · simp at h
          · simp at h
          · rename_i ad st4 h62
            simp only [Run.ret.injEq] at h
            obtain ⟨h5, h6⟩ := h
            subst h6
            exact ⟨pp, st1, bp, st2, api, st3, ad, h29, h30, h31, h62, h5⟩

theorem DecodeQRVisa_ok {slack : Nat → Nat} {st st' : Scratch} {s : Str} {r : Option QR}
    (h : DecodeQRVisa slack st s = Run.ret (r, none) st') :
    ∃ m st1, ConvertStringToMap slack st s = Run.ret (m, none) st1 ∧
      ConvertMapToQR slack st1 m = Run.ret (r, none) st' := by
  unfold DecodeQRVisa at h
  split at h
  · simp at h
  · simp at h
  · simp at h
  · rename_i m st1 htok
    split at h
    · simp at h
    · simp at h
    · simp at h
    · rename_i mc st2 hq
      simp only [Run.ret.injEq, Prod.mk.injEq, and_true] at h
      obtain ⟨h1, h2⟩ := h
      subst h1 h2
      exact ⟨m, st1, htok, hq⟩

theorem decodeGroup_absent (slack : Nat → Nat) (st : Scratch) (m : TagMap) (tag : Str)
    (aid : Option (Str × GoError)) (h : mapGet m tag = []) :
    decodeGroup slack st m tag aid = Run.ret ([], none) st := by
  unfold decodeGroup
  simp [h]

theorem decodeGroup_checked (slack : Nat → Nat) (st st1 : Scratch) (m sub : TagMap)
    (tag a : Str) (e : GoError) (h : mapGet m tag ≠ [])
    (htok : ConvertStringToMap slack st (mapGet m tag) = Run.ret (sub, none) st1)
    (ha : mapGet sub "00".toList = a) :
    decodeGroup slack st m tag (some (a, e)) = Run.ret (sub, none) st1 := by
  subst ha
  unfold decodeGroup
  simp [h, htok]

theorem decodeGroup_unchecked (slack : Nat → Nat) (st st1 : Scratch) (m sub : TagMap)
    (tag : Str) (h : mapGet m tag ≠ [])
    (htok : ConvertStringToMap slack st (mapGet m tag) = Run.ret (sub, none) st1) :
    decodeGroup slack st m tag none = Run.ret (sub, none) st1 := by
  unfold decodeGroup
  simp [h, htok]

/-! ## Numbers: lengths and checksums -/

theorem twoDigits_facts : ∀ n : Fin 100,
    sprintf02d (n.val : Int) = twoDigits n.val ∧
    parseInt10 (twoDigits n.val) = (n.val : Int) ∧
    ((if (itoa n.val).length = 1 then ['0'] else []) ++ itoa n.val) = twoDigits n.val ∧
    ((if n.val < 10 then ['0'] else []) ++ itoa n.val) = twoDigits n.val := by
  decide!

theorem hexDigit_facts : ∀ d : Fin 16,
    hexVal (hexDigitUpper d.val) = some d.val ∧ hexDigitUpper d.val ≠ '_' := by
  decide!

theorem crcShift_lt (c : Nat) : crcShift c < 0x10000 := by
  unfold crcShift
  split
  · exact Nat.xor_lt_two_pow (n := 16) (Nat.mod_lt _ (by norm_num)) (by norm_num)
  · exact Nat.mod_lt _ (by norm_num)

theorem crcByte_lt (c b : Nat) : crcByte c b < 0x10000 := by
  unfold crcByte
  exact crcShift_lt _

theorem ChecksumCCITTFalse_lt (bytes : List Nat) : ChecksumCCITTFalse bytes < 0x10000 := by
  unfold ChecksumCCITTFalse
  induction bytes using List.reverseRecOn with
  | nil => simp
  | append_singleton bs b _ =>
    rw [List.foldl_append]
    exact crcByte_lt _ _

theorem twoDigits_sprintf (n : Nat) (h : n ≤ 99) : sprintf02d (n : Int) = twoDigits n :=
  (twoDigits_facts ⟨n, by omega⟩).1

theorem twoDigits_parse (n : Nat) (h : n ≤ 99) : parseInt10 (twoDigits n) = (n : Int) :=
  (twoDigits_facts ⟨n, by omega⟩).2.1

theorem twoDigits_write (n : Nat) (h : n ≤ 99) :
    ((if (itoa n).length = 1 then ['0'] else []) ++ itoa n) = twoDigits n :=
  (twoDigits_facts ⟨n, by omega⟩).2.2.1

theorem twoDigits_sub (n : Nat) (h : n ≤ 99) :
    ((if n < 10 then ['0'] else []) ++ itoa n) = twoDigits n :=
  (twoDigits_facts ⟨n, by omega⟩).2.2.2

theorem hexVal_hexDigitUpper (d : Nat) (h : d < 16) : hexVal (hexDigitUpper d) = some d :=
  (hexDigit_facts ⟨d, h⟩).1

theorem hexDigitUpper_ne_underscore (d : Nat) (h : d < 16) : hexDigitUpper d ≠ '_' :=
  (hexDigit_facts ⟨d, h⟩).2

theorem pad4_sprintfX (v : Nat) (h : v < 0x10000) :
    pad4 (sprintfX v) =
      [hexDigitUpper (v / 0x1000 % 0x10), hexDigitUpper (v / 0x100 % 0x10),
       hexDigitUpper (v / 0x10 % 0x10), hexDigitUpper (v % 0x10)] := by
  have h0 : hexDigitUpper 0 = '0' := by decide
  unfold pad4 sprintfX
  split
  · rename_i h1
    have e1 : v / 0x1000 % 0x10 = 0 := by omega
    have e2 : v / 0x100 % 0x10 = 0 := by omega
    have e3 : v / 0x10 % 0x10 = 0 := by omega
    have e4 : v % 0x10 = v := by omega
    rw [e1, e2, e3, e4, h0]
    rfl
  · split
    · have e1 : v / 0x1000 % 0x10 = 0 := by omega
      have e2 : v / 0x100 % 0x10 = 0 := by omega
      have e3 : v / 0x10 % 0x10 = v / 0x10 := by omega
      rw [e1, e2, e3, h0]
      rfl
    · split
      · have e1 : v / 0x1000 % 0x10 = 0 := by omega
        have e2 : v / 0x100 % 0x10 = v / 0x100 := by omega
        rw [e1, e2, h0]
        rfl
      · rfl

theorem pad4_sprintfX_length (v : Nat) (h : v < 0x10000) : (pad4 (sprintfX v)).length = 4 := by
  rw [pad4_sprintfX v h]; rfl

theorem parseCRCInt_digits (a b c d : Nat) (ha : a < 16) (hb : b < 16) (hc : c < 16)
    (hd : d < 16) :
    parseCRCInt [hexDigitUpper a, hexDigitUpper b, hexDigitUpper c, hexDigitUpper d]
      = ((a * 16 + b) * 16 + c) * 16 + d := by
  have p60 : (2 : Nat) ^ 60 = 1152921504606846976 := by norm_num
  have p63 : (2 : Nat) ^ 63 = 9223372036854775808 := by norm_num
  have hloop : parseHexLoop
      [hexDigitUpper a, hexDigitUpper b, hexDigitUpper c, hexDigitUpper d] 0
      = Parsed.value (((a * 16 + b) * 16 + c) * 16 + d) := by
    simp only [parseHexLoop, hexVal_hexDigitUpper, hexDigitUpper_ne_underscore, ha, hb, hc, hd,
      if_false, p60]
    rw [if_neg (by omega), if_neg (by omega), if_neg (by omega), if_neg (by omega)]
    simp
  have hcont : List.contains
      [hexDigitUpper a, hexDigitUpper b, hexDigitUpper c, hexDigitUpper d] '_' = false := by
    have h1 := hexDigitUpper_ne_underscore a ha
    have h2 := hexDigitUpper_ne_underscore b hb
    have h3 := hexDigitUpper_ne_underscore c hc
    have h4 := hexDigitUpper_ne_underscore d hd
    have hm : ¬ ('_' ∈ [hexDigitUpper a, hexDigitUpper b, hexDigitUpper c, hexDigitUpper d]) := by
      simp [h1.symm, h2.symm, h3.symm, h4.symm]
    simpa using hm
  unfold parseCRCInt
  simp only [hloop, hcont, p63]
  rw [if_neg (by simp), if_neg (by omega)]

theorem parseCRCInt_pad4 (v : Nat) (h : v < 0x10000) :
    parseCRCInt (pad4 (sprintfX v)) = v := by
  rw [pad4_sprintfX v h, parseCRCInt_digits _ _ _ _ (by omega) (by omega) (by omega) (by omega)]
  omega

theorem checkCRC_generated (str : Str) :
    checkCRC str (pad4 (sprintfX (ChecksumCCITTFalse (utf8Bytes str)))) = none := by
  unfold checkCRC
  have hlt := ChecksumCCITTFalse_lt (utf8Bytes str)
  simp only [parseCRCInt_pad4 _ hlt]
  rw [if_neg]
  simp
  omega

/-! ## Maps, the serializer and its records -/

theorem mapGet_mapSet (m : TagMap) (k v k' : Str) :
    mapGet (mapSet m k v) k' = if k = k' then v else mapGet m k' := by
  induction m with
  | nil => simp [mapSet, mapGet]
  | cons p rest ih =>
    obtain ⟨a, b⟩ := p
    unfold mapSet
    by_cases h : a = k
    · subst h
      by_cases h2 : a = k' <;> simp [mapGet, h2]
    · by_cases h2 : a = k'
      · subst h2
        have : ¬ k = a := fun e => h e.symm
        simp [mapGet, h, this]
      · simp [mapGet, h, h2, ih]

theorem mapSet_mapSet (m : TagMap) (k a b : Str) :
    mapSet (mapSet m k a) k b = mapSet m k b := by
  induction m with
  | nil => simp [mapSet]
  | cons p rest ih =>
    obtain ⟨x, y⟩ := p
    by_cases h : x = k <;> simp [mapSet, h, ih]

theorem tokenSteps_append (a b : List RawRecord) (m : TagMap) (st : Scratch) :
    tokenSteps (a ++ b) m st = tokenSteps b (tokenSteps a m st).1 (tokenSteps a m st).2 := by
  induction a generalizing m st with
  | nil => rfl
  | cons r a ih => simp [tokenSteps, ih]

theorem mapGet_tokenSteps_recordsOf (M : TagMap) (keys : List Str) (m : TagMap) (st : Scratch)
    (k : Str) :
    mapGet (tokenSteps (recordsOf M keys) m st).1 k =
      if k ∈ keys ∧ mapGet M k ≠ [] then mapGet M k else mapGet m k := by
  induction keys generalizing m st with
  | nil => simp [recordsOf, tokenSteps]
  | cons a keys ih =>
    by_cases ha : mapGet M a ≠ []
    · have e : recordsOf M (a :: keys) = record a (mapGet M a) :: recordsOf M keys := by
        simp [recordsOf, List.filter_cons, ha]
      rw [e, tokenSteps, ih]
      simp only [tokenStep, record, mapGet_mapSet]
      by_cases hk : k ∈ keys ∧ mapGet M k ≠ []
      · have : k ∈ a :: keys ∧ mapGet M k ≠ [] := ⟨List.mem_cons_of_mem _ hk.1, hk.2⟩
        rw [if_pos hk, if_pos this]
      · rw [if_neg hk]
        by_cases hak : a = k
        · subst hak
          rw [if_pos rfl, if_pos ⟨List.mem_cons_self _ _, ha⟩]
        · rw [if_neg hak, if_neg]
          rintro ⟨h1, h2⟩
          rcases List.mem_cons.mp h1 with h | h
          · exact hak h.symm
          · exact hk ⟨h, h2⟩
    · have e : recordsOf M (a :: keys) = recordsOf M keys := by
        simp [recordsOf, List.filter_cons, ha]
      rw [e, ih]
      by_cases hk : k ∈ keys ∧ mapGet M k ≠ []
      · have : k ∈ a :: keys ∧ mapGet M k ≠ [] := ⟨List.mem_cons_of_mem _ hk.1, hk.2⟩
        rw [if_pos hk, if_pos this]
      · rw [if_neg hk, if_neg]
        rintro ⟨h1, h2⟩
        rcases List.mem_cons.mp h1 with h | h
        · subst h; exact ha h2
        · exact hk ⟨h, h2⟩

theorem scratch_tokenSteps_recordsOf (M : TagMap) (hM : ∀ k, (mapGet M k).length ≤ 99)
    (h63 : mapGet M ['6', '3'] = []) (keys : List Str) (m : TagMap) (st : Scratch) :
    (tokenSteps (recordsOf M keys) m st).2 =
      { st with stringWithNoCRC := st.stringWithNoCRC ++ rawText (recordsOf M keys) } := by
  induction keys generalizing m st with
  | nil => simp [recordsOf, tokenSteps, rawText]
  | cons a keys ih =>
    by_cases ha : mapGet M a ≠ []
    · have e : recordsOf M (a :: keys) = record a (mapGet M a) :: recordsOf M keys := by
        simp [recordsOf, List.filter_cons, ha]
      have hne : a ≠ ['6', '3'] := by
        intro h; subst h; exact ha h63
      rw [e, tokenSteps, ih]
      simp [tokenStep, record, hne, rawText, RawRecord.text, twoDigits_sprintf _ (hM a)]
    · have e : recordsOf M (a :: keys) = recordsOf M keys := by
        simp [recordsOf, List.filter_cons, ha]
      rw [e, ih]

theorem recordsOf_wf (M : TagMap) (hM : ∀ k, (mapGet M k).length ≤ 99) (keys : List Str)
    (hk : ∀ k ∈ keys, k.length = 2) : ∀ r ∈ recordsOf M keys, r.WellFormed := by
  intro r hr
  simp only [recordsOf, List.mem_map, List.mem_filter] at hr
  obtain ⟨k, ⟨hmem, _⟩, rfl⟩ := hr
  exact ⟨hk k hmem, rfl, twoDigits_parse _ (hM k)⟩

theorem serializeLoop_records (M : TagMap) (hM : ∀ k, (mapGet M k).length ≤ 99)
    (h63 : mapGet M "63".toList = []) (keys : List Str) (str : Str) :
    serializeLoop M keys str = (str ++ rawText (recordsOf M keys), none) := by
  induction keys generalizing str with
  | nil => simp [serializeLoop, recordsOf, rawText]
  | cons a keys ih =>
    unfold serializeLoop
    by_cases ha : mapGet M a ≠ []
    · have e : recordsOf M (a :: keys) = record a (mapGet M a) :: recordsOf M keys := by
        simp [recordsOf, List.filter_cons, ha]
      have hne : a ≠ "63".toList := by
        intro h; subst h; exact ha h63
      simp only [ha, hne, if_true, false_and, if_false, ne_eq, not_false_eq_true]
      rw [ih, e]
      simp [writeRecord, rawText, RawRecord.text, record, twoDigits_write _ (hM a)]
    · have e : recordsOf M (a :: keys) = recordsOf M keys := by
        simp [recordsOf, List.filter_cons, ha]
      simp only [ha, if_false]
      rw [ih, e]

theorem mapGet_of_not_mem (m : TagMap) (k : Str) (h : k ∉ mapKeys m) : mapGet m k = [] := by
  induction m with
  | nil => rfl
  | cons p rest ih =>
    obtain ⟨a, b⟩ := p
    simp only [mapKeys, List.map_cons, List.mem_cons, not_or] at h
    have h1 : ¬ a = k := fun e => h.1 e.symm
    simp only [mapGet, h1, if_false]
    exact ih h.2

theorem mem_sortStrings (keys : List Str) (k : Str) : k ∈ sortStrings keys ↔ k ∈ keys :=
  (List.perm_insertionSort _ keys).mem_iff

theorem checksumOf_length (body : Str) : (checksumOf body).length = 4 :=
  pad4_sprintfX_length _ (ChecksumCCITTFalse_lt _)

theorem ConvertMapToString_generated (M : TagMap) (hM : ∀ k, (mapGet M k).length ≤ 99)
    (h63 : mapGet M "63".toList = []) :
    ConvertMapToString M = (payloadOf (bodyOf M), none) := by
  unfold ConvertMapToString
  simp only [serializeLoop_records M hM h63, List.nil_append, h63, if_true]
  simp [payloadOf, checksumOf, pad4, bodyOf]

theorem rawText_append (a b : List RawRecord) : rawText (a ++ b) = rawText a ++ rawText b := by
  simp [rawText]

theorem tokenize_generated (M : TagMap) (hM : ∀ k, (mapGet M k).length ≤ 99)
    (h63 : mapGet M "63".toList = []) (hkeys : ∀ k ∈ mapKeys M, k.length = 2)
    (slack : Nat → Nat) (st : Scratch) :
    ∃ M', ConvertStringToMap slack st (payloadOf (bodyOf M)) =
        Run.ret (M', none) ⟨bodyOf M, checksumOf (bodyOf M)⟩ ∧
      ∀ k, mapGet M' k = if k = "63".toList then checksumOf (bodyOf M) else mapGet M k := by
  let recs := recordsOf M (sortStrings (mapKeys M))
  let crcRec : RawRecord := ⟨"63".toList, "04".toList, checksumOf (bodyOf M)⟩
  have hwf : ∀ r ∈ recs ++ [crcRec], r.WellFormed := by
    intro r hr
    rcases List.mem_append.mp hr with h | h
    · exact recordsOf_wf M hM _ (fun k hk => hkeys k ((mem_sortStrings _ _).mp hk)) r h
    · simp only [List.mem_singleton] at h
      subst h
      refine ⟨rfl, rfl, ?_⟩
      show parseInt10 "04".toList = _
      rw [checksumOf_length]
      decide
  have htext : payloadOf (bodyOf M) = rawText (recs ++ [crcRec]) := by
    rw [rawText_append]
    simp [payloadOf, bodyOf, recs, crcRec, rawText, RawRecord.text]
  have h63' : mapGet M ['6', '3'] = [] := h63
  have htok := ConvertStringToMap_records slack st (recs ++ [crcRec]) hwf
  rw [← htext, tokenSteps_append] at htok
  have hst := scratch_tokenSteps_recordsOf M hM h63' (sortStrings (mapKeys M)) []
    { st with stringWithNoCRC := [] }
  refine ⟨mapSet (tokenSteps recs [] { st with stringWithNoCRC := [] }).1 "63".toList
    (checksumOf (bodyOf M)), ?_, ?_⟩
  · rw [htok]
    simp only [tokenSteps, tokenStep, crcRec]
    rw [hst]
    simp [bodyOf]
  · intro k
    rw [mapGet_mapSet]
    by_cases hk : k = "63".toList
    · subst hk; simp
    · have : ¬ "63".toList = k := fun e => hk e.symm
      rw [if_neg this, if_neg hk]
      show mapGet (tokenSteps (recordsOf M (sortStrings (mapKeys M))) [] _).1 k = _
      rw [mapGet_tokenSteps_recordsOf]
      by_cases hmem : k ∈ sortStrings (mapKeys M) ∧ mapGet M k ≠ []
      · rw [if_pos hmem]
      · rw [if_neg hmem]
        by_cases hin : k ∈ mapKeys M
        · have : mapGet M k = [] := by
            by_contra hne
            exact hmem ⟨(mem_sortStrings _ _).mpr hin, hne⟩
          rw [this]; rfl
        · rw [mapGet_of_not_mem M k hin]; rfl

/-! ## Nested groups -/

theorem rawText_recordsOf_cons (F : TagMap) (k : Str) (keys : List Str) :
    rawText (recordsOf F (k :: keys)) =
      (if mapGet F k ≠ [] then (record k (mapGet F k)).text else []) ++
        rawText (recordsOf F keys) := by
  by_cases h : mapGet F k ≠ []
  · simp [recordsOf, rawText, List.filter_cons, h]
  · simp [recordsOf, rawText, List.filter_cons, h]

theorem rawText_recordsOf_nil (F : TagMap) : rawText (recordsOf F []) = [] := rfl

theorem subField_eq (id v : Str) (h : v.length ≤ 99) :
    subField id v = if v ≠ [] then (record id v).text else [] := by
  unfold subField
  by_cases hv : v ≠ []
  · simp only [hv, if_true, record, RawRecord.text]
    rw [List.append_assoc id, twoDigits_sub _ h]
  · simp [hv]

theorem subField_length (id v : Str) : v.length ≤ (subField id v).length := by
  unfold subField
  split
  · simp; omega
  · rename_i h; simp at h; simp [h]

theorem recordsOf_empty (F : TagMap) (keys : List Str)
    (h : rawText (recordsOf F keys) = []) : ∀ k ∈ keys, mapGet F k = [] := by
  induction keys with
  | nil => intro k hk; cases hk
  | cons a keys ih =>
    rw [rawText_recordsOf_cons] at h
    have h1 := (List.append_eq_nil.mp h)
    intro k hk
    rcases List.mem_cons.mp hk with e | e
    · subst e
      by_contra hne
      have := h1.1
      rw [if_pos hne] at this
      simp [record, RawRecord.text, twoDigits] at this
    · exact ih h1.2 k e

theorem decodeGroup_records (slack : Nat → Nat) (st : Scratch) (M : TagMap) (tag : Str)
    (aid : Option (Str × GoError)) (F : TagMap) (keys : List Str)
    (hF : ∀ k, (mapGet F k).length ≤ 99)
    (hkeys : ∀ k ∈ keys, k.length = 2)
    (hval : mapGet M tag = rawText (recordsOf F keys))
    (haid : ∀ a e, aid = some (a, e) → mapGet M tag ≠ [] →
      (if "00".toList ∈ keys then mapGet F "00".toList else []) = a) :
    ∃ sub st', decodeGroup slack st M tag aid = Run.ret (sub, none) st' ∧
      ∀ k, mapGet sub k = if k ∈ keys then mapGet F k else [] := by
  by_cases hne : mapGet M tag = []
  · refine ⟨[], st, decodeGroup_absent slack st M tag aid hne, ?_⟩
    intro k
    by_cases hk : k ∈ keys
    · rw [if_pos hk, recordsOf_empty F keys (by rw [← hval]; exact hne) k hk]; rfl
    · rw [if_neg hk]; rfl
  · have htok := ConvertStringToMap_records slack st (recordsOf F keys)
      (recordsOf_wf F hF keys hkeys)
    rw [← hval] at htok
    have hget : ∀ k, mapGet (tokenSteps (recordsOf F keys) []
        { st with stringWithNoCRC := [] }).1 k = if k ∈ keys then mapGet F k else [] := by
      intro k
      rw [mapGet_tokenSteps_recordsOf]
      by_cases hk : k ∈ keys
      · by_cases hv : mapGet F k = []
        · simp [hk, hv, mapGet]
        · simp [hk, hv]
      · simp [hk, mapGet]
    cases aid with
    | none => exact ⟨_, _, decodeGroup_unchecked slack st _ M _ tag hne htok, hget⟩
    | some ae =>
      obtain ⟨a, e⟩ := ae
      refine ⟨_, _, decodeGroup_checked slack st _ M _ tag a e hne htok ?_, hget⟩
      rw [hget]
      exact haid a e rfl hne

/-! ## The map of the encoder -/

theorem mapKeys_mapSet (m : TagMap) (k v x : Str) (h : x ∈ mapKeys (mapSet m k v)) :
    x = k ∨ x ∈ mapKeys m := by
  induction m with
  | nil => simp [mapSet, mapKeys] at h; exact Or.inl h
  | cons p rest ih =>
    obtain ⟨a, b⟩ := p
    unfold mapSet at h
    split at h
    · simp [mapKeys] at h ⊢
      rcases h with h | h
      · exact Or.inr (Or.inl h)
      · exact Or.inr (Or.inr h)
    · simp only [mapKeys, List.map_cons, List.mem_cons] at h ⊢
      rcases h with h | h
      · exact Or.inr (Or.inl h)
      · rcases ih h with h | h
        · exact Or.inl h
        · exact Or.inr (Or.inr h)

theorem keysTwo_nil : KeysTwo [] := by
  intro k hk; cases hk

theorem keysTwo_mapSet (m : TagMap) (k v : Str) (hm : KeysTwo m) (hk : k.length = 2) :
    KeysTwo (mapSet m k v) := by
  intro x hx
  rcases mapKeys_mapSet m k v x hx with h | h
  · subst h; exact hk
  · exact hm x h

theorem keysTwo_ite (c : Prop) [Decidable c] (a b : TagMap) (ha : KeysTwo a) (hb : KeysTwo b) :
    KeysTwo (if c then a else b) := by
  split <;> assumption

theorem keysTwo_fillMap (qr : QR) : KeysTwo (fillMap qr) := by
  unfold fillMap
  simp only []
  repeat' (first
    | with_reducible exact keysTwo_nil
    | with_reducible apply keysTwo_ite
    | with_reducible refine keysTwo_mapSet _ _ _ ?_ ?_)
  all_goals decide

theorem checkTagLengths_none (m : TagMap) (h : checkTagLengths m = none) (k : Str) :
    (mapGet m k).length ≤ 99 := by
  induction m with
  | nil => simp [mapGet]
  | cons p rest ih =>
    obtain ⟨a, b⟩ := p
    unfold checkTagLengths at h
    split at h
    · simp at h
    · rename_i hb
      unfold mapGet
      split
      · omega
      · exact ih h

theorem ConvertQRToMap_ok {qr : QR} {m : TagMap} (h : ConvertQRToMap qr = (some m, none)) :
    encodeLengthCheck qr = none ∧ m = fillMap qr ∧ checkTagLengths (fillMap qr) = none := by
  unfold ConvertQRToMap at h
  split at h
  · simp at h
  · rename_i h1
    simp only [] at h
    split at h
    · simp at h
    · rename_i h2
      simp at h
      exact ⟨h1, h.symm, h2⟩

theorem mapGet_fillMap_63 (qr : QR) :
    mapGet (fillMap qr) "63".toList = qr.DataObjectForMerchantAccountInformationByMasterCard := by
  unfold fillMap
  simp [mapGet_mapSet]

theorem mapGet_ite (c : Prop) [Decidable c] (a b : TagMap) (k : Str) :
    mapGet (if c then a else b) k = if c then mapGet a k else mapGet b k := by
  split <;> rfl

theorem mapGet_fillMap_29 (qr : QR) :
    mapGet (fillMap qr) "29".toList =
      if qr.Merchant.ID.PromptPay.AID ≠ [] ∨ qr.Merchant.ID.PromptPay.MobileNumber ≠ [] ∨
        qr.Merchant.ID.PromptPay.NationalID ≠ [] ∨ qr.Merchant.ID.PromptPay.EWalletID ≠ [] ∨
        qr.Merchant.ID.PromptPay.BankAccount ≠ [] ∨
        qr.Merchant.ID.PromptPay.NationalEWalletID ≠ [] then
        promptPayBlob qr.Merchant.ID.PromptPay
      else [] := by
  unfold fillMap
  simp [mapGet_mapSet, mapGet_ite, mapGet]

theorem mapGet_fillMap_30 (qr : QR) :
    mapGet (fillMap qr) "30".toList =
      if qr.Merchant.ID.PromptPayBillPayment.AID ≠ [] ∨
        qr.Merchant.ID.PromptPayBillPayment.BillerID ≠ [] ∨
        qr.Merchant.ID.PromptPayBillPayment.Reference1 ≠ [] ∨
        qr.Merchant.ID.PromptPayBillPayment.Reference2 ≠ [] then
        billPaymentBlob qr.Merchant.ID.PromptPayBillPayment
      else [] := by
  unfold fillMap
  simp [mapGet_mapSet, mapGet_ite, mapGet]

theorem mapGet_fillMap_31 (qr : QR) :
    mapGet (fillMap qr) "31".toList =
      if qr.Merchant.ID.API.AID ≠ [] ∨ qr.Merchant.ID.API.AcquirerID ≠ [] ∨
        qr.Merchant.ID.API.MerchantID ≠ [] then
        apiBlob qr.Merchant.ID.API
      else [] := by
  unfold fillMap
  simp [mapGet_mapSet, mapGet_ite, mapGet]

theorem mapGet_fillMap_62 (qr : QR) :
    mapGet (fillMap qr) "62".toList =
      if qr.AdditionalData.BillNumber ≠ [] ∨ qr.AdditionalData.MobileNumber ≠ [] ∨
        qr.AdditionalData.StoreID ≠ [] ∨ qr.AdditionalData.LoyaltyNumber ≠ [] ∨
        qr.AdditionalData.ReferenceID ≠ [] ∨ qr.AdditionalData.ConsumerID ≠ [] ∨
        qr.AdditionalData.TerminalID ≠ [] ∨ qr.AdditionalData.PurposeOfTransaction ≠ [] ∨
        qr.AdditionalData.AdditionalConsumerDataRequest ≠ [] then
        additionalBlob qr.AdditionalData
      else [] := by
  unfold fillMap
  simp [mapGet_mapSet, mapGet_ite, mapGet]

theorem mapGet_fillMap_00 (qr : QR) : mapGet (fillMap qr) "00".toList = qr.PayloadFormatIndicator := by
  unfold fillMap
  simp [mapGet_mapSet, mapGet_ite, mapGet]

theorem mapGet_fillMap_01 (qr : QR) : mapGet (fillMap qr) "01".toList = qr.PointOfInitiationMethod := by
  unfold fillMap
  simp [mapGet_mapSet, mapGet_ite, mapGet]

theorem mapGet_fillMap_02 (qr : QR) : mapGet (fillMap qr) "02".toList = qr.Merchant.ID.Visa := by
  unfold fillMap
  simp [mapGet_mapSet, mapGet_ite, mapGet]

theorem mapGet_fillMap_04 (qr : QR) : mapGet (fillMap qr) "04".toList = qr.Merchant.ID.MasterCard := by
  unfold fillMap
  simp [mapGet_mapSet, mapGet_ite, mapGet]

theorem mapGet_fillMap_14 (qr : QR) : mapGet (fillMap qr) "14".toList = qr.Merchant.ID.CUP := by
  unfold fillMap
  simp [mapGet_mapSet, mapGet_ite, mapGet]

theorem mapGet_fillMap_15 (qr : QR) : mapGet (fillMap qr) "15".toList = qr.Merchant.ID.UnionPay := by
  unfold fillMap
  simp [mapGet_mapSet, mapGet_ite, mapGet]

theorem mapGet_fillMap_17 (qr : QR) : mapGet (fillMap qr) "17".toList = qr.Merchant.ID.EMVCo := by
  unfold fillMap
  simp [mapGet_mapSet, mapGet_ite, mapGet]

theorem mapGet_fillMap_26 (qr : QR) : mapGet (fillMap qr) "26".toList = qr.Merchant.ID.TPN := by
  unfold fillMap
  simp [mapGet_mapSet, mapGet_ite, mapGet]

theorem mapGet_fillMap_27 (qr : QR) : mapGet (fillMap qr) "27".toList = qr.Merchant.ID.PromptCard := by
  unfold fillMap
  simp [mapGet_mapSet, mapGet_ite, mapGet]

theorem mapGet_fillMap_28 (qr : QR) : mapGet (fillMap qr) "28".toList = qr.Merchant.ID.VisaLocal := by
  unfold fillMap
  simp [mapGet_mapSet, mapGet_ite, mapGet]

theorem mapGet_fillMap_51 (qr : QR) : mapGet (fillMap qr) "51".toList = [] := by
  unfold fillMap
  simp [mapGet_mapSet, mapGet_ite, mapGet]

theorem mapGet_fillMap_52 (qr : QR) : mapGet (fillMap qr) "52".toList = qr.Merchant.CategoryCode := by
  unfold fillMap
  simp [mapGet_mapSet, mapGet_ite, mapGet]

theorem mapGet_fillMap_53 (qr : QR) : mapGet (fillMap qr) "53".toList = qr.Transaction.CurrencyCode := by
  unfold fillMap
  simp [mapGet_mapSet, mapGet_ite, mapGet]

theorem mapGet_fillMap_54 (qr : QR) : mapGet (fillMap qr) "54".toList = qr.Transaction.Amount := by
  unfold fillMap
  simp [mapGet_mapSet, mapGet_ite, mapGet]

theorem mapGet_fillMap_58 (qr : QR) : mapGet (fillMap qr) "58".toList = qr.CountryCode := by
  unfold fillMap
  simp [mapGet_mapSet, mapGet_ite, mapGet]

theorem mapGet_fillMap_59 (qr : QR) : mapGet (fillMap qr) "59".toList = qr.Merchant.Name := by
  unfold fillMap
  simp [mapGet_mapSet, mapGet_ite, mapGet]

theorem mapGet_fillMap_60 (qr : QR) : mapGet (fillMap qr) "60".toList = qr.Merchant.City := by
  unfold fillMap
  simp [mapGet_mapSet, mapGet_ite, mapGet]


theorem recordsOf_congr (F G : TagMap) (keys : List Str)
    (h : ∀ k ∈ keys, mapGet F k = mapGet G k) : recordsOf F keys = recordsOf G keys := by
  induction keys with
  | nil => rfl
  | cons a keys ih =>
    have ha := h a (List.mem_cons_self _ _)
    have ih' := ih (fun k hk => h k (List.mem_cons_of_mem _ hk))
    simp only [recordsOf, List.filter_cons, ha] at ih' ⊢
    split
    · simp only [List.map_cons, ha, ih']
    · exact ih'

theorem blobOf_length (F : TagMap) (h : (blobOf F).length ≤ 99) :
    ∀ p ∈ F, p.2.length ≤ 99 := by
  induction F with
  | nil => intro p hp; cases hp
  | cons q F ih =>
    have hl : (blobOf (q :: F)).length = (subField q.1 q.2).length + (blobOf F).length := by
      simp [blobOf]
    have h1 := subField_length q.1 q.2
    intro p hp
    rcases List.mem_cons.mp hp with e | e
    · subst e; omega
    · exact ih (by omega) p e

theorem mapGet_length (F : TagMap) (h : ∀ p ∈ F, p.2.length ≤ 99) (k : Str) :
    (mapGet F k).length ≤ 99 := by
  induction F with
  | nil => simp [mapGet]
  | cons q F ih =>
    obtain ⟨a, b⟩ := q
    unfold mapGet
    split
    · exact h (a, b) (List.mem_cons_self _ _)
    · exact ih (fun p hp => h p (List.mem_cons_of_mem _ hp))

theorem blobOf_records (F : TagMap) (hnd : (mapKeys F).Nodup) (h : ∀ p ∈ F, p.2.length ≤ 99) :
    blobOf F = rawText (recordsOf F (mapKeys F)) := by
  induction F with
  | nil => rfl
  | cons q F ih =>
    obtain ⟨a, b⟩ := q
    simp only [mapKeys, List.map_cons, List.nodup_cons] at hnd
    have hrest : recordsOf ((a, b) :: F) (mapKeys F) = recordsOf F (mapKeys F) := by
      apply recordsOf_congr
      intro k hk
      have : ¬ a = k := by
        intro e; subst e; exact hnd.1 hk
      simp [mapGet, this]
    have hb : b.length ≤ 99 := h (a, b) (List.mem_cons_self _ _)
    have e1 : mapKeys ((a, b) :: F) = a :: mapKeys F := rfl
    rw [e1, rawText_recordsOf_cons, hrest, ← ih hnd.2 (fun p hp => h p (List.mem_cons_of_mem _ hp))]
    simp only [mapGet, if_true]
    rw [← subField_eq a b hb]
    simp [blobOf]

/-- A group as decoded from the blob of its fields. -/
theorem decodeGroup_blob (slack : Nat → Nat) (st : Scratch) (M : TagMap) (tag : Str)
    (aid : Option (Str × GoError)) (F : TagMap) (hnd : (mapKeys F).Nodup)
    (hkeys : KeysTwo F) (hval : mapGet M tag = blobOf F) (hlen : (mapGet M tag).length ≤ 99)
    (haid : ∀ a e, aid = some (a, e) → mapGet M tag ≠ [] → mapGet F "00".toList = a) :
    ∃ sub st', decodeGroup slack st M tag aid = Run.ret (sub, none) st' ∧
      ∀ k, mapGet sub k = mapGet F k := by
  have hF := blobOf_length F (by rw [← hval]; exact hlen)
  obtain ⟨sub, st', h1, h2⟩ := decodeGroup_records slack st M tag aid F (mapKeys F)
    (mapGet_length F hF) hkeys (by rw [hval, blobOf_records F hnd hF]) (by
      intro a e hae hne
      have := haid a e hae hne
      by_cases hk : "00".toList ∈ mapKeys F
      · rw [if_pos hk]; exact this
      · rw [if_neg hk, ← this, mapGet_of_not_mem F _ hk])
  refine ⟨sub, st', h1, ?_⟩
  intro k
  rw [h2]
  by_cases hk : k ∈ mapKeys F
  · rw [if_pos hk]
  · rw [if_neg hk, mapGet_of_not_mem F _ hk]

theorem mapGet_fillMap_29_blob (qr : QR) :
    mapGet (fillMap qr) "29".toList = blobOf (promptPayFields qr.Merchant.ID.PromptPay) := by
  rw [mapGet_fillMap_29]
  split
  · simp [promptPayBlob, blobOf, promptPayFields]
  · rename_i h
    simp only [not_or, not_not, ne_eq] at h
    obtain ⟨h1, h2, h3, h4, h5, h6⟩ := h
    simp [blobOf, promptPayFields, subField, h1, h2, h3, h4, h5, h6]

theorem mapGet_fillMap_30_blob (qr : QR) :
    mapGet (fillMap qr) "30".toList =
      blobOf (billPaymentFields qr.Merchant.ID.PromptPayBillPayment) := by
  rw [mapGet_fillMap_30]
  split
  · simp [billPaymentBlob, blobOf, billPaymentFields]
  · rename_i h
    simp only [not_or, not_not, ne_eq] at h
    obtain ⟨h1, h2, h3, h4⟩ := h
    simp [blobOf, billPaymentFields, subField, h1, h2, h3, h4]

theorem mapGet_fillMap_31_blob (qr : QR)
    (hapi : (qr.Merchant.ID.API.TransactionRef = [] ∧ qr.Merchant.ID.API.ReferenceNo = [] ∧
      qr.Merchant.ID.API.TerminalID = []) ∨
      qr.Merchant.ID.API.AID ≠ [] ∨ qr.Merchant.ID.API.AcquirerID ≠ [] ∨
      qr.Merchant.ID.API.MerchantID ≠ []) :
    mapGet (fillMap qr) "31".toList = blobOf (apiFields qr.Merchant.ID.API) := by
  rw [mapGet_fillMap_31]
  split
  · simp [apiBlob, blobOf, apiFields]
  · rename_i h
    rcases hapi with ⟨h4, h5, h6⟩ | h'
    · simp only [not_or, not_not, ne_eq] at h
      obtain ⟨h1, h2, h3⟩ := h
      simp [blobOf, apiFields, subField, h1, h2, h3, h4, h5, h6]
    · exact absurd h' h

theorem mapGet_fillMap_62_blob (qr : QR) :
    mapGet (fillMap qr) "62".toList = blobOf (additionalFields qr.AdditionalData) := by
  rw [mapGet_fillMap_62]
  split
  · simp [additionalBlob, blobOf, additionalFields]
  · rename_i h
    simp only [not_or, not_not, ne_eq] at h
    obtain ⟨h1, h2, h3, h4, h5, h6, h7, h8, h9⟩ := h
    simp [blobOf, additionalFields, subField, h1, h2, h3, h4, h5, h6, h7, h8, h9]

theorem blob_nonempty_of (F : TagMap) (h : blobOf F ≠ []) : ∃ p ∈ F, p.2 ≠ [] := by
  by_contra hcon
  push_neg at hcon
  apply h
  unfold blobOf
  rw [List.flatMap_eq_nil_iff]
  intro p hp
  simp [subField, hcon p hp]

/-! ## Decoding what the encoder wrote -/

theorem decodeLengthCheck_of_encode (m : QR) (H : Str) (hH : H.length = 4)
    (hd : m.DataObjectForMerchantAccountInformationByMasterCard = [])
    (h : encodeLengthCheck m = none) :
    decodeLengthCheck { m with CRC := H } = none := by
  unfold encodeLengthCheck at h
  split at h
  · simp at h
  · split at h
    · simp at h
    · split at h
      · simp at h
      · split at h
        · simp at h
        · split at h
          · simp at h
          · rename_i h1 h2 h3 h4 h5
            unfold decodeLengthCheck
            simp only [h1, h2, h3, h4, h5, hH, hd, if_false, ne_eq, not_true_eq_false,
              and_false, not_false_eq_true]
            simp

theorem promptPayFields_keys (p : QRMerchantIDPromptPay) : mapKeys (promptPayFields p) = ["00".toList, "01".toList, "02".toList, "03".toList, "04".toList, "05".toList] := rfl

theorem promptPayFields_nodup (p : QRMerchantIDPromptPay) : (mapKeys (promptPayFields p)).Nodup := by
  rw [promptPayFields_keys]; decide

theorem promptPayFields_keysTwo (p : QRMerchantIDPromptPay) : KeysTwo (promptPayFields p) := by
  unfold KeysTwo
  rw [promptPayFields_keys]; decide

theorem billPaymentFields_keys (p : QRMerchantIDPromptPayBillPayment) : mapKeys (billPaymentFields p) = ["00".toList, "01".toList, "02".toList, "03".toList] := rfl

theorem billPaymentFields_nodup (p : QRMerchantIDPromptPayBillPayment) : (mapKeys (billPaymentFields p)).Nodup := by
  rw [billPaymentFields_keys]; decide

theorem billPaymentFields_keysTwo (p : QRMerchantIDPromptPayBillPayment) : KeysTwo (billPaymentFields p) := by
  unfold KeysTwo
  rw [billPaymentFields_keys]; decide

theorem apiFields_keys (p : QRMerchantIDPromptPayAPI) : mapKeys (apiFields p) = ["00".toList, "01".toList, "02".toList, "03".toList, "04".toList, "05".toList] := rfl

theorem apiFields_nodup (p : QRMerchantIDPromptPayAPI) : (mapKeys (apiFields p)).Nodup := by
  rw [apiFields_keys]; decide

theorem apiFields_keysTwo (p : QRMerchantIDPromptPayAPI) : KeysTwo (apiFields p) := by
  unfold KeysTwo
  rw [apiFields_keys]; decide

theorem additionalFields_keys (p : QRAdditionalData) : mapKeys (additionalFields p) = ["01".toList, "02".toList, "03".toList, "04".toList, "05".toList, "06".toList, "07".toList, "08".toList, "09".toList] := rfl

theorem additionalFields_nodup (p : QRAdditionalData) : (mapKeys (additionalFields p)).Nodup := by
  rw [additionalFields_keys]; decide

theorem additionalFields_keysTwo (p : QRAdditionalData) : KeysTwo (additionalFields p) := by
  unfold KeysTwo
  rw [additionalFields_keys]; decide

theorem roundtrip_core (m : QR) (M : TagMap) (hacc : ConvertQRToMap m = (some M, none))
    (hc : Canonical m) (slack : Nat → Nat) (st : Scratch) :
    ConvertMapToString M = (payloadOf (bodyOf M), none) ∧
    ∃ st', DecodeQRVisa slack st (payloadOf (bodyOf M)) =
      Run.ret (some { m with CRC := checksumOf (bodyOf M) }, none) st' := by
  obtain ⟨hlen, hM, htags⟩ := ConvertQRToMap_ok hacc
  subst hM
  have hM99 := checkTagLengths_none _ htags
  have h63 : mapGet (fillMap m) "63".toList = [] := by
    rw [mapGet_fillMap_63]; exact hc.dataObject
  refine ⟨ConvertMapToString_generated _ hM99 h63, ?_⟩
  obtain ⟨M', htok, hget⟩ := tokenize_generated _ hM99 h63 (keysTwo_fillMap m) slack st
  have hg : ∀ k, k ≠ "63".toList → mapGet M' k = mapGet (fillMap m) k := by
    intro k hk; rw [hget, if_neg hk]
  have hl : ∀ k, k ≠ "63".toList → (mapGet M' k).length ≤ 99 := by
    intro k hk; rw [hg k hk]; exact hM99 k
  -- the four nested groups
  obtain ⟨pp, st1, h29, hpp⟩ := decodeGroup_blob slack
    ⟨bodyOf (fillMap m), checksumOf (bodyOf (fillMap m))⟩ M' "29".toList
    (some ("A000000677010111".toList,
      "invalid subtag \x27Credit Transfer with PromptPayID\x27"))
    (promptPayFields m.Merchant.ID.PromptPay) (promptPayFields_nodup _) (promptPayFields_keysTwo _)
    (by rw [hg _ (by decide), mapGet_fillMap_29_blob]) (hl _ (by decide)) (by
      intro a e hae hne
      simp only [Option.some.injEq, Prod.mk.injEq] at hae
      rw [← hae.1]
      rw [hg _ (by decide), mapGet_fillMap_29_blob] at hne
      rcases hc.promptPay with ⟨h1, h2, h3, h4, h5, h6⟩ | h
      · exfalso; apply hne
        simp [blobOf, promptPayFields, subField, h1, h2, h3, h4, h5, h6]
      · simpa [promptPayFields, mapGet] using h)
  obtain ⟨bp, st2, h30, hbp⟩ := decodeGroup_blob slack st1 M' "30".toList
    (some ("A000000677010112".toList, "invalid subtag \x27Promptpay Bill Payment\x27"))
    (billPaymentFields m.Merchant.ID.PromptPayBillPayment) (billPaymentFields_nodup _)
    (billPaymentFields_keysTwo _)
    (by rw [hg _ (by decide), mapGet_fillMap_30_blob]) (hl _ (by decide)) (by
      intro a e hae hne
      simp only [Option.some.injEq, Prod.mk.injEq] at hae
      rw [← hae.1]
      rw [hg _ (by decide), mapGet_fillMap_30_blob] at hne
      rcases hc.billPayment with ⟨h1, h2, h3, h4⟩ | h
      · exfalso; apply hne
        simp [blobOf, billPaymentFields, subField, h1, h2, h3, h4]
      · simpa [billPaymentFields, mapGet] using h)
  obtain ⟨api, st3, h31, hapi⟩ := decodeGroup_blob slack st2 M' "31".toList none
    (apiFields m.Merchant.ID.API) (apiFields_nodup _) (apiFields_keysTwo _)
    (by rw [hg _ (by decide), mapGet_fillMap_31_blob _ hc.api]) (hl _ (by decide)) (by
      intro a e hae; simp at hae)
  obtain ⟨ad, st4, h62, had⟩ := decodeGroup_blob slack st3 M' "62".toList none
    (additionalFields m.AdditionalData) (additionalFields_nodup _) (additionalFields_keysTwo _)
    (by rw [hg _ (by decide), mapGet_fillMap_62_blob]) (hl _ (by decide)) (by
      intro a e hae; simp at hae)
  refine ⟨st4, ?_⟩
  have hasm : assembleQR M' pp bp api ad = { m with CRC := checksumOf (bodyOf (fillMap m)) } := by
    unfold assembleQR
    simp only [hpp, hbp, hapi, had]
    rw [hg "53".toList (by decide), hg "54".toList (by decide), hg "02".toList (by decide),
      hg "04".toList (by decide), hg "14".toList (by decide), hg "26".toList (by decide),
      hg "27".toList (by decide), hg "28".toList (by decide), hg "15".toList (by decide),
      hg "17".toList (by decide), hg "52".toList (by decide), hg "59".toList (by decide),
      hg "60".toList (by decide), hg "00".toList (by decide), hg "01".toList (by decide),
      hg "58".toList (by decide), hg "51".toList (by decide), hget "63".toList, if_pos rfl]
    rw [mapGet_fillMap_53, mapGet_fillMap_54, mapGet_fillMap_02, mapGet_fillMap_04,
      mapGet_fillMap_14, mapGet_fillMap_26, mapGet_fillMap_27, mapGet_fillMap_28,
      mapGet_fillMap_15, mapGet_fillMap_17, mapGet_fillMap_52, mapGet_fillMap_59,
      mapGet_fillMap_60, mapGet_fillMap_00, mapGet_fillMap_01, mapGet_fillMap_58,
      mapGet_fillMap_51]
    have hj := hc.jcb
    have ha := hc.amex
    have hd := hc.dataObject
    obtain ⟨pfi, poi, ⟨⟨visa, mc, cup, jcb, up, emv, amex, tpn, pc, vl, ⟨a1, a2, a3, a4, a5, a6⟩,
      ⟨b1, b2, b3, b4⟩, ⟨c1, c2, c3, c4, c5, c6⟩⟩, cat, name, city⟩, ⟨cur, amt⟩, cc,
      ⟨d1, d2, d3, d4, d5, d6, d7, d8, d9⟩, crc, dobj⟩ := m
    simp only at hj ha hd
    subst hj ha hd
    simp [promptPayFields, billPaymentFields, apiFields, additionalFields, mapGet]
  have hfin : finishMapToQR M' pp bp api ad =
      (some { m with CRC := checksumOf (bodyOf (fillMap m)) }, none) := by
    have h58 : mapGet M' "58".toList = "TH".toList := by
      rw [hg "58".toList (by decide), mapGet_fillMap_58, hc.country]
    have h53 : mapGet M' "53".toList = "764".toList := by
      rw [hg "53".toList (by decide), mapGet_fillMap_53, hc.currency]
    unfold finishMapToQR
    rw [h58, h53, hasm]
    simp only [ne_eq, not_true_eq_false, if_false]
    rw [decodeLengthCheck_of_encode m _ (checksumOf_length _) hc.dataObject hlen]
  unfold DecodeQRVisa
  rw [htok]
  simp only []
  unfold ConvertMapToQR
  have hcrc : checkCRC (bodyOf (fillMap m) ++ "6304".toList) (checksumOf (bodyOf (fillMap m)))
      = none := checkCRC_generated _
  simp only [hcrc, h29, h30, h31, h62, hfin]

/-! ## Lemmas on the concrete payloads -/

theorem scenarioPayload_eq : scenarioPayload = scenarioBody ++ "018D".toList := by decide!

theorem scenario_decode_with (slack : Nat → Nat) (st : Scratch) (len crc : Str)
    (hlen : parseInt10 len = 2) (hlen2 : len.length = 2) (hcrc4 : crc.length = 4)
    (hcrc : parseCRCInt crc % 0x10000 = 0x018D) :
    DecodeQRVisa slack st
        ("00".toList ++ len ++ "01".toList ++ rawText scenarioRecords.tail ++ "6304".toList ++ crc) =
      Run.ret (some (scenarioModel crc), none)
        ⟨"0016A00000067701011101130066812345678".toList, crc⟩ := by
  have hwf : ∀ r ∈ (⟨"00".toList, len, "01".toList⟩ :: scenarioRecords.tail) ++
      [⟨"63".toList, "04".toList, crc⟩], r.WellFormed := by
    intro r hr
    simp only [scenarioRecords, List.tail_cons, List.cons_append, List.nil_append,
      List.mem_cons, List.mem_singleton, List.not_mem_nil, or_false] at hr
    have h4 : parseInt10 "04".toList = 4 := by decide
    rcases hr with rfl | rfl | rfl | rfl | rfl | rfl | rfl
    · exact ⟨rfl, hlen2, by rw [hlen]; rfl⟩
    · exact ⟨rfl, rfl, by decide⟩
    · exact ⟨rfl, rfl, by decide⟩
    · exact ⟨rfl, rfl, by decide⟩
    · exact ⟨rfl, rfl, by decide⟩
    · exact ⟨rfl, rfl, by decide⟩
    · exact ⟨rfl, rfl, by show parseInt10 "04".toList = ((crc.length : Nat) : Int); rw [h4, hcrc4]; rfl⟩
  have htok := ConvertStringToMap_records slack st _ hwf
  have htext : rawText ((⟨"00".toList, len, "01".toList⟩ :: scenarioRecords.tail) ++
      [⟨"63".toList, "04".toList, crc⟩]) =
      "00".toList ++ len ++ "01".toList ++ rawText scenarioRecords.tail ++ "6304".toList ++ crc := by
    simp [rawText, RawRecord.text, scenarioRecords]
  have hsteps : tokenSteps ((⟨"00".toList, len, "01".toList⟩ :: scenarioRecords.tail) ++
      [⟨"63".toList, "04".toList, crc⟩]) [] { st with stringWithNoCRC := [] } =
      (scenarioMap crc,
        ⟨"00020101021129370016A000000677010111011300668123456785204599953037645802TH".toList,
          crc⟩) := by
    have e2 : sprintf02d (2 : Int) = "02".toList := by decide
    have e3 : sprintf02d (3 : Int) = "03".toList := by decide
    have e4 : sprintf02d (4 : Int) = "04".toList := by decide
    have e37 : sprintf02d (37 : Int) = "37".toList := by decide
    simp [tokenSteps, tokenStep, scenarioRecords, mapSet, scenarioMap, e2, e3, e4, e37]
  rw [htext, hsteps] at htok
  have hpp : ∀ st1, ConvertStringToMap slack st1 "0016A00000067701011101130066812345678".toList
      = Run.ret ([("00".toList, "A000000677010111".toList), ("01".toList, "0066812345678".toList)],
          none) ⟨"0016A00000067701011101130066812345678".toList, st1.crcFromStr⟩ :=
    fun st1 => ConvertStringToMap_records slack st1 scenarioPromptPayRecords (by
      unfold scenarioPromptPayRecords RawRecord.WellFormed; decide)
  have hcheck : checkCRC
      ("00020101021129370016A000000677010111011300668123456785204599953037645802TH".toList ++
        "6304".toList) crc = none := by
    unfold checkCRC
    have hv : ChecksumCCITTFalse (utf8Bytes
        ("00020101021129370016A000000677010111011300668123456785204599953037645802TH".toList ++
          "6304".toList)) = 0x018D := by decide!
    simp only [hv, hcrc]
    simp
  have h29 : mapGet (scenarioMap crc) "29".toList
      = "0016A00000067701011101130066812345678".toList := by
    simp [scenarioMap, mapGet]
  have h30 : mapGet (scenarioMap crc) "30".toList = [] := by simp [scenarioMap, mapGet]
  have h31 : mapGet (scenarioMap crc) "31".toList = [] := by simp [scenarioMap, mapGet]
  have h62 : mapGet (scenarioMap crc) "62".toList = [] := by simp [scenarioMap, mapGet]
  have hfin : finishMapToQR (scenarioMap crc)
      [("00".toList, "A000000677010111".toList), ("01".toList, "0066812345678".toList)] [] [] []
      = (some (scenarioModel crc), none) := by
    simp [finishMapToQR, scenarioMap, mapGet, assembleQR, decodeLengthCheck, hcrc4,
      scenarioModel, minimalModel, zeroQR]
  unfold DecodeQRVisa
  rw [htok]
  simp only []
  unfold ConvertMapToQR
  simp only []
  rw [hcheck]
  simp only []
  rw [decodeGroup_checked slack _ _ (scenarioMap crc) _ _ _ _ (by rw [h29]; decide)
    (by rw [h29]; exact hpp _) (by decide)]
  simp only []
  rw [decodeGroup_absent _ _ _ _ _ h30]
  simp only []
  rw [decodeGroup_absent _ _ _ _ _ h31]
  simp only []
  rw [decodeGroup_absent _ _ _ _ _ h62]
  simp only []
  rw [hfin]

theorem tokenize_with_checksum (slack : Nat → Nat) (st : Scratch) (recs : List RawRecord)
    (hwf : ∀ r ∈ recs, r.WellFormed) (c : Str) (hc : c.length = 4) :
    ConvertStringToMap slack st (rawText recs ++ "6304".toList ++ c) =
      Run.ret (mapSet (tokenSteps recs [] { st with stringWithNoCRC := [] }).1 "63".toList c, none)
        { (tokenSteps recs [] { st with stringWithNoCRC := [] }).2 with crcFromStr := c } := by
  have h4 : parseInt10 "04".toList = 4 := by decide
  have hwf2 : ∀ r ∈ recs ++ [⟨"63".toList, "04".toList, c⟩], r.WellFormed := by
    intro r hr
    rcases List.mem_append.mp hr with h | h
    · exact hwf r h
    · simp only [List.mem_singleton] at h
      subst h
      exact ⟨rfl, rfl, by show parseInt10 "04".toList = ((c.length : Nat) : Int); rw [h4, hc]; rfl⟩
  have htok := ConvertStringToMap_records slack st _ hwf2
  rw [rawText_append, tokenSteps_append] at htok
  have e : rawText [(⟨"63".toList, "04".toList, c⟩ : RawRecord)] = "6304".toList ++ c := by
    simp [rawText, RawRecord.text]
  rw [e, ← List.append_assoc] at htok
  rw [htok]
  simp [tokenSteps, tokenStep]

theorem checkCRC_none_iff (str crc : Str) :
    checkCRC str crc = none ↔
      ChecksumCCITTFalse (utf8Bytes str) = parseCRCInt crc % 0x10000 := by
  unfold checkCRC
  simp only []
  split
  · rename_i h; simp [h]
  · rename_i h
    simp only [ne_eq, not_not] at h
    simp [h]

theorem checkCRC_some (str crc : Str) (e : GoError) (h : checkCRC str crc = some e) :
    e = "Error, CRC is mismatch or QR(string) is invalid." := by
  unfold checkCRC at h
  simp only [] at h
  split at h
  · simp at h; exact h.symm
  · simp at h

theorem DecodeQRVisa_crc_mismatch (slack : Nat → Nat) (st st1 : Scratch) (s : Str) (m : TagMap)
    (htok : ConvertStringToMap slack st s = Run.ret (m, none) st1)
    (hcrc : checkCRC (st1.stringWithNoCRC ++ "6304".toList) st1.crcFromStr ≠ none) :
    DecodeQRVisa slack st s =
      Run.ret (some zeroQR, some "Error, CRC is mismatch or QR(string) is invalid.") st1 := by
  unfold DecodeQRVisa
  rw [htok]
  simp only []
  unfold ConvertMapToQR
  simp only []
  cases h : checkCRC (st1.stringWithNoCRC ++ "6304".toList) st1.crcFromStr with
  | none => exact absurd h hcrc
  | some e =>
    simp only []
    rw [checkCRC_some _ _ e h]

theorem fillMap_crc (m : QR) (crc : Str) : fillMap { m with CRC := crc } = fillMap m := by
  unfold fillMap
  simp only [mapSet_mapSet]

theorem encodeLengthCheck_crc (m : QR) (crc : Str) (hcrc : crc.length = 4)
    (h : encodeLengthCheck m = none) : encodeLengthCheck { m with CRC := crc } = none := by
  unfold encodeLengthCheck at h ⊢
  split at h
  · simp at h
  · split at h
    · simp at h
    · split at h
      · simp at h
      · split at h
        · simp at h
        · split at h
          · simp at h
          · split at h
            · simp at h
            · split at h
              · simp at h
              · rename_i h1 h2 h3 h4 h5 h6 h7
                simp only [h1, h2, h3, h4, h5, h7, hcrc, if_false, ne_eq, not_true_eq_false,
                  and_false, not_false_eq_true]

theorem ConvertQRToMap_crc (m : QR) (M : TagMap) (crc : Str) (hcrc : crc.length = 4)
    (h : ConvertQRToMap m = (some M, none)) :
    ConvertQRToMap { m with CRC := crc } = (some M, none) := by
  obtain ⟨h1, h2, h3⟩ := ConvertQRToMap_ok h
  unfold ConvertQRToMap
  rw [encodeLengthCheck_crc m crc hcrc h1]
  simp only [fillMap_crc, h3, h2]

theorem DecodeQRVisa_error_zero (slack : Nat → Nat) (st st' : Scratch) (s : Str)
    (r : Option QR) (e : GoError)
    (h : DecodeQRVisa slack st s = Run.ret (r, some e) st') : r = some zeroQR := by
  unfold DecodeQRVisa at h
  split at h
  · simp at h
  · simp at h
  · simp at h; exact h.1.1.symm
  · split at h
    · simp at h
    · simp at h
    · simp at h; exact h.1.1.symm
    · simp at h

theorem decodeGroup_checked_ok {slack : Nat → Nat} {st st1 : Scratch} {m pp : TagMap}
    {tag a : Str} {e : GoError}
    (h : decodeGroup slack st m tag (some (a, e)) = Run.ret (pp, none) st1) :
    pp = [] ∨ mapGet pp "00".toList = a := by
  unfold decodeGroup at h
  split at h
  · split at h
    · simp at h
    · simp only [] at h
      split at h
      · simp at h
      · rename_i sub st2 hsub hne
        simp only [ne_eq, not_not] at hne
        simp only [Run.ret.injEq, Prod.mk.injEq, and_true] at h
        rw [← h.1]
        exact Or.inr hne
    · simp at h
    · simp at h
  · simp only [Run.ret.injEq, Prod.mk.injEq, and_true] at h
    exact Or.inl h.1.symm

/-! ## The decoder always ends -/

theorem decodeGroup_finishes (slack : Nat → Nat) (st : Scratch) (m : TagMap) (tag : Str)
    (aid : Option (Str × GoError)) : decodeGroup slack st m tag aid ≠ Run.unfinished := by
  unfold decodeGroup
  have h := ConvertStringToMap_finishes slack st (mapGet m tag)
  split
  · split
    · simp
    · split
      · split <;> simp
      · simp
    · simp
    · rename_i hu; exact absurd hu h
  · simp

theorem ConvertMapToQR_finishes (slack : Nat → Nat) (st : Scratch) (m : TagMap) :
    ConvertMapToQR slack st m ≠ Run.unfinished := by
  unfold ConvertMapToQR
  simp only []
  split
  · simp
  · split
    · simp
    · rename_i h; exact absurd h (decodeGroup_finishes _ _ _ _ _)
    · simp
    · split
      · simp
      · rename_i h; exact absurd h (decodeGroup_finishes _ _ _ _ _)
      · simp
      · split
        · simp
        · rename_i h; exact absurd h (decodeGroup_finishes _ _ _ _ _)
        · simp
        · split
          · simp
          · rename_i h; exact absurd h (decodeGroup_finishes _ _ _ _ _)
          · simp
          · simp

theorem DecodeQRVisa_finishes (slack : Nat → Nat) (st : Scratch) (s : Str) :
    DecodeQRVisa slack st s ≠ Run.unfinished := by
  unfold DecodeQRVisa
  split
  · simp
  · rename_i h; exact absurd h (ConvertStringToMap_finishes _ _ _)
  · simp
  · split
    · simp
    · rename_i h; exact absurd h (ConvertMapToQR_finishes _ _ _)
    · simp
    · simp

/-! ## Lemmas for the widths, the tokenizer and flat payloads -/

theorem decodeLengthCheck_none {qr : QR} (h : decodeLengthCheck qr = none) :
    (qr.PayloadFormatIndicator = [] ∨ qr.PayloadFormatIndicator.length = 2) ∧
    (qr.PointOfInitiationMethod = [] ∨ qr.PointOfInitiationMethod.length = 2) ∧
    (qr.Merchant.CategoryCode = [] ∨ qr.Merchant.CategoryCode.length = 4) ∧
    (qr.Transaction.CurrencyCode = [] ∨ qr.Transaction.CurrencyCode.length = 3) ∧
    (qr.CountryCode = [] ∨ qr.CountryCode.length = 2) ∧
    (qr.CRC = [] ∨ qr.CRC.length = 4) ∧
    (qr.DataObjectForMerchantAccountInformationByMasterCard = [] ∨
      qr.DataObjectForMerchantAccountInformationByMasterCard.length = 25) := by
  unfold decodeLengthCheck at h
  split at h
  · simp at h
  · split at h
    · simp at h
    · split at h
      · simp at h
      · split at h
        · simp at h
        · split at h
          · simp at h
          · split at h
            · simp at h
            · split at h
              · simp at h
              · rename_i h1 h2 h3 h4 h5 h6 h7
                simp only [ne_eq, not_and, not_not] at h1 h2 h3 h4 h5 h6 h7
                refine ⟨?_, ?_, ?_, ?_, ?_, ?_, ?_⟩
                · by_cases e : qr.PayloadFormatIndicator = []
                  · exact Or.inl e
                  · exact Or.inr (h1 e)
                · by_cases e : qr.PointOfInitiationMethod = []
                  · exact Or.inl e
                  · exact Or.inr (h2 e)
                · by_cases e : qr.Merchant.CategoryCode = []
                  · exact Or.inl e
                  · exact Or.inr (h3 e)
                · by_cases e : qr.Transaction.CurrencyCode = []
                  · exact Or.inl e
                  · exact Or.inr (h4 e)
                · by_cases e : qr.CountryCode = []
                  · exact Or.inl e
                  · exact Or.inr (h5 e)
                · by_cases e : qr.CRC = []
                  · exact Or.inl e
                  · exact Or.inr (h6 e)
                · by_cases e : qr.DataObjectForMerchantAccountInformationByMasterCard = []
                  · exact Or.inl e
                  · exact Or.inr (h7 e)

theorem DecodeQRVisa_flat (slack : Nat → Nat) (st st1 : Scratch) (recs : List RawRecord)
    (M : TagMap) (qr : QR) (hwf : ∀ r ∈ recs, r.WellFormed)
    (hsteps : tokenSteps recs [] { st with stringWithNoCRC := [] } = (M, st1))
    (hcrc : checkCRC (st1.stringWithNoCRC ++ "6304".toList) st1.crcFromStr = none)
    (h29 : mapGet M "29".toList = []) (h30 : mapGet M "30".toList = [])
    (h31 : mapGet M "31".toList = []) (h62 : mapGet M "62".toList = [])
    (hfin : finishMapToQR M [] [] [] [] = (some qr, none)) :
    DecodeQRVisa slack st (rawText recs) = Run.ret (some qr, none) st1 := by
  have htok := ConvertStringToMap_records slack st recs hwf
  rw [hsteps] at htok
  unfold DecodeQRVisa
  rw [htok]
  simp only []
  unfold ConvertMapToQR
  simp only []
  rw [hcrc]
  simp only []
  rw [decodeGroup_absent _ _ _ _ _ h29]
  simp only []
  rw [decodeGroup_absent _ _ _ _ _ h30]
  simp only []
  rw [decodeGroup_absent _ _ _ _ _ h31]
  simp only []
  rw [decodeGroup_absent _ _ _ _ _ h62]
  simp only []
  rw [hfin]

theorem DecodeQRVisa_flat_mismatch (slack : Nat → Nat) (st st1 : Scratch)
    (recs : List RawRecord) (M : TagMap) (hwf : ∀ r ∈ recs, r.WellFormed)
    (hsteps : tokenSteps recs [] { st with stringWithNoCRC := [] } = (M, st1))
    (hcrc : checkCRC (st1.stringWithNoCRC ++ "6304".toList) st1.crcFromStr ≠ none) :
    DecodeQRVisa slack st (rawText recs) =
      Run.ret (some zeroQR, some "Error, CRC is mismatch or QR(string) is invalid.") st1 := by
  have htok := ConvertStringToMap_records slack st recs hwf
  rw [hsteps] at htok
  exact DecodeQRVisa_crc_mismatch slack st st1 _ M htok hcrc

theorem mapFind_mapSet (m : TagMap) (k v k' : Str) :
    mapFind (mapSet m k v) k' = if k = k' then some v else mapFind m k' := by
  induction m with
  | nil => simp [mapSet, mapFind]
  | cons p rest ih =>
    obtain ⟨a, b⟩ := p
    unfold mapSet
    by_cases h : a = k
    · subst h
      by_cases h2 : a = k' <;> simp [mapFind, h2]
    · by_cases h2 : a = k'
      · subst h2
        have : ¬ k = a := fun e => h e.symm
        simp [mapFind, h, this]
      · simp [mapFind, h, h2, ih]

theorem mem_mapKeys_mapSet (m : TagMap) (k v x : Str) :
    x ∈ mapKeys (mapSet m k v) ↔ x = k ∨ x ∈ mapKeys m := by
  induction m with
  | nil => simp [mapSet, mapKeys]
  | cons p rest ih =>
    obtain ⟨a, b⟩ := p
    unfold mapSet
    by_cases h : a = k
    · subst h
      simp [mapKeys]
    · simp only [h, if_false]
      simp only [mapKeys, List.map_cons, List.mem_cons] at ih ⊢
      rw [ih]
      tauto

theorem nodup_mapSet (m : TagMap) (k v : Str) (h : (mapKeys m).Nodup) :
    (mapKeys (mapSet m k v)).Nodup := by
  induction m with
  | nil => simp [mapSet, mapKeys]
  | cons p rest ih =>
    obtain ⟨a, b⟩ := p
    simp only [mapKeys, List.map_cons, List.nodup_cons] at h
    unfold mapSet
    by_cases hk : a = k
    · simp only [hk, if_true, mapKeys, List.map_cons, List.nodup_cons]
      rw [← hk]; exact h
    · simp only [hk, if_false, mapKeys, List.map_cons, List.nodup_cons]
      refine ⟨?_, ih h.2⟩
      intro hm
      rcases (mem_mapKeys_mapSet rest k v a).mp hm with e | e
      · exact hk e
      · exact h.1 e

theorem mem_iff_mapFind (m : TagMap) (h : (mapKeys m).Nodup) (k v : Str) :
    (k, v) ∈ m ↔ mapFind m k = some v := by
  induction m with
  | nil => simp [mapFind]
  | cons p rest ih =>
    obtain ⟨a, b⟩ := p
    simp only [mapKeys, List.map_cons, List.nodup_cons] at h
    unfold mapFind
    by_cases hk : a = k
    · subst hk
      simp only [if_true, List.mem_cons, Prod.mk.injEq, true_and, Option.some.injEq]
      constructor
      · rintro (e | e)
        · exact e.symm
        · exact absurd (List.mem_map_of_mem Prod.fst e) h.1
      · intro e; exact Or.inl e.symm
    · simp only [hk, if_false, List.mem_cons, Prod.mk.injEq]
      rw [← ih h.2]
      constructor
      · rintro (e | e)
        · exact absurd e.1.symm hk
        · exact e
      · intro e; exact Or.inr e

theorem tokenSteps_nodup (recs : List RawRecord) (m : TagMap) (st : Scratch)
    (h : (mapKeys m).Nodup) : (mapKeys (tokenSteps recs m st).1).Nodup := by
  induction recs generalizing m st with
  | nil => exact h
  | cons r recs ih =>
    rw [tokenSteps]
    exact ih _ _ (nodup_mapSet m _ _ h)

theorem tokenSteps_mapFind (recs : List (Str × Str)) (m : TagMap) (st : Scratch) (k : Str) :
    mapFind (tokenSteps (recs.map (fun p => record p.1 p.2)) m st).1 k =
      match lastValue recs k with
      | some w => some w
      | none => mapFind m k := by
  induction recs generalizing m st with
  | nil => simp [tokenSteps, lastValue]
  | cons p recs ih =>
    obtain ⟨a, v⟩ := p
    simp only [List.map_cons, tokenSteps]
    rw [ih]
    simp only [lastValue]
    cases lastValue recs k with
    | some w => rfl
    | none =>
      simp only [tokenStep, record, mapFind_mapSet]
      by_cases e : a = k <;> simp [e]

theorem tokenSteps_scratch (recs : List (Str × Str)) (hv : ∀ p ∈ recs, p.2.length ≤ 99)
    (m : TagMap) (st : Scratch) :
    (tokenSteps (recs.map (fun p => record p.1 p.2)) m st).2 =
      ⟨st.stringWithNoCRC ++
          (recs.filter (fun p => p.1 ≠ "63".toList)).flatMap recordText,
        (lastValue recs "63".toList).getD st.crcFromStr⟩ := by
  induction recs generalizing m st with
  | nil => simp [tokenSteps, lastValue]
  | cons p recs ih =>
    obtain ⟨a, v⟩ := p
    have hv' : ∀ p ∈ recs, p.2.length ≤ 99 := fun p hp => hv p (List.mem_cons_of_mem _ hp)
    have hlen : v.length ≤ 99 := hv (a, v) (List.mem_cons_self _ _)
    simp only [List.map_cons, tokenSteps]
    rw [ih hv']
    by_cases e : a = "63".toList
    · subst e
      have e1 : ("63".toList = ['6', '3']) := rfl
      simp only [tokenStep, record, e1, if_true, lastValue, List.filter_cons, ne_eq,
        not_true_eq_false, decide_False, Bool.false_eq_true, if_false]
      cases lastValue recs ['6', '3'] <;> simp
    · have e1 : ¬ a = ['6', '3'] := e
      simp only [tokenStep, record, e1, if_false, lastValue, List.filter_cons, ne_eq, e,
        not_false_eq_true, decide_True, if_true, List.flatMap_cons, recordText,
        twoDigits_sprintf _ hlen]
      cases lastValue recs "63".toList <;> simp

theorem rawText_map_record (recs : List (Str × Str)) :
    rawText (recs.map (fun p => record p.1 p.2)) = recs.flatMap recordText := by
  induction recs with
  | nil => rfl
  | cons p recs ih =>
    simp only [List.map_cons, List.flatMap_cons, ← ih]
    simp [rawText, RawRecord.text, record, recordText]


/-! ## Lemmas for the serializer and the length check of the encoder -/

theorem strLE_total (a b : Str) : strLE a b = true ∨ strLE b a = true := by
  induction a generalizing b with
  | nil => left; cases b <;> rfl
  | cons x xs ih =>
    cases b with
    | nil => right; rfl
    | cons y ys =>
      unfold strLE
      by_cases h1 : x.toNat < y.toNat
      · left; simp [h1]
      · by_cases h2 : y.toNat < x.toNat
        · right; simp [h2]
        · simp only [h1, h2, if_false]
          exact ih ys

theorem strLE_trans (a b c : Str) (h1 : strLE a b = true) (h2 : strLE b c = true) :
    strLE a c = true := by
  induction a generalizing b c with
  | nil => cases c <;> rfl
  | cons x xs ih =>
    cases b with
    | nil => simp [strLE] at h1
    | cons y ys =>
      cases c with
      | nil => simp [strLE] at h2
      | cons z zs =>
        unfold strLE at h1 h2 ⊢
        by_cases xy : x.toNat < y.toNat
        · by_cases yz : y.toNat < z.toNat
          · have : x.toNat < z.toNat := by omega
            simp [this]
          · by_cases zy : z.toNat < y.toNat
            · simp [yz, zy] at h2
            · have : x.toNat < z.toNat := by omega
              simp [this]
        · by_cases yx : y.toNat < x.toNat
          · simp [xy, yx] at h1
          · simp only [xy, yx, if_false] at h1
            by_cases yz : y.toNat < z.toNat
            · have : x.toNat < z.toNat := by omega
              simp [this]
            · by_cases zy : z.toNat < y.toNat
              · simp [yz, zy] at h2
              · simp only [yz, zy, if_false] at h2
                have e1 : ¬ x.toNat < z.toNat := by omega
                have e2 : ¬ z.toNat < x.toNat := by omega
                simp only [e1, e2, if_false]
                exact ih ys zs h1 h2

theorem sortStrings_sorted (keys : List Str) :
    (sortStrings keys).Sorted (fun a b => strLE a b = true) := by
  haveI : IsTotal Str (fun a b => strLE a b = true) := ⟨strLE_total⟩
  haveI : IsTrans Str (fun a b => strLE a b = true) := ⟨strLE_trans⟩
  exact List.sorted_insertionSort _ keys

theorem sortStrings_perm (keys : List Str) : (sortStrings keys).Perm keys :=
  List.perm_insertionSort _ keys

theorem rawText_recordsOf (M : TagMap) (keys : List Str) :
    rawText (recordsOf M keys) =
      (keys.filter (fun k => mapGet M k ≠ [])).flatMap (fun k => recordText (k, mapGet M k)) := by
  induction keys with
  | nil => rfl
  | cons a keys ih =>
    rw [rawText_recordsOf_cons, ih]
    by_cases h : mapGet M a ≠ []
    · simp [List.filter_cons, h, record, RawRecord.text, recordText]
    · simp [List.filter_cons, h]

theorem hexDigitUpper_mem : ∀ d : Fin 16, hexDigitUpper d.val ∈ "0123456789ABCDEF".toList := by
  decide

theorem mem_of_mapGet_ne_nil (m : TagMap) (k : Str) (h : mapGet m k ≠ []) :
    (k, mapGet m k) ∈ m := by
  induction m with
  | nil => simp [mapGet] at h
  | cons p rest ih =>
    obtain ⟨a, b⟩ := p
    unfold mapGet at h ⊢
    by_cases e : a = k
    · subst e; simp
    · simp only [e, if_false] at h ⊢
      exact List.mem_cons_of_mem _ (ih h)

theorem mapGet_of_mem (m : TagMap) (hnd : (mapKeys m).Nodup) (k v : Str) (h : (k, v) ∈ m) :
    mapGet m k = v := by
  induction m with
  | nil => cases h
  | cons p rest ih =>
    obtain ⟨a, b⟩ := p
    simp only [mapKeys, List.map_cons, List.nodup_cons] at hnd
    unfold mapGet
    rcases List.mem_cons.mp h with e | e
    · simp only [Prod.mk.injEq] at e
      simp [e.1, e.2]
    · have : ¬ a = k := by
        intro ea; subst ea
        exact hnd.1 (List.mem_map_of_mem Prod.fst e)
      simp only [this, if_false]
      exact ih hnd.2 e

theorem nodup_ite (c : Prop) [Decidable c] (a b : TagMap) (ha : (mapKeys a).Nodup)
    (hb : (mapKeys b).Nodup) : (mapKeys (if c then a else b)).Nodup := by
  split <;> assumption

theorem nodup_empty : (mapKeys ([] : TagMap)).Nodup := List.nodup_nil

theorem nodup_fillMap (qr : QR) : (mapKeys (fillMap qr)).Nodup := by
  unfold fillMap
  simp only []
  repeat' (first
    | with_reducible exact nodup_empty
    | with_reducible apply nodup_ite
    | with_reducible apply nodup_mapSet)

theorem checkTagLengths_some (l : TagMap) (k v : Str) (hmem : (k, v) ∈ l)
    (hlong : 99 < v.length) (honly : ∀ p ∈ l, 99 < p.2.length → p = (k, v)) :
    checkTagLengths l = some (tooLongMessage k v) := by
  induction l with
  | nil => cases hmem
  | cons p rest ih =>
    obtain ⟨a, b⟩ := p
    unfold checkTagLengths
    by_cases hb : b.length > 99
    · have := honly (a, b) (List.mem_cons_self _ _) hb
      simp only [Prod.mk.injEq] at this
      obtain ⟨e1, e2⟩ := this
      subst e1 e2
      simp only [hb, if_true, tooLongMessage]
    · simp only [hb, if_false]
      rcases List.mem_cons.mp hmem with e | e
      · simp only [Prod.mk.injEq] at e
        rw [← e.2] at hb
        exact absurd hlong hb
      · exact ih e (fun p hp => honly p (List.mem_cons_of_mem _ hp))

theorem checkTagLengths_ne_none (l : TagMap) (k v : Str) (hmem : (k, v) ∈ l)
    (hlong : 99 < v.length) : checkTagLengths l ≠ none := by
  intro h
  induction l with
  | nil => cases hmem
  | cons p rest ih =>
    obtain ⟨a, b⟩ := p
    unfold checkTagLengths at h
    split at h
    · simp at h
    · rename_i hb
      rcases List.mem_cons.mp hmem with e | e
      · simp only [Prod.mk.injEq] at e
        rw [← e.2] at hb
        exact hb hlong
      · exact ih e h

theorem checkTagLengths_all (l : TagMap) (h : checkTagLengths l = none) :
    ∀ p ∈ l, p.2.length ≤ 99 := by
  induction l with
  | nil => intro p hp; cases hp
  | cons q rest ih =>
    obtain ⟨a, b⟩ := q
    unfold checkTagLengths at h
    split at h
    · simp at h
    · rename_i hb
      intro p hp
      rcases List.mem_cons.mp hp with e | e
      · subst e; simp only; omega
      · exact ih h p e

theorem serializeLoop_shape (M : TagMap) (hM : ∀ k, (mapGet M k).length ≤ 99)
    (keys : List Str) (str : Str) :
    (∃ e, serializeLoop M keys str = ([], some e)) ∨
    serializeLoop M keys str = (str ++ rawText (recordsOf M keys), none) := by
  induction keys generalizing str with
  | nil => right; simp [serializeLoop, recordsOf, rawText]
  | cons a keys ih =>
    unfold serializeLoop
    by_cases ha : mapGet M a ≠ []
    · have e : recordsOf M (a :: keys) = record a (mapGet M a) :: recordsOf M keys := by
        simp [recordsOf, List.filter_cons, ha]
      simp only [ne_eq, ha, not_false_eq_true, if_true]
      by_cases hc : a = "63".toList ∧
          ¬ mapGet M a = sprintfX (ChecksumCCITTFalse (utf8Bytes (str ++ "6304".toList)))
      · left
        rw [if_pos hc]
        exact ⟨_, rfl⟩
      · rw [if_neg hc]
        rcases ih (str ++ writeRecord a (mapGet M a)) with h | h
        · left; exact h
        · right
          rw [h, e]
          simp [writeRecord, rawText, RawRecord.text, record, twoDigits_write _ (hM a)]
    · have e : recordsOf M (a :: keys) = recordsOf M keys := by
        simp [recordsOf, List.filter_cons, ha]
      simp only [ha, if_false]
      rw [e]
      exact ih str

theorem ConvertMapToString_shape (M : TagMap) (hM : ∀ k, (mapGet M k).length ≤ 99)
    (hk : KeysTwo M) :
    ∃ recs : List RawRecord, (∀ r ∈ recs, r.WellFormed) ∧
      (ConvertMapToString M).1 = rawText recs ∧
      ∀ r ∈ recs, r.tag ∈ mapKeys M ∨ r.tag = "63".toList := by
  have hwf := recordsOf_wf M hM (sortStrings (mapKeys M))
    (fun k hk' => hk k ((mem_sortStrings _ _).mp hk'))
  have htags : ∀ r ∈ recordsOf M (sortStrings (mapKeys M)), r.tag ∈ mapKeys M := by
    intro r hr
    simp only [recordsOf, List.mem_map, List.mem_filter] at hr
    obtain ⟨k, ⟨hmem, _⟩, rfl⟩ := hr
    exact (mem_sortStrings _ _).mp hmem
  unfold ConvertMapToString
  simp only []
  rcases serializeLoop_shape M hM (sortStrings (mapKeys M)) [] with ⟨e, h⟩ | h
  · rw [h]
    exact ⟨[], by simp, rfl, by simp⟩
  · rw [h]
    simp only [List.nil_append]
    split
    · rename_i h63
      refine ⟨recordsOf M (sortStrings (mapKeys M)) ++
        [⟨"63".toList, "04".toList, checksumOf (bodyOf M)⟩], ?_, ?_, ?_⟩
      · intro r hr
        rcases List.mem_append.mp hr with h1 | h1
        · exact hwf r h1
        · simp only [List.mem_singleton] at h1
          subst h1
          refine ⟨rfl, rfl, ?_⟩
          show parseInt10 "04".toList = _
          rw [checksumOf_length]
          decide
      · rw [rawText_append]
        simp [rawText, RawRecord.text, checksumOf, pad4, bodyOf]
      · intro r hr
        rcases List.mem_append.mp hr with h1 | h1
        · exact Or.inl (htags r h1)
        · simp only [List.mem_singleton] at h1
          subst h1
          exact Or.inr rfl
    · exact ⟨_, hwf, rfl, fun r hr => Or.inl (htags r hr)⟩

theorem mapKeys_ite (c : Prop) [Decidable c] (a b : TagMap) (x : Str) :
    x ∈ mapKeys (if c then a else b) ↔ if c then x ∈ mapKeys a else x ∈ mapKeys b := by
  split <;> rfl

theorem mapKeys_nil : mapKeys ([] : TagMap) = [] := rfl

theorem not_mem_fillMap_29 (qr : QR)
    (h : qr.Merchant.ID.PromptPay.AID = [] ∧ qr.Merchant.ID.PromptPay.MobileNumber = [] ∧
      qr.Merchant.ID.PromptPay.NationalID = [] ∧ qr.Merchant.ID.PromptPay.EWalletID = [] ∧
      qr.Merchant.ID.PromptPay.BankAccount = [] ∧
      qr.Merchant.ID.PromptPay.NationalEWalletID = []) :
    "29".toList ∉ mapKeys (fillMap qr) := by
  obtain ⟨h1, h2, h3, h4, h5, h6⟩ := h
  unfold fillMap
  simp [mem_mapKeys_mapSet, mapKeys_ite, mapKeys_nil, h1, h2, h3, h4, h5, h6]

theorem not_mem_fillMap_30 (qr : QR)
    (h : qr.Merchant.ID.PromptPayBillPayment.AID = [] ∧
      qr.Merchant.ID.PromptPayBillPayment.BillerID = [] ∧
      qr.Merchant.ID.PromptPayBillPayment.Reference1 = [] ∧
      qr.Merchant.ID.PromptPayBillPayment.Reference2 = []) :
    "30".toList ∉ mapKeys (fillMap qr) := by
  obtain ⟨h1, h2, h3, h4⟩ := h
  unfold fillMap
  simp [mem_mapKeys_mapSet, mapKeys_ite, mapKeys_nil, h1, h2, h3, h4]

theorem not_mem_fillMap_31 (qr : QR)
    (h : qr.Merchant.ID.API.AID = [] ∧ qr.Merchant.ID.API.AcquirerID = [] ∧
      qr.Merchant.ID.API.MerchantID = []) :
    "31".toList ∉ mapKeys (fillMap qr) := by
  obtain ⟨h1, h2, h3⟩ := h
  unfold fillMap
  simp [mem_mapKeys_mapSet, mapKeys_ite, mapKeys_nil, h1, h2, h3]

theorem not_mem_fillMap_62 (qr : QR)
    (h : qr.AdditionalData.BillNumber = [] ∧ qr.AdditionalData.MobileNumber = [] ∧
      qr.AdditionalData.StoreID = [] ∧ qr.AdditionalData.LoyaltyNumber = [] ∧
      qr.AdditionalData.ReferenceID = [] ∧ qr.AdditionalData.ConsumerID = [] ∧
      qr.AdditionalData.TerminalID = [] ∧ qr.AdditionalData.PurposeOfTransaction = [] ∧
      qr.AdditionalData.AdditionalConsumerDataRequest = []) :
    "62".toList ∉ mapKeys (fillMap qr) := by
  obtain ⟨h1, h2, h3, h4, h5, h6, h7, h8, h9⟩ := h
  unfold fillMap
  simp [mem_mapKeys_mapSet, mapKeys_ite, mapKeys_nil, h1, h2, h3, h4, h5, h6, h7, h8, h9]

theorem hasNoRecord_of_not_mem (M : TagMap) (hM : ∀ k, (mapGet M k).length ≤ 99)
    (hk : KeysTwo M) (tag : Str) (h63 : tag ≠ "63".toList) (hmem : tag ∉ mapKeys M) :
    HasNoRecord tag (ConvertMapToString M).1 := by
  obtain ⟨recs, hwf, htext, htags⟩ := ConvertMapToString_shape M hM hk
  refine ⟨recs, hwf, htext, ?_⟩
  intro r hr e
  rcases htags r hr with h | h
  · rw [e] at h; exact hmem h
  · rw [e] at h; exact h63 h

/-! ## Lemmas for group values and the entries of a tokenized payload -/

theorem mapFind_tokenSteps_recordsOf (M : TagMap) (keys : List Str) (m : TagMap) (st : Scratch)
    (k : Str) :
    mapFind (tokenSteps (recordsOf M keys) m st).1 k =
      if k ∈ keys ∧ mapGet M k ≠ [] then some (mapGet M k) else mapFind m k := by
  induction keys generalizing m st with
  | nil => simp [recordsOf, tokenSteps]
  | cons a keys ih =>
    by_cases ha : mapGet M a ≠ []
    · have e : recordsOf M (a :: keys) = record a (mapGet M a) :: recordsOf M keys := by
        simp [recordsOf, List.filter_cons, ha]
      rw [e, tokenSteps, ih]
      simp only [tokenStep, record, mapFind_mapSet]
      by_cases hk : k ∈ keys ∧ mapGet M k ≠ []
      · have : k ∈ a :: keys ∧ mapGet M k ≠ [] := ⟨List.mem_cons_of_mem _ hk.1, hk.2⟩
        rw [if_pos hk, if_pos this]
      · rw [if_neg hk]
        by_cases hak : a = k
        · subst hak
          rw [if_pos rfl, if_pos ⟨List.mem_cons_self _ _, ha⟩]
        · rw [if_neg hak, if_neg]
          rintro ⟨h1, h2⟩
          rcases List.mem_cons.mp h1 with h | h
          · exact hak h.symm
          · exact hk ⟨h, h2⟩
    · have e : recordsOf M (a :: keys) = recordsOf M keys := by
        simp [recordsOf, List.filter_cons, ha]
      rw [e, ih]
      by_cases hk : k ∈ keys ∧ mapGet M k ≠ []
      · have : k ∈ a :: keys ∧ mapGet M k ≠ [] := ⟨List.mem_cons_of_mem _ hk.1, hk.2⟩
        rw [if_pos hk, if_pos this]
      · rw [if_neg hk, if_neg]
        rintro ⟨h1, h2⟩
        rcases List.mem_cons.mp h1 with h | h
        · subst h; exact ha h2
        · exact hk ⟨h, h2⟩

theorem blobOf_filter (F : TagMap) (h : ∀ p ∈ F, p.2.length ≤ 99) :
    blobOf F = (F.filter (fun p => p.2 ≠ [])).flatMap recordText := by
  induction F with
  | nil => rfl
  | cons q F ih =>
    have hq : q.2.length ≤ 99 := h q (List.mem_cons_self _ _)
    have hrest := ih (fun p hp => h p (List.mem_cons_of_mem _ hp))
    have e : blobOf (q :: F) = subField q.1 q.2 ++ blobOf F := by simp [blobOf]
    rw [e, hrest, subField_eq q.1 q.2 hq]
    by_cases hv : q.2 ≠ []
    · simp [List.filter_cons, hv, recordText, record, RawRecord.text]
    · simp [List.filter_cons, hv]

theorem payloadOf_last4 (body : Str) :
    (payloadOf body).drop ((payloadOf body).length - 4) = checksumOf body := by
  have h := checksumOf_length body
  unfold payloadOf
  apply List.drop_left'
  simp [h]

/-- The value of a group that passed the last loop of the encoder is the text
of the records of its non-empty subfields, and is tokenized to exactly these
subfields. -/
theorem group_value_tokenizes (M : TagMap) (tag : Str) (F : TagMap) (hnd : (mapKeys F).Nodup)
    (hk : KeysTwo F) (hval : mapGet M tag = blobOf F) (hlen : (mapGet M tag).length ≤ 99)
    (slack : Nat → Nat) (st : Scratch) :
    (∀ p ∈ F, p.2.length ≤ 99) ∧
    mapGet M tag = (F.filter (fun p => p.2 ≠ [])).flatMap recordText ∧
    ∃ sub st', ConvertStringToMap slack st (mapGet M tag) = Run.ret (sub, none) st' ∧
      (mapKeys sub).Nodup ∧ ∀ k v, (k, v) ∈ sub ↔ ((k, v) ∈ F ∧ v ≠ []) := by
  rw [hval] at hlen ⊢
  have h99 := blobOf_length F hlen
  have hF := mapGet_length F h99
  refine ⟨h99, blobOf_filter F h99, ?_⟩
  have hwf := recordsOf_wf F hF (mapKeys F) hk
  have htok := ConvertStringToMap_records slack st _ hwf
  rw [← blobOf_records F hnd h99] at htok
  have hnd' := tokenSteps_nodup (recordsOf F (mapKeys F)) []
    { st with stringWithNoCRC := [] } (by simp [mapKeys])
  refine ⟨_, _, htok, hnd', ?_⟩
  intro k v
  rw [mem_iff_mapFind _ hnd', mapFind_tokenSteps_recordsOf]
  constructor
  · intro h
    by_cases hc : k ∈ mapKeys F ∧ mapGet F k ≠ []
    · rw [if_pos hc] at h
      have e : mapGet F k = v := Option.some.inj h
      subst e
      exact ⟨mem_of_mapGet_ne_nil F k hc.2, hc.2⟩
    · rw [if_neg hc] at h
      simp [mapFind] at h
  · rintro ⟨hmem, hv⟩
    have e := mapGet_of_mem F hnd k v hmem
    have hkm : k ∈ mapKeys F := List.mem_map_of_mem Prod.fst hmem
    rw [if_pos ⟨hkm, by rw [e]; exact hv⟩, e]

theorem api_guard_of_mem (qr : QR) (h : "31".toList ∈ mapKeys (fillMap qr)) :
    qr.Merchant.ID.API.AID ≠ [] ∨ qr.Merchant.ID.API.AcquirerID ≠ [] ∨
      qr.Merchant.ID.API.MerchantID ≠ [] := by
  by_contra hc
  simp only [not_or, not_not] at hc
  exact not_mem_fillMap_31 qr hc h

theorem tokenize_generated_entries (M : TagMap) (hM : ∀ k, (mapGet M k).length ≤ 99)
    (h63 : mapGet M "63".toList = []) (hkeys : ∀ k ∈ mapKeys M, k.length = 2)
    (slack : Nat → Nat) (st : Scratch) :
    ∃ M', ConvertStringToMap slack st (payloadOf (bodyOf M)) =
        Run.ret (M', none) ⟨bodyOf M, checksumOf (bodyOf M)⟩ ∧
      (mapKeys M').Nodup ∧
      ∀ k v, (k, v) ∈ M' ↔
        ((k = "63".toList ∧ v = checksumOf (bodyOf M)) ∨ (v ≠ [] ∧ mapGet M k = v)) := by
  have hwf := recordsOf_wf M hM (sortStrings (mapKeys M))
    (fun k hk => hkeys k ((mem_sortStrings _ _).mp hk))
  have htok := tokenize_with_checksum slack st _ hwf (checksumOf (bodyOf M))
    (checksumOf_length _)
  have hst := scratch_tokenSteps_recordsOf M hM h63 (sortStrings (mapKeys M)) []
    { st with stringWithNoCRC := [] }
  have hnd := nodup_mapSet _ "63".toList (checksumOf (bodyOf M))
    (tokenSteps_nodup (recordsOf M (sortStrings (mapKeys M))) []
      { st with stringWithNoCRC := [] } (by simp [mapKeys]))
  refine ⟨_, ?_, hnd, ?_⟩
  · show ConvertStringToMap slack st
      (rawText (recordsOf M (sortStrings (mapKeys M))) ++ "6304".toList ++
        checksumOf (bodyOf M)) = _
    rw [htok, hst]
    simp [bodyOf]
  · intro k v
    rw [mem_iff_mapFind _ hnd, mapFind_mapSet, mapFind_tokenSteps_recordsOf]
    by_cases hk : "63".toList = k
    · subst hk
      rw [if_pos rfl]
      constructor
      · intro h; exact Or.inl ⟨rfl, (Option.some.inj h).symm⟩
      · rintro (⟨_, h⟩ | ⟨h1, h2⟩)
        · rw [h]
        · rw [h63] at h2; exact absurd h2.symm h1
    · rw [if_neg hk]
      constructor
      · intro h
        by_cases hc : k ∈ sortStrings (mapKeys M) ∧ mapGet M k ≠ []
        · rw [if_pos hc] at h
          have e : mapGet M k = v := Option.some.inj h
          exact Or.inr ⟨by rw [← e]; exact hc.2, e⟩
        · rw [if_neg hc] at h
          simp [mapFind] at h
      · rintro (⟨h, _⟩ | ⟨h1, h2⟩)
        · exact absurd h.symm hk
        · have hne : mapGet M k ≠ [] := by rw [h2]; exact h1
          have hmem : k ∈ mapKeys M := by
            by_contra hn
            exact hne (mapGet_of_not_mem M k hn)
          rw [if_pos ⟨(mem_sortStrings _ _).mpr hmem, hne⟩, h2]

/-! ## Lemmas for strings of arbitrary bytes -/

theorem decodeRune_encode (c : Char) (rest : Bytes) :
    decodeRune (utf8EncodeChar c ++ rest) = (c, (utf8EncodeChar c).length) := by
  have hv : c.toNat < 0xD800 ∨ (0xDFFF < c.toNat ∧ c.toNat < 0x110000) := c.valid
  have hc : ∀ n, n = c.toNat → Char.ofNat n = c := by
    intro n hn; rw [hn]; exact Char.ofNat_toNat c
  unfold utf8EncodeChar
  simp only []
  by_cases h1 : c.toNat < 0x80
  · simp only [h1, if_true, List.cons_append, List.nil_append, decodeRune, List.length_singleton]
    rw [hc _ rfl]
  · by_cases h2 : c.toNat < 0x800
    · simp only [h1, h2, if_true, if_false, List.cons_append, List.nil_append, decodeRune]
      rw [if_neg (by omega), if_pos (by omega), if_pos (by omega)]
      rw [hc _ (by omega)]
      rfl
    · by_cases h3 : c.toNat < 0x10000
      · simp only [h1, h2, h3, if_true, if_false, List.cons_append, List.nil_append, decodeRune]
        rw [if_neg (by omega), if_neg (by omega), if_pos (by omega), if_pos (by omega)]
        rw [hc _ (by omega)]
        rfl
      · simp only [h1, h2, h3, if_false, List.cons_append, List.nil_append, decodeRune]
        rw [if_neg (by omega), if_neg (by omega), if_neg (by omega), if_pos (by omega),
          if_pos (by omega)]
        rw [hc _ (by omega)]
        rfl


theorem utf8EncodeChar_length_pos (c : Char) : 0 < (utf8EncodeChar c).length := by
  unfold utf8EncodeChar
  simp only []
  split
  · simp
  · split
    · simp
    · split <;> simp

theorem runesLoop_utf8Bytes (cs : Str) (fuel : Nat) (h : (utf8Bytes cs).length ≤ fuel) :
    runesLoop fuel (utf8Bytes cs) = cs := by
  induction cs generalizing fuel with
  | nil =>
    cases fuel <;> rfl
  | cons c cs ih =>
    have e : utf8Bytes (c :: cs) = utf8EncodeChar c ++ utf8Bytes cs := by
      simp [utf8Bytes]
    have hpos := utf8EncodeChar_length_pos c
    rw [e] at h ⊢
    rw [List.length_append] at h
    obtain ⟨fuel, rfl⟩ : ∃ f, fuel = f + 1 := ⟨fuel - 1, by omega⟩
    obtain ⟨b, t, hbt⟩ : ∃ b t, utf8EncodeChar c ++ utf8Bytes cs = b :: t := by
      cases hx : utf8EncodeChar c ++ utf8Bytes cs with
      | nil =>
        have := congrArg List.length hx
        rw [List.length_append, List.length_nil] at this
        omega
      | cons b t => exact ⟨b, t, rfl⟩
    rw [hbt, runesLoop, ← hbt, decodeRune_encode]
    simp only [List.drop_left]
    rw [ih fuel (by omega)]

/-- Converting the UTF-8 text of a sequence of code points to runes gives the
sequence back. -/
theorem runes_utf8Bytes (cs : Str) : runes (utf8Bytes cs) = cs :=
  runesLoop_utf8Bytes cs _ (le_refl _)

theorem runeCount_utf8Bytes (cs : Str) : runeCount (utf8Bytes cs) = cs.length := by
  unfold runeCount
  rw [runes_utf8Bytes]

theorem utf8Bytes_injective {a b : Str} (h : utf8Bytes a = utf8Bytes b) : a = b := by
  have := congrArg runes h
  rwa [runes_utf8Bytes, runes_utf8Bytes] at this

theorem utf8Bytes_append (a b : Str) : utf8Bytes (a ++ b) = utf8Bytes a ++ utf8Bytes b := by
  simp [utf8Bytes]

theorem utf8Bytes_eq_nil {a : Str} : utf8Bytes a = [] ↔ a = [] := by
  constructor
  · intro h
    exact utf8Bytes_injective (b := []) h
  · intro h; subst h; rfl

theorem lit_eq (s : String) : lit s = utf8Bytes s.toList := rfl

theorem lit_append (a b : String) : lit (a ++ b) = lit a ++ lit b := by
  simp [lit, utf8Bytes_append]

theorem lit_mk (cs : Str) : lit (String.mk cs) = utf8Bytes cs := rfl

theorem utf8Bytes_inj {a b : Str} : utf8Bytes a = utf8Bytes b ↔ a = b :=
  ⟨utf8Bytes_injective, fun h => by rw [h]⟩

theorem mapGetB_toBytes (m : TagMap) (k : Str) :
    mapGetB m.toBytes (utf8Bytes k) = utf8Bytes (mapGet m k) := by
  induction m with
  | nil => rfl
  | cons p rest ih =>
    obtain ⟨a, b⟩ := p
    have e : TagMap.toBytes ((a, b) :: rest) = (utf8Bytes a, utf8Bytes b) :: TagMap.toBytes rest := rfl
    rw [e, mapGetB, mapGet, ih]
    by_cases h : a = k
    · simp [h]
    · have : ¬ utf8Bytes a = utf8Bytes k := fun e => h (utf8Bytes_injective e)
      simp [h, this]

theorem mapSetB_toBytes (m : TagMap) (k v : Str) :
    mapSetB m.toBytes (utf8Bytes k) (utf8Bytes v) = (mapSet m k v).toBytes := by
  induction m with
  | nil => rfl
  | cons p rest ih =>
    obtain ⟨a, b⟩ := p
    have e : TagMap.toBytes ((a, b) :: rest) = (utf8Bytes a, utf8Bytes b) :: TagMap.toBytes rest := rfl
    rw [e, mapSetB, mapSet]
    by_cases h : a = k
    · simp [h, TagMap.toBytes]
    · have : ¬ utf8Bytes a = utf8Bytes k := fun e => h (utf8Bytes_injective e)
      simp only [h, this, if_false]
      rw [ih]
      rfl

theorem mapKeysB_toBytes (m : TagMap) : mapKeysB m.toBytes = (mapKeys m).map utf8Bytes := by
  simp [mapKeysB, mapKeys, TagMap.toBytes]

theorem subFieldB_toBytes (id v : Str) :
    subFieldB (utf8Bytes id) (utf8Bytes v) = utf8Bytes (subField id v) := by
  unfold subFieldB subField
  rw [runeCount_utf8Bytes]
  by_cases hv : v = []
  · subst hv; rfl
  · have : utf8Bytes v ≠ [] := fun e => hv (utf8Bytes_eq_nil.mp e)
    simp only [ne_eq, hv, this, not_false_eq_true, if_true, utf8Bytes_append]
    by_cases h10 : v.length < 10
    · simp only [h10, if_true]; rfl
    · simp only [h10, if_false]; rfl

theorem promptPayBlobB_toBytes (p : QRMerchantIDPromptPay) :
    promptPayBlobB p.toBytes = utf8Bytes (promptPayBlob p) := by
  simp only [promptPayBlobB, promptPayBlob, QRMerchantIDPromptPay.toBytes, lit_eq,
    subFieldB_toBytes, utf8Bytes_append]

theorem billPaymentBlobB_toBytes (p : QRMerchantIDPromptPayBillPayment) :
    billPaymentBlobB p.toBytes = utf8Bytes (billPaymentBlob p) := by
  simp only [billPaymentBlobB, billPaymentBlob, QRMerchantIDPromptPayBillPayment.toBytes, lit_eq,
    subFieldB_toBytes, utf8Bytes_append]

theorem apiBlobB_toBytes (p : QRMerchantIDPromptPayAPI) :
    apiBlobB p.toBytes = utf8Bytes (apiBlob p) := by
  simp only [apiBlobB, apiBlob, QRMerchantIDPromptPayAPI.toBytes, lit_eq,
    subFieldB_toBytes, utf8Bytes_append]

theorem additionalBlobB_toBytes (p : QRAdditionalData) :
    additionalBlobB p.toBytes = utf8Bytes (additionalBlob p) := by
  simp only [additionalBlobB, additionalBlob, QRAdditionalData.toBytes, lit_eq,
    subFieldB_toBytes, utf8Bytes_append]

theorem utf8Bytes_ne_nil {a : Str} : utf8Bytes a ≠ [] ↔ a ≠ [] :=
  not_congr utf8Bytes_eq_nil

theorem toBytes_ite (c : Prop) [Decidable c] (a b : TagMap) :
    (if c then TagMap.toBytes a else TagMap.toBytes b) = TagMap.toBytes (if c then a else b) := by
  split <;> rfl

theorem mapSetB_nil (k v : Str) :
    mapSetB [] (utf8Bytes k) (utf8Bytes v) = TagMap.toBytes (mapSet [] k v) := rfl

theorem fillMapB_toBytes (qr : QR) : fillMapB qr.toBytes = TagMap.toBytes (fillMap qr) := by
  unfold fillMapB fillMap
  simp only [QR.toBytes, QRMerchant.toBytes, QRMerchantID.toBytes, QRTransaction.toBytes,
    promptPayBlobB_toBytes, billPaymentBlobB_toBytes, apiBlobB_toBytes,
    additionalBlobB_toBytes]
  simp only [QRMerchantIDPromptPay.toBytes, QRMerchantIDPromptPayBillPayment.toBytes,
    QRMerchantIDPromptPayAPI.toBytes, QRAdditionalData.toBytes, lit_eq, utf8Bytes_ne_nil,
    mapSetB_nil, mapSetB_toBytes, toBytes_ite]


theorem encodeLengthCheckB_toBytes (qr : QR) :
    encodeLengthCheckB qr.toBytes = (encodeLengthCheck qr).map lit := by
  unfold encodeLengthCheckB encodeLengthCheck
  simp only [QR.toBytes, QRMerchant.toBytes, QRTransaction.toBytes, runeCount_utf8Bytes,
    utf8Bytes_ne_nil]
  repeat' split
  all_goals rfl

theorem checkTagLengthsB_toBytes (m : TagMap) :
    checkTagLengthsB (TagMap.toBytes m) = (checkTagLengths m).map lit := by
  induction m with
  | nil => rfl
  | cons p rest ih =>
    obtain ⟨a, b⟩ := p
    have e : TagMap.toBytes ((a, b) :: rest) = (utf8Bytes a, utf8Bytes b) :: TagMap.toBytes rest :=
      rfl
    rw [e, checkTagLengthsB, checkTagLengths, runeCount_utf8Bytes, ih]
    split
    · simp only [Option.map_some', lit_append, lit_mk, List.append_assoc]
    · rfl

theorem ConvertQRToMapB_toBytes (qr : QR) :
    ConvertQRToMapB qr.toBytes =
      ((ConvertQRToMap qr).1.map TagMap.toBytes, (ConvertQRToMap qr).2.map lit) := by
  unfold ConvertQRToMapB ConvertQRToMap
  rw [encodeLengthCheckB_toBytes]
  cases encodeLengthCheck qr with
  | some e => rfl
  | none =>
    simp only [Option.map_none', fillMapB_toBytes, checkTagLengthsB_toBytes]
    cases checkTagLengths (fillMap qr) with
    | some e => rfl
    | none => rfl

theorem bytesLE_append_left (p x y : Bytes) : bytesLE (p ++ x) (p ++ y) = bytesLE x y := by
  induction p with
  | nil => rfl
  | cons b p ih => simp [bytesLE, ih]

theorem bytesLE_cons (a b : Nat) (p q : Bytes)
    (h : a < b ∨ (a = b ∧ bytesLE p q = true ∧ bytesLE q p = false)) :
    bytesLE (a :: p) (b :: q) = true ∧ bytesLE (b :: q) (a :: p) = false := by
  rcases h with h | ⟨h, h1, h2⟩
  · have h' : ¬ b < a := by omega
    simp [bytesLE, h, h']
  · subst h
    simp [bytesLE, h1, h2]

theorem utf8EncodeChar_one (c : Char) (h : c.toNat < 0x80) : utf8EncodeChar c = [c.toNat] := by
  unfold utf8EncodeChar
  simp only [h, if_true]

theorem utf8EncodeChar_two (c : Char) (h1 : ¬ c.toNat < 0x80) (h : c.toNat < 0x800) :
    utf8EncodeChar c = [0xC0 + c.toNat / 64, 0x80 + c.toNat % 64] := by
  unfold utf8EncodeChar
  simp only [h1, h, if_true, if_false]

theorem utf8EncodeChar_three (c : Char) (h1 : ¬ c.toNat < 0x800) (h : c.toNat < 0x10000) :
    utf8EncodeChar c =
      [0xE0 + c.toNat / 4096, 0x80 + c.toNat / 64 % 64, 0x80 + c.toNat % 64] := by
  have h0 : ¬ c.toNat < 0x80 := by omega
  unfold utf8EncodeChar
  simp only [h0, h1, h, if_true, if_false]

theorem utf8EncodeChar_four (c : Char) (h1 : ¬ c.toNat < 0x10000) :
    utf8EncodeChar c =
      [0xF0 + c.toNat / 262144, 0x80 + c.toNat / 4096 % 64, 0x80 + c.toNat / 64 % 64,
        0x80 + c.toNat % 64] := by
  have h0 : ¬ c.toNat < 0x80 := by omega
  have h2 : ¬ c.toNat < 0x800 := by omega
  unfold utf8EncodeChar
  simp only [h0, h1, h2, if_false]

theorem bytesLE_encode_lt (c d : Char) (x y : Bytes) (h : c.toNat < d.toNat) :
    bytesLE (utf8EncodeChar c ++ x) (utf8EncodeChar d ++ y) = true ∧
    bytesLE (utf8EncodeChar d ++ y) (utf8EncodeChar c ++ x) = false := by
  by_cases c1 : c.toNat < 0x80
  · rw [utf8EncodeChar_one c c1]
    by_cases d1 : d.toNat < 0x80
    · rw [utf8EncodeChar_one d d1]
      exact bytesLE_cons _ _ _ _ (Or.inl h)
    · by_cases d2 : d.toNat < 0x800
      · rw [utf8EncodeChar_two d d1 d2]
        exact bytesLE_cons _ _ _ _ (Or.inl (by omega))
      · by_cases d3 : d.toNat < 0x10000
        · rw [utf8EncodeChar_three d d2 d3]
          exact bytesLE_cons _ _ _ _ (Or.inl (by omega))
        · rw [utf8EncodeChar_four d d3]
          exact bytesLE_cons _ _ _ _ (Or.inl (by omega))
  · by_cases c2 : c.toNat < 0x800
    · rw [utf8EncodeChar_two c c1 c2]
      by_cases d2 : d.toNat < 0x800
      · rw [utf8EncodeChar_two d (by omega) d2]
        by_cases e : c.toNat / 64 < d.toNat / 64
        · exact bytesLE_cons _ _ _ _ (Or.inl (by omega))
        · exact bytesLE_cons _ _ _ _ (Or.inr ⟨by omega,
            bytesLE_cons _ _ _ _ (Or.inl (by omega))⟩)
      · by_cases d3 : d.toNat < 0x10000
        · rw [utf8EncodeChar_three d d2 d3]
          exact bytesLE_cons _ _ _ _ (Or.inl (by omega))
        · rw [utf8EncodeChar_four d d3]
          exact bytesLE_cons _ _ _ _ (Or.inl (by omega))
    · by_cases c3 : c.toNat < 0x10000
      · rw [utf8EncodeChar_three c c2 c3]
        by_cases d3 : d.toNat < 0x10000
        · rw [utf8EncodeChar_three d (by omega) d3]
          by_cases e : c.toNat / 4096 < d.toNat / 4096
          · exact bytesLE_cons _ _ _ _ (Or.inl (by omega))
          · by_cases e' : c.toNat / 64 % 64 < d.toNat / 64 % 64
            · exact bytesLE_cons _ _ _ _ (Or.inr ⟨by omega,
                bytesLE_cons _ _ _ _ (Or.inl (by omega))⟩)
            · exact bytesLE_cons _ _ _ _ (Or.inr ⟨by omega,
                bytesLE_cons _ _ _ _ (Or.inr ⟨by omega,
                  bytesLE_cons _ _ _ _ (Or.inl (by omega))⟩)⟩)
        · rw [utf8EncodeChar_four d d3]
          exact bytesLE_cons _ _ _ _ (Or.inl (by omega))
      · rw [utf8EncodeChar_four c c3, utf8EncodeChar_four d (by omega)]
        by_cases e : c.toNat / 262144 < d.toNat / 262144
        · exact bytesLE_cons _ _ _ _ (Or.inl (by omega))
        · by_cases e' : c.toNat / 4096 % 64 < d.toNat / 4096 % 64
          · exact bytesLE_cons _ _ _ _ (Or.inr ⟨by omega,
              bytesLE_cons _ _ _ _ (Or.inl (by omega))⟩)
          · by_cases e'' : c.toNat / 64 % 64 < d.toNat / 64 % 64
            · exact bytesLE_cons _ _ _ _ (Or.inr ⟨by omega,
                bytesLE_cons _ _ _ _ (Or.inr ⟨by omega,
                  bytesLE_cons _ _ _ _ (Or.inl (by omega))⟩)⟩)
            · exact bytesLE_cons _ _ _ _ (Or.inr ⟨by omega,
                bytesLE_cons _ _ _ _ (Or.inr ⟨by omega,
                  bytesLE_cons _ _ _ _ (Or.inr ⟨by omega,
                    bytesLE_cons _ _ _ _ (Or.inl (by omega))⟩)⟩)⟩)

theorem utf8EncodeChar_ne_nil (c : Char) : utf8EncodeChar c ≠ [] := by
  intro h
  have := utf8EncodeChar_length_pos c
  rw [h] at this
  exact Nat.lt_irrefl _ this

theorem bytesLE_utf8Bytes (a b : Str) : bytesLE (utf8Bytes a) (utf8Bytes b) = strLE a b := by
  induction a generalizing b with
  | nil => cases h : utf8Bytes b <;> simp [utf8Bytes, bytesLE, strLE]
  | cons c cs ih =>
    cases b with
    | nil =>
      have e : utf8Bytes (c :: cs) = utf8EncodeChar c ++ utf8Bytes cs := by simp [utf8Bytes]
      rw [e]
      cases hx : utf8EncodeChar c with
      | nil => exact absurd hx (utf8EncodeChar_ne_nil c)
      | cons b t => rfl
    | cons d ds =>
      have e1 : utf8Bytes (c :: cs) = utf8EncodeChar c ++ utf8Bytes cs := by simp [utf8Bytes]
      have e2 : utf8Bytes (d :: ds) = utf8EncodeChar d ++ utf8Bytes ds := by simp [utf8Bytes]
      rw [e1, e2, strLE]
      by_cases h1 : c.toNat < d.toNat
      · rw [if_pos h1]
        exact (bytesLE_encode_lt c d _ _ h1).1
      · rw [if_neg h1]
        by_cases h2 : d.toNat < c.toNat
        · rw [if_pos h2]
          exact (bytesLE_encode_lt d c _ _ h2).2
        · rw [if_neg h2]
          have hcd : c = d := by
            have hn : c.toNat = d.toNat := by omega
            have := congrArg Char.ofNat hn
            rwa [Char.ofNat_toNat, Char.ofNat_toNat] at this
          subst hcd
          rw [bytesLE_append_left, ih]

theorem sortStringsB_map (keys : List Str) :
    sortStringsB (keys.map utf8Bytes) = (sortStrings keys).map utf8Bytes := by
  unfold sortStringsB sortStrings
  rw [List.map_insertionSort (fun a b => strLE a b = true) (fun a b => bytesLE a b = true)]
  intro a _ b _
  rw [bytesLE_utf8Bytes]


theorem writeRecordB_toBytes (k v : Str) :
    writeRecordB (utf8Bytes k) (utf8Bytes v) = utf8Bytes (writeRecord k v) := by
  unfold writeRecordB writeRecord
  rw [runeCount_utf8Bytes]
  simp only [utf8Bytes_append]
  split <;> rfl

theorem serializeLoopB_toBytes (m : TagMap) (keys : List Str) (str : Str) :
    serializeLoopB (TagMap.toBytes m) (keys.map utf8Bytes) (utf8Bytes str) =
      (utf8Bytes (serializeLoop m keys str).1, (serializeLoop m keys str).2.map lit) := by
  induction keys generalizing str with
  | nil => rfl
  | cons k keys ih =>
    rw [List.map_cons, serializeLoopB, serializeLoop]
    simp only [mapGetB_toBytes, lit_eq, ← utf8Bytes_append, writeRecordB_toBytes]
    by_cases hv : mapGet m k ≠ []
    · have hvB : utf8Bytes (mapGet m k) ≠ [] := utf8Bytes_ne_nil.mpr hv
      rw [if_pos hvB, if_pos hv]
      by_cases hc : k = "63".toList ∧
          mapGet m k ≠ sprintfX (ChecksumCCITTFalse (utf8Bytes (str ++ "6304".toList)))
      · have hcB : utf8Bytes k = utf8Bytes "63".toList ∧ utf8Bytes (mapGet m k) ≠
            utf8Bytes (sprintfX (ChecksumCCITTFalse (utf8Bytes (str ++ "6304".toList)))) :=
          ⟨by rw [hc.1], fun e => hc.2 (utf8Bytes_injective e)⟩
        rw [if_pos hcB, if_pos hc]
        simp only [Option.map_some', lit_append, lit_mk]
        simp only [lit_eq, utf8Bytes_append, List.append_assoc]
        rfl
      · have hcB : ¬ (utf8Bytes k = utf8Bytes "63".toList ∧ utf8Bytes (mapGet m k) ≠
            utf8Bytes (sprintfX (ChecksumCCITTFalse (utf8Bytes (str ++ "6304".toList))))) := by
          rintro ⟨h1, h2⟩
          exact hc ⟨utf8Bytes_injective h1, fun e => h2 (by rw [e])⟩
        rw [if_neg hcB, if_neg hc]
        exact ih _
    · have hvB : ¬ utf8Bytes (mapGet m k) ≠ [] := fun h => hv (utf8Bytes_ne_nil.mp h)
      rw [if_neg hvB, if_neg hv]
      exact ih _

theorem ConvertMapToStringB_toBytes (m : TagMap) :
    ConvertMapToStringB (TagMap.toBytes m) =
      (utf8Bytes (ConvertMapToString m).1, (ConvertMapToString m).2.map lit) := by
  unfold ConvertMapToStringB ConvertMapToString
  have h := serializeLoopB_toBytes m (sortStrings (mapKeys m)) []
  simp only [mapKeysB_toBytes, sortStringsB_map]
  have e0 : utf8Bytes [] = ([] : Bytes) := rfl
  rw [e0] at h
  rw [h]
  cases hs : serializeLoop m (sortStrings (mapKeys m)) [] with
  | mk out err =>
    cases err with
    | some e => rfl
    | none =>
      dsimp only [Option.map]
      simp only [lit_eq, mapGetB_toBytes, utf8Bytes_eq_nil, ← utf8Bytes_append]
      split <;> rfl

theorem ConvertStringToMap_negative_length (slack : Nat → Nat) (st : Scratch) :
    ConvertStringToMap slack st "00-1".toList = Run.panic := by
  have h : "00-1".toList = ['0', '0', '-', '1'] := by decide
  have hl : parseInt10 (['-', '1']) = -1 := by decide
  rw [h]
  unfold ConvertStringToMap
  simp only [List.length_cons, List.length_nil, Nat.zero_add, Nat.reduceAdd]
  rw [tokenLoop]
  simp [sliceRunes, hl]
  split <;> rfl

theorem ConvertQRToMapB_ok (m : QR) (MB : TagMapB)
    (h : ConvertQRToMapB m.toBytes = (some MB, none)) :
    ∃ M, ConvertQRToMap m = (some M, none) ∧ MB = TagMap.toBytes M := by
  rw [ConvertQRToMapB_toBytes] at h
  cases hc : ConvertQRToMap m with
  | mk r e =>
    rw [hc] at h
    simp only [Prod.mk.injEq] at h
    obtain ⟨h1, h2⟩ := h
    cases r with
    | none => simp at h1
    | some M =>
      cases e with
      | some e => simp at h2
      | none =>
        simp only [Option.map_some', Option.some.injEq] at h1
        exact ⟨M, rfl, h1.symm⟩

theorem ConvertMapToStringB_ok (M : TagMap) (p : Str) (h : ConvertMapToString M = (p, none)) :
    ConvertMapToStringB (TagMap.toBytes M) = (utf8Bytes p, none) := by
  rw [ConvertMapToStringB_toBytes, h]
  rfl

theorem ConvertStringToMapB_utf8Bytes (slack : Nat → Nat) (st : Scratch) (s : Str) :
    ConvertStringToMapB slack st (utf8Bytes s) = ConvertStringToMap slack st s := by
  unfold ConvertStringToMapB
  rw [runes_utf8Bytes]

theorem DecodeQRVisaB_utf8Bytes (slack : Nat → Nat) (st : Scratch) (s : Str) :
    DecodeQRVisaB slack st (utf8Bytes s) = DecodeQRVisa slack st s := by
  unfold DecodeQRVisaB
  rw [runes_utf8Bytes]

theorem mem_mapKeysB_toBytes (M : TagMap) (k : Str) :
    utf8Bytes k ∈ mapKeysB (TagMap.toBytes M) ↔ k ∈ mapKeys M := by
  rw [mapKeysB_toBytes, List.mem_map]
  constructor
  · rintro ⟨a, ha, e⟩
    rw [← utf8Bytes_injective e]
    exact ha
  · intro h
    exact ⟨k, h, rfl⟩

/-! ## Lemmas for canonical payloads -/

theorem strLE_antisymm (a b : Str) (h1 : strLE a b = true) (h2 : strLE b a = true) : a = b := by
  induction a generalizing b with
  | nil =>
    cases b with
    | nil => rfl
    | cons y ys => simp [strLE] at h2
  | cons x xs ih =>
    cases b with
    | nil => simp [strLE] at h1
    | cons y ys =>
      unfold strLE at h1 h2
      by_cases c1 : x.toNat < y.toNat
      · have c2 : ¬ y.toNat < x.toNat := by omega
        simp [c1, c2] at h2
      · by_cases c2 : y.toNat < x.toNat
        · simp [c1, c2] at h1
        · simp only [c1, c2, if_false] at h1 h2
          have hn : x.toNat = y.toNat := by omega
          have hxy : x = y := by
            have := congrArg Char.ofNat hn
            rwa [Char.ofNat_toNat, Char.ofNat_toNat] at this
          rw [hxy, ih ys h1 h2]

theorem ascending_sorted {keys : List Str} (h : Ascending keys) :
    keys.Sorted (fun a b => strLE a b = true) :=
  List.Pairwise.imp (fun h => h.1) h

theorem ascending_nodup {keys : List Str} (h : Ascending keys) : keys.Nodup :=
  List.Pairwise.imp (fun h => h.2) h

theorem sorted_unique (l1 l2 : List Str) (s1 : l1.Sorted (fun a b => strLE a b = true))
    (s2 : l2.Sorted (fun a b => strLE a b = true)) (n1 : l1.Nodup) (n2 : l2.Nodup)
    (h : ∀ k, k ∈ l1 ↔ k ∈ l2) : l1 = l2 := by
  haveI : IsAntisymm Str (fun a b => strLE a b = true) := ⟨strLE_antisymm⟩
  exact List.eq_of_perm_of_sorted ((List.perm_ext_iff_of_nodup n1 n2).mpr h) s1 s2

theorem mapGet_map_keys (ids : List Str) (g : Str → Str) (k : Str) :
    mapGet (ids.map (fun i => (i, g i))) k = if k ∈ ids then g k else [] := by
  induction ids with
  | nil => rfl
  | cons a ids ih =>
    simp only [List.map_cons, mapGet, List.mem_cons]
    by_cases h : a = k
    · subst h; simp
    · have : ¬ k = a := fun e => h e.symm
      simp [h, this, ih]

theorem map_keys_of_nodup (m : TagMap) (h : (mapKeys m).Nodup) :
    m = (mapKeys m).map (fun k => (k, mapGet m k)) := by
  induction m with
  | nil => rfl
  | cons p rest ih =>
    obtain ⟨a, b⟩ := p
    simp only [mapKeys, List.map_cons, List.nodup_cons] at h
    have e : mapKeys ((a, b) :: rest) = a :: mapKeys rest := rfl
    rw [e, List.map_cons]
    have e1 : (a, mapGet ((a, b) :: rest) a) = (a, b) := by simp [mapGet]
    have e2 : (mapKeys rest).map (fun k => (k, mapGet ((a, b) :: rest) k)) =
        (mapKeys rest).map (fun k => (k, mapGet rest k)) := by
      apply List.map_congr_left
      intro k hk
      have hne : ¬ a = k := by
        intro e
        apply h.1
        rw [e]
        exact hk
      simp only [mapGet, hne, if_false]
    rw [e1, e2, ← ih h.2]

/-- A canonical list of records is the list of the records, over the allowed
keys in their order, of the keys that have a value. -/
theorem canonical_recordsOf (allowed : List Str) (recs : List (Str × Str))
    (ha : Ascending allowed) (h : CanonicalRecords allowed recs) :
    recs.map (fun p => record p.1 p.2) = recordsOf recs allowed := by
  obtain ⟨hs, hp⟩ := h
  have hnd : (mapKeys recs).Nodup := ascending_nodup hs
  have hkeys : mapKeys recs = allowed.filter (fun k => mapGet recs k ≠ []) := by
    apply sorted_unique _ _ (ascending_sorted hs) ((ascending_sorted ha).filter _) hnd
      ((ascending_nodup ha).filter _)
    intro k
    simp only [List.mem_filter, decide_eq_true_eq]
    constructor
    · intro hk
      obtain ⟨p, hpm, rfl⟩ := List.mem_map.mp hk
      have e := mapGet_of_mem recs hnd p.1 p.2 hpm
      exact ⟨(hp p hpm).1, by rw [e]; exact (hp p hpm).2.1⟩
    · rintro ⟨_, hne⟩
      exact List.mem_map_of_mem Prod.fst (mem_of_mapGet_ne_nil recs k hne)
  unfold recordsOf
  rw [← hkeys]
  conv_lhs => rw [map_keys_of_nodup recs hnd]
  simp [List.map_map, Function.comp]


theorem checkTagLengths_of_all (l : TagMap) (h : ∀ p ∈ l, p.2.length ≤ 99) :
    checkTagLengths l = none := by
  by_contra hne
  cases hc : checkTagLengths l with
  | none => exact hne hc
  | some e =>
    clear hne
    induction l with
    | nil => simp [checkTagLengths] at hc
    | cons p rest ih =>
      obtain ⟨a, b⟩ := p
      unfold checkTagLengths at hc
      have hb : ¬ b.length > 99 := by
        have := h (a, b) (List.mem_cons_self _ _)
        simp only at this
        omega
      rw [if_neg hb] at hc
      exact ih (fun p hp => h p (List.mem_cons_of_mem _ hp)) hc

theorem encodeLengthCheck_of_decode (m : QR)
    (hd : m.DataObjectForMerchantAccountInformationByMasterCard = [])
    (h : decodeLengthCheck m = none) : encodeLengthCheck m = none := by
  obtain ⟨h1, h2, h3, h4, h5, h6, _⟩ := decodeLengthCheck_none h
  unfold encodeLengthCheck
  rw [if_neg (by rcases h1 with e | e <;> simp [e]),
    if_neg (by rcases h2 with e | e <;> simp [e]),
    if_neg (by rcases h3 with e | e <;> simp [e]),
    if_neg (by rcases h4 with e | e <;> simp [e]),
    if_neg (by rcases h5 with e | e <;> simp [e]),
    if_neg (by rcases h6 with e | e <;> simp [e]),
    if_neg (by simp [hd])]

theorem keysIn_nil (allowed : List Str) : KeysIn allowed [] := by
  intro k hk; cases hk

theorem keysIn_mapSet (allowed : List Str) (m : TagMap) (k v : Str) (hm : KeysIn allowed m)
    (hk : k ∈ allowed) : KeysIn allowed (mapSet m k v) := by
  intro x hx
  rcases mapKeys_mapSet m k v x hx with h | h
  · subst h; exact hk
  · exact hm x h

theorem keysIn_ite (allowed : List Str) (c : Prop) [Decidable c] (a b : TagMap)
    (ha : KeysIn allowed a) (hb : KeysIn allowed b) : KeysIn allowed (if c then a else b) := by
  split <;> assumption

theorem keysIn_fillMap (qr : QR) : KeysIn (encoderTags ++ ["63".toList]) (fillMap qr) := by
  unfold fillMap
  simp only []
  repeat' (first
    | with_reducible exact keysIn_nil _
    | with_reducible apply keysIn_ite
    | with_reducible refine keysIn_mapSet _ _ _ _ ?_ ?_)
  all_goals decide

theorem decodeGroup_lookup {slack : Nat → Nat} {st st1 : Scratch} {M pp : TagMap} {tag : Str}
    {aid : Option (Str × GoError)}
    (h : decodeGroup slack st M tag aid = Run.ret (pp, none) st1)
    (F : TagMap) (keys : List Str) (hF : ∀ k, (mapGet F k).length ≤ 99)
    (hkeys : ∀ k ∈ keys, k.length = 2) (hval : mapGet M tag = rawText (recordsOf F keys)) :
    ∀ k, mapGet pp k = if k ∈ keys then mapGet F k else [] := by
  intro k
  unfold decodeGroup at h
  by_cases hv : mapGet M tag ≠ []
  · rw [if_pos hv, hval, ConvertStringToMap_records slack st _ (recordsOf_wf F hF keys hkeys)] at h
    have hpp : pp = (tokenSteps (recordsOf F keys) [] { st with stringWithNoCRC := [] }).1 := by
      cases aid with
      | none =>
        simp only [Run.ret.injEq, Prod.mk.injEq, and_true] at h
        exact h.1.symm
      | some ae =>
        obtain ⟨a, e⟩ := ae
        simp only [] at h
        split at h
        · simp at h
        · simp only [Run.ret.injEq, Prod.mk.injEq, and_true] at h
          exact h.1.symm
    rw [hpp, mapGet_tokenSteps_recordsOf]
    by_cases hk : k ∈ keys
    · by_cases hne : mapGet F k ≠ []
      · rw [if_pos ⟨hk, hne⟩, if_pos hk]
      · rw [if_neg (fun c => hne c.2), if_pos hk]
        simp only [ne_eq, not_not] at hne
        rw [hne]; rfl
    · rw [if_neg (fun c => hk c.1), if_neg hk]; rfl
  · rw [if_neg hv] at h
    simp only [Run.ret.injEq, Prod.mk.injEq, and_true] at h
    rw [← h.1]
    simp only [ne_eq, not_not] at hv
    rw [hval] at hv
    by_cases hk : k ∈ keys
    · rw [if_pos hk, recordsOf_empty F keys hv k hk]; rfl
    · rw [if_neg hk]; rfl

theorem groupIds_29 : groupIds "29".toList =
    ["00".toList, "01".toList, "02".toList, "03".toList, "04".toList, "05".toList] := by decide
theorem groupIds_30 : groupIds "30".toList =
    ["00".toList, "01".toList, "02".toList, "03".toList] := by decide
theorem groupIds_31 : groupIds "31".toList =
    ["00".toList, "01".toList, "02".toList, "03".toList, "04".toList, "05".toList] := by decide
theorem groupIds_62 : groupIds "62".toList =
    ["01".toList, "02".toList, "03".toList, "04".toList, "05".toList, "06".toList, "07".toList,
     "08".toList, "09".toList] := by decide

theorem ascending_encoderTags : Ascending encoderTags := by
  unfold Ascending encoderTags; decide

theorem ascending_groupIds (tag : Str) : Ascending (groupIds tag) := by
  unfold groupIds Ascending
  split
  · decide
  · split
    · decide
    · split
      · decide
      · split
        · decide
        · exact List.Pairwise.nil

theorem groupIds_two (tag : Str) : ∀ k ∈ groupIds tag, k.length = 2 := by
  unfold groupIds
  split
  · decide
  · split
    · decide
    · split
      · decide
      · split
        · decide
        · intro k hk; cases hk

theorem canonical_values (allowed : List Str) (recs : List (Str × Str))
    (h : CanonicalRecords allowed recs) : ∀ k, (mapGet recs k).length ≤ 99 :=
  mapGet_length recs (fun p hp => (h.2 p hp).2.2)

/-- The buffer of a group that was read from a canonical value is that value. -/
theorem blob_of_lookup (ids : List Str) (hids : Ascending ids)
    (X : TagMap) (sub : List (Str × Str)) (hsub : CanonicalRecords ids sub)
    (hX : ∀ k, mapGet X k = if k ∈ ids then mapGet sub k else []) :
    blobOf (ids.map (fun k => (k, mapGet X k))) = sub.flatMap recordText := by
  have hkeys : mapKeys (ids.map (fun k => (k, mapGet X k))) = ids := by
    simp only [mapKeys, List.map_map]
    exact List.map_id' _
  have hnd : (mapKeys (ids.map (fun k => (k, mapGet X k)))).Nodup := by
    rw [hkeys]; exact ascending_nodup hids
  have hsub99 := canonical_values ids sub hsub
  have h99 : ∀ p ∈ ids.map (fun k => (k, mapGet X k)), p.2.length ≤ 99 := by
    intro p hp
    obtain ⟨k, hk, rfl⟩ := List.mem_map.mp hp
    simp only []
    rw [hX, if_pos hk]
    exact hsub99 k
  rw [blobOf_records _ hnd h99, hkeys, ← rawText_map_record, canonical_recordsOf ids sub hids hsub]
  congr 1
  apply recordsOf_congr
  intro k hk
  rw [mapGet_map_keys, if_pos hk, hX, if_pos hk]


/-- The map that the encoder fills for a model that was decoded from a
canonical payload has the values of the payload. -/
theorem fillMap_assemble_lookup (Mtok pp bp api ad : TagMap) (top : List (Str × Str))
    (hlook : ∀ k, k ≠ "63".toList → mapGet Mtok k = mapGet top k)
    (hdom : ∀ k, k ∉ encoderTags → mapGet top k = [])
    (sub29 sub30 sub31 sub62 : List (Str × Str))
    (c29 : CanonicalRecords (groupIds "29".toList) sub29)
    (c30 : CanonicalRecords (groupIds "30".toList) sub30)
    (c31 : CanonicalRecords (groupIds "31".toList) sub31)
    (c62 : CanonicalRecords (groupIds "62".toList) sub62)
    (v29 : mapGet top "29".toList = sub29.flatMap recordText)
    (v30 : mapGet top "30".toList = sub30.flatMap recordText)
    (v31 : mapGet top "31".toList = sub31.flatMap recordText)
    (v62 : mapGet top "62".toList = sub62.flatMap recordText)
    (hapi : sub31 ≠ [] →
      ∃ q ∈ sub31, q.1 ∈ ["00".toList, "01".toList, "02".toList])
    (l29 : ∀ k, mapGet pp k = if k ∈ groupIds "29".toList then mapGet sub29 k else [])
    (l30 : ∀ k, mapGet bp k = if k ∈ groupIds "30".toList then mapGet sub30 k else [])
    (l31 : ∀ k, mapGet api k = if k ∈ groupIds "31".toList then mapGet sub31 k else [])
    (l62 : ∀ k, mapGet ad k = if k ∈ groupIds "62".toList then mapGet sub62 k else []) :
    ∀ k, mapGet (fillMap (assembleQR Mtok pp bp api ad)) k = mapGet top k := by
  have hg29 : mapGet (fillMap (assembleQR Mtok pp bp api ad)) "29".toList =
      mapGet top "29".toList := by
    rw [mapGet_fillMap_29_blob, v29, ← blob_of_lookup _ (ascending_groupIds _) pp sub29 c29 l29,
      groupIds_29]
    rfl
  have hg30 : mapGet (fillMap (assembleQR Mtok pp bp api ad)) "30".toList =
      mapGet top "30".toList := by
    rw [mapGet_fillMap_30_blob, v30, ← blob_of_lookup _ (ascending_groupIds _) bp sub30 c30 l30,
      groupIds_30]
    rfl
  have hg62 : mapGet (fillMap (assembleQR Mtok pp bp api ad)) "62".toList =
      mapGet top "62".toList := by
    rw [mapGet_fillMap_62_blob, v62, ← blob_of_lookup _ (ascending_groupIds _) ad sub62 c62 l62,
      groupIds_62]
    rfl
  have hguard : ((assembleQR Mtok pp bp api ad).Merchant.ID.API.TransactionRef = [] ∧
      (assembleQR Mtok pp bp api ad).Merchant.ID.API.ReferenceNo = [] ∧
      (assembleQR Mtok pp bp api ad).Merchant.ID.API.TerminalID = []) ∨
      (assembleQR Mtok pp bp api ad).Merchant.ID.API.AID ≠ [] ∨
      (assembleQR Mtok pp bp api ad).Merchant.ID.API.AcquirerID ≠ [] ∨
      (assembleQR Mtok pp bp api ad).Merchant.ID.API.MerchantID ≠ [] := by
    show (mapGet api "03".toList = [] ∧ mapGet api "04".toList = [] ∧
      mapGet api "05".toList = []) ∨ mapGet api "00".toList ≠ [] ∨
      mapGet api "01".toList ≠ [] ∨ mapGet api "02".toList ≠ []
    by_cases hs : sub31 = []
    · left
      subst hs
      simp only [l31, mapGet, ite_self, and_self]
    · right
      obtain ⟨q, hq, hq1⟩ := hapi hs
      have hnd : (mapKeys sub31).Nodup := ascending_nodup c31.1
      have hval := mapGet_of_mem sub31 hnd q.1 q.2 hq
      have hne : mapGet sub31 q.1 ≠ [] := by rw [hval]; exact (c31.2 q hq).2.1
      simp only [List.mem_cons, List.mem_singleton, List.not_mem_nil, or_false] at hq1
      rcases hq1 with e | e | e
      · left
        rw [l31, if_pos (by rw [groupIds_31]; decide), ← e]; exact hne
      · right; left
        rw [l31, if_pos (by rw [groupIds_31]; decide), ← e]; exact hne
      · right; right
        rw [l31, if_pos (by rw [groupIds_31]; decide), ← e]; exact hne
  have hg31 : mapGet (fillMap (assembleQR Mtok pp bp api ad)) "31".toList =
      mapGet top "31".toList := by
    rw [mapGet_fillMap_31_blob _ hguard, v31,
      ← blob_of_lookup _ (ascending_groupIds _) api sub31 c31 l31, groupIds_31]
    rfl
  intro k
  by_cases hk : k ∈ encoderTags ++ ["63".toList]
  swap
  · have h1 : k ∉ mapKeys (fillMap (assembleQR Mtok pp bp api ad)) :=
      fun h => hk (keysIn_fillMap _ k h)
    have h2 : k ∉ encoderTags := fun h => hk (List.mem_append_left _ h)
    rw [mapGet_of_not_mem _ _ h1, hdom k h2]
  simp only [encoderTags, List.cons_append, List.nil_append, List.mem_cons, List.mem_singleton,
    List.not_mem_nil, or_false] at hk
  rcases hk with rfl | rfl | rfl | rfl | rfl | rfl | rfl | rfl | rfl | rfl | rfl | rfl | rfl |
    rfl | rfl | rfl | rfl | rfl | rfl | rfl | rfl
  · rw [mapGet_fillMap_00]
    exact hlook _ (by decide)
  · rw [mapGet_fillMap_01]
    exact hlook _ (by decide)
  · rw [mapGet_fillMap_02]
    exact hlook _ (by decide)
  · rw [mapGet_fillMap_04]
    exact hlook _ (by decide)
  · rw [mapGet_fillMap_14]
    exact hlook _ (by decide)
  · rw [mapGet_fillMap_15]
    exact hlook _ (by decide)
  · rw [mapGet_fillMap_17]
    exact hlook _ (by decide)
  · rw [mapGet_fillMap_26]
    exact hlook _ (by decide)
  · rw [mapGet_fillMap_27]
    exact hlook _ (by decide)
  · rw [mapGet_fillMap_28]
    exact hlook _ (by decide)
  · exact hg29
  · exact hg30
  · exact hg31
  · rw [mapGet_fillMap_52]
    exact hlook _ (by decide)
  · rw [mapGet_fillMap_53]
    exact hlook _ (by decide)
  · rw [mapGet_fillMap_54]
    exact hlook _ (by decide)
  · rw [mapGet_fillMap_58]
    exact hlook _ (by decide)
  · rw [mapGet_fillMap_59]
    exact hlook _ (by decide)
  · rw [mapGet_fillMap_60]
    exact hlook _ (by decide)
  · exact hg62
  · rw [mapGet_fillMap_63]
    show mapGet Mtok "51".toList = _
    rw [hlook _ (by decide), hdom _ (by decide), hdom _ (by decide)]


/-- The records that the serializer writes for a map depend only on the keys
with a value and on their values. -/
theorem recordsOf_sorted_keys (A : TagMap) (hA : (mapKeys A).Nodup) (top : List (Str × Str))
    (htop : Ascending (mapKeys top)) (hne : ∀ p ∈ top, p.2 ≠ [])
    (h : ∀ k, mapGet A k = mapGet top k) :
    recordsOf A (sortStrings (mapKeys A)) = top.map (fun p => record p.1 p.2) := by
  have hnd : (mapKeys top).Nodup := ascending_nodup htop
  have hkeys : (sortStrings (mapKeys A)).filter (fun k => mapGet A k ≠ []) = mapKeys top := by
    apply sorted_unique _ _ ((sortStrings_sorted _).filter _) (ascending_sorted htop)
      (((sortStrings_perm _).nodup_iff.mpr hA).filter _) hnd
    intro k
    simp only [List.mem_filter, decide_eq_true_eq, mem_sortStrings]
    constructor
    · rintro ⟨_, hk⟩
      rw [h] at hk
      exact List.mem_map_of_mem Prod.fst (mem_of_mapGet_ne_nil top k hk)
    · intro hk
      obtain ⟨p, hp, rfl⟩ := List.mem_map.mp hk
      have e := mapGet_of_mem top hnd p.1 p.2 hp
      have hv : mapGet A p.1 ≠ [] := by rw [h, e]; exact hne p hp
      exact ⟨List.mem_map.mpr ⟨_, mem_of_mapGet_ne_nil A p.1 hv, rfl⟩, hv⟩
  unfold recordsOf
  rw [hkeys]
  conv_rhs => rw [map_keys_of_nodup top hnd]
  rw [List.map_map]
  apply List.map_congr_left
  intro k _
  simp only [Function.comp, h]

/-- A canonical payload on which `DecodeQRVisa` succeeds is what the encoder
writes for the decoded model. -/
theorem canonical_payload_core (top : List (Str × Str))
    (htop : CanonicalRecords encoderTags top)
    (sub29 sub30 sub31 sub62 : List (Str × Str))
    (c29 : CanonicalRecords (groupIds "29".toList) sub29)
    (c30 : CanonicalRecords (groupIds "30".toList) sub30)
    (c31 : CanonicalRecords (groupIds "31".toList) sub31)
    (c62 : CanonicalRecords (groupIds "62".toList) sub62)
    (v29 : mapGet top "29".toList = sub29.flatMap recordText)
    (v30 : mapGet top "30".toList = sub30.flatMap recordText)
    (v31 : mapGet top "31".toList = sub31.flatMap recordText)
    (v62 : mapGet top "62".toList = sub62.flatMap recordText)
    (hapi : sub31 ≠ [] →
      ∃ q ∈ sub31, q.1 ∈ ["00".toList, "01".toList, "02".toList])
    (slack : Nat → Nat) (st st' : Scratch) (m : QR)
    (hdec : DecodeQRVisa slack st (payloadOf (top.flatMap recordText)) =
      Run.ret (some m, none) st') :
    ConvertQRToMap m = (some (fillMap m), none) ∧
    ConvertMapToString (fillMap m) = (payloadOf (top.flatMap recordText), none) := by
  have hnd : (mapKeys top).Nodup := ascending_nodup htop.1
  have h99 : ∀ k, (mapGet top k).length ≤ 99 := canonical_values _ _ htop
  have hdom : ∀ k, k ∉ encoderTags → mapGet top k = [] := by
    intro k hk
    by_contra hne
    exact hk (htop.2 _ (mem_of_mapGet_ne_nil top k hne)).1
  have hrecs := canonical_recordsOf encoderTags top ascending_encoderTags htop
  have htwo : ∀ k ∈ encoderTags, k.length = 2 := by unfold encoderTags; decide
  have hwf := recordsOf_wf top h99 encoderTags htwo
  have htext : top.flatMap recordText = rawText (recordsOf top encoderTags) := by
    rw [← hrecs, rawText_map_record]
  -- the tokenizer
  have htok := tokenize_with_checksum slack st (recordsOf top encoderTags) hwf
    (checksumOf (top.flatMap recordText)) (checksumOf_length _)
  rw [← htext] at htok
  have hpay : payloadOf (top.flatMap recordText) =
      top.flatMap recordText ++ "6304".toList ++ checksumOf (top.flatMap recordText) := rfl
  rw [← hpay] at htok
  obtain ⟨m0, st1, htok', hq⟩ := DecodeQRVisa_ok hdec
  rw [htok] at htok'
  simp only [Run.ret.injEq, Prod.mk.injEq, and_true] at htok'
  obtain ⟨hm0, hst1⟩ := htok'
  have hlook : ∀ k, k ≠ "63".toList → mapGet m0 k = mapGet top k := by
    intro k hk
    rw [← hm0, mapGet_mapSet, if_neg (fun e => hk e.symm), mapGet_tokenSteps_recordsOf]
    by_cases hc : k ∈ encoderTags ∧ mapGet top k ≠ []
    · rw [if_pos hc]
    · rw [if_neg hc]
      by_cases hin : k ∈ encoderTags
      · have : mapGet top k = [] := by
          by_contra hne
          exact hc ⟨hin, hne⟩
        rw [this]; rfl
      · rw [hdom k hin]; rfl
  -- the decoder
  obtain ⟨_, pp, s1, bp, s2, api, s3, ad, hpp, hbp, hapi', had, hfin⟩ := ConvertMapToQR_ok hq
  obtain ⟨_, _, hm, hlen⟩ := finishMapToQR_ok hfin
  have hm' : m = assembleQR m0 pp bp api ad := Option.some.inj hm
  have grp : ∀ (tag : Str) (sub : List (Str × Str)), tag ≠ "63".toList →
      CanonicalRecords (groupIds tag) sub → mapGet top tag = sub.flatMap recordText →
      mapGet m0 tag = rawText (recordsOf sub (groupIds tag)) := by
    intro tag sub ht hc hv
    rw [hlook tag ht, hv, ← rawText_map_record,
      canonical_recordsOf (groupIds tag) sub (ascending_groupIds tag) hc]
  have l29 := decodeGroup_lookup hpp sub29 _ (canonical_values _ _ c29) (groupIds_two _)
    (grp _ _ (by decide) c29 v29)
  have l30 := decodeGroup_lookup hbp sub30 _ (canonical_values _ _ c30) (groupIds_two _)
    (grp _ _ (by decide) c30 v30)
  have l31 := decodeGroup_lookup hapi' sub31 _ (canonical_values _ _ c31) (groupIds_two _)
    (grp _ _ (by decide) c31 v31)
  have l62 := decodeGroup_lookup had sub62 _ (canonical_values _ _ c62) (groupIds_two _)
    (grp _ _ (by decide) c62 v62)
  have hfill := fillMap_assemble_lookup m0 pp bp api ad top hlook hdom sub29 sub30 sub31 sub62
    c29 c30 c31 c62 v29 v30 v31 v62 hapi l29 l30 l31 l62
  rw [← hm'] at hfill hlen
  -- the encoder
  have h51 : m.DataObjectForMerchantAccountInformationByMasterCard = [] := by
    rw [hm']
    show mapGet m0 "51".toList = []
    rw [hlook _ (by decide), hdom _ (by decide)]
  have henc := encodeLengthCheck_of_decode m h51 hlen
  have hall : ∀ p ∈ fillMap m, p.2.length ≤ 99 := by
    intro p hp
    have e := mapGet_of_mem (fillMap m) (nodup_fillMap m) p.1 p.2 hp
    rw [← e, hfill]
    exact h99 _
  have htags := checkTagLengths_of_all _ hall
  have hacc : ConvertQRToMap m = (some (fillMap m), none) := by
    unfold ConvertQRToMap
    rw [henc]
    simp only [htags]
  refine ⟨hacc, ?_⟩
  have h63 : mapGet (fillMap m) "63".toList = [] := by
    rw [hfill, hdom _ (by decide)]
  rw [ConvertMapToString_generated (fillMap m) (mapGet_length _ hall) h63]
  have hbody : bodyOf (fillMap m) = top.flatMap recordText := by
    unfold bodyOf
    rw [recordsOf_sorted_keys (fillMap m) (nodup_fillMap m) top htop.1
      (fun p hp => (htop.2 p hp).2.1) hfill, rawText_map_record]
  rw [hbody]

theorem ConvertQRToMapB_of (m : QR) (M : TagMap) (h : ConvertQRToMap m = (some M, none)) :
    ConvertQRToMapB m.toBytes = (some (TagMap.toBytes M), none) := by
  rw [ConvertQRToMapB_toBytes, h]
  rfl

/-! ## Lemmas for the groups of a model on strings of any bytes -/

theorem decodeRune_width_pos (s : Bytes) : 1 ≤ (decodeRune s).2 := by
  unfold decodeRune
  split
  · simp
  · repeat' split
    all_goals simp

theorem runesLoop_fuel (s : Bytes) : ∀ f, s.length ≤ f → runesLoop f s = runes s := by
  generalize hn : s.length = n
  induction n using Nat.strong_induction_on generalizing s with
  | _ n ih =>
    intro f hf
    cases s with
    | nil => cases f <;> rfl
    | cons b t =>
      subst hn
      obtain ⟨f, rfl⟩ : ∃ g, f = g + 1 := ⟨f - 1, by simp at hf; omega⟩
      unfold runes
      simp only [List.length_cons]
      rw [runesLoop, runesLoop]
      have hw := decodeRune_width_pos (b :: t)
      have hl : ((b :: t).drop (decodeRune (b :: t)).2).length < (b :: t).length := by
        simp only [List.length_drop, List.length_cons]
        omega
      congr 1
      rw [ih _ hl _ rfl f (by simp only [List.length_cons] at hf hl ⊢; omega),
        ih _ hl _ rfl t.length (by simp only [List.length_cons] at hl ⊢; omega)]

theorem runes_cons (b : Nat) (t : Bytes) :
    runes (b :: t) = (decodeRune (b :: t)).1 :: runes ((b :: t).drop (decodeRune (b :: t)).2) := by
  have h : runes (b :: t) = runesLoop (t.length + 1) (b :: t) := rfl
  rw [h, runesLoop]
  congr 1
  apply runesLoop_fuel
  have hw := decodeRune_width_pos (b :: t)
  simp only [List.length_drop, List.length_cons]
  omega

theorem runes_nil : runes [] = [] := rfl

theorem runes_ascii_append (a v : Bytes) (ha : IsAscii a) :
    runes (a ++ v) = runes a ++ runes v := by
  induction a with
  | nil => rfl
  | cons b a ih =>
    have hb : b < 0x80 := ha b (List.mem_cons_self _ _)
    have e1 : decodeRune (b :: (a ++ v)) = (Char.ofNat b, 1) := by
      unfold decodeRune; simp [hb]
    have e2 : decodeRune (b :: a) = (Char.ofNat b, 1) := by
      unfold decodeRune; simp [hb]
    rw [List.cons_append, runes_cons, runes_cons b a, e1, e2]
    simp only [List.drop_succ_cons, List.drop_zero, List.cons_append]
    rw [ih (fun x hx => ha x (List.mem_cons_of_mem _ hx))]

theorem decodeRune_append (b0 : Nat) (t b : Bytes) (hb : AsciiHead b) :
    decodeRune (b0 :: t ++ b) = decodeRune (b0 :: t) := by
  rcases b with _ | ⟨x, b⟩
  · simp
  have hx : x < 0x80 := hb x (by simp)
  have n1 : ¬ (0x80 ≤ x) := by omega
  rcases t with _ | ⟨b1, _ | ⟨b2, _ | ⟨b3, t⟩⟩⟩
  · rcases b with _ | ⟨y, _ | ⟨z, b⟩⟩ <;>
      simp only [decodeRune, List.cons_append, List.nil_append] <;>
      repeat' split
    all_goals first | rfl | omega
  · rcases b with _ | ⟨y, b⟩ <;>
      simp only [decodeRune, List.cons_append, List.nil_append] <;>
      repeat' split
    all_goals first | rfl | omega
  · simp only [decodeRune, List.cons_append, List.nil_append]
    repeat' split
    all_goals first | rfl | omega
  · simp only [decodeRune, List.cons_append, List.nil_append]

theorem decodeRune_width_le (b0 : Nat) (t : Bytes) :
    (decodeRune (b0 :: t)).2 ≤ (b0 :: t).length := by
  rcases t with _ | ⟨b1, _ | ⟨b2, _ | ⟨b3, t⟩⟩⟩ <;>
    simp only [decodeRune] <;> repeat' split
  all_goals simp

theorem runes_append (a b : Bytes) (hb : AsciiHead b) : runes (a ++ b) = runes a ++ runes b := by
  generalize hn : a.length = n
  induction n using Nat.strong_induction_on generalizing a with
  | _ n ih =>
    cases a with
    | nil => rfl
    | cons b0 t =>
      subst hn
      have hw := decodeRune_width_pos (b0 :: t)
      have hle := decodeRune_width_le b0 t
      have hl : ((b0 :: t).drop (decodeRune (b0 :: t)).2).length < (b0 :: t).length := by
        simp only [List.length_drop, List.length_cons]
        omega
      have hcons : b0 :: t ++ b = b0 :: (t ++ b) := rfl
      rw [hcons, runes_cons, ← hcons, decodeRune_append b0 t b hb, runes_cons b0 t,
        List.drop_append_of_le_length hle, ih _ hl _ rfl]
      rfl

theorem runeCount_append (a b : Bytes) (hb : AsciiHead b) :
    runeCount (a ++ b) = runeCount a + runeCount b := by
  unfold runeCount
  rw [runes_append a b hb, List.length_append]

theorem runeCount_ascii_append (a v : Bytes) (ha : IsAscii a) :
    runeCount (a ++ v) = runeCount a + runeCount v := by
  unfold runeCount
  rw [runes_ascii_append a v ha, List.length_append]

theorem digitChar_ascii (m : Nat) (h : m < 10) : (Nat.digitChar m).toNat < 0x80 := by
  interval_cases m <;> decide

theorem toDigitsCore_ascii (fuel : Nat) : ∀ (n : Nat) (ds : List Char),
    (∀ c ∈ ds, c.toNat < 0x80) → ∀ c ∈ Nat.toDigitsCore 10 fuel n ds, c.toNat < 0x80 := by
  induction fuel with
  | zero => intro n ds h; simpa [Nat.toDigitsCore] using h
  | succ fuel ih =>
    intro n ds h
    have hd : ∀ c ∈ Nat.digitChar (n % 10) :: ds, c.toNat < 0x80 := by
      intro c hc
      rcases List.mem_cons.mp hc with e | e
      · subst e; exact digitChar_ascii _ (Nat.mod_lt _ (by decide))
      · exact h c e
    unfold Nat.toDigitsCore
    simp only []
    split
    · exact hd
    · exact ih _ _ hd

theorem itoa_ascii (n : Nat) : ∀ c ∈ itoa n, c.toNat < 0x80 := by
  unfold itoa Nat.toDigits
  exact toDigitsCore_ascii _ _ _ (by simp)

theorem utf8Bytes_ascii (x : Str) (h : ∀ c ∈ x, c.toNat < 0x80) : IsAscii (utf8Bytes x) := by
  induction x with
  | nil => intro b hb; cases hb
  | cons c x ih =>
    have hc := h c (List.mem_cons_self _ _)
    have e : utf8Bytes (c :: x) = c.toNat :: utf8Bytes x := by
      simp [utf8Bytes, utf8EncodeChar_one c hc]
    rw [e]
    intro b hb
    rcases List.mem_cons.mp hb with e | e
    · subst e; exact hc
    · exact ih (fun d hd => h d (List.mem_cons_of_mem _ hd)) b e

theorem isAscii_append {a b : Bytes} (ha : IsAscii a) (hb : IsAscii b) : IsAscii (a ++ b) := by
  intro x hx
  rcases List.mem_append.mp hx with e | e
  · exact ha x e
  · exact hb x e

theorem runes_eq_nil {v : Bytes} : runes v = [] ↔ v = [] := by
  constructor
  · intro h
    cases v with
    | nil => rfl
    | cons b t => rw [runes_cons] at h; cases h
  · intro h; subst h; rfl

/-- The runes of the buffer of one subfield are the buffer of the runes. -/
theorem runes_subFieldB (k : Str) (hk : ∀ c ∈ k, c.toNat < 0x80) (v : Bytes) :
    runes (subFieldB (utf8Bytes k) v) = subField k (runes v) := by
  unfold subFieldB subField
  by_cases hv : v = []
  · subst hv; simp [runes_nil]
  · have hv' : runes v ≠ [] := fun h => hv (runes_eq_nil.mp h)
    rw [if_pos hv, if_pos hv']
    have e : utf8Bytes k ++ (if runeCount v < 10 then lit "0" else []) ++
        utf8Bytes (itoa (runeCount v)) =
        utf8Bytes (k ++ (if (runes v).length < 10 then ['0'] else []) ++ itoa (runes v).length) := by
      rw [utf8Bytes_append, utf8Bytes_append]
      unfold runeCount
      split <;> rfl
    rw [e, runes_ascii_append, runes_utf8Bytes]
    apply utf8Bytes_ascii
    intro c hc
    rcases List.mem_append.mp hc with h1 | h1
    · rcases List.mem_append.mp h1 with h2 | h2
      · exact hk c h2
      · split at h2
        · rw [List.mem_singleton] at h2; subst h2; decide
        · cases h2
    · exact itoa_ascii _ c h1

theorem asciiHead_nil : AsciiHead [] := by
  intro b hb; cases hb

theorem asciiHead_append {a b : Bytes} (ha : IsAscii a) (hb : AsciiHead b) : AsciiHead (a ++ b) := by
  cases a with
  | nil => exact hb
  | cons x a =>
    intro y hy
    simp only [List.cons_append, List.head?_cons, Option.mem_def, Option.some.injEq] at hy
    subst hy
    exact ha _ (List.mem_cons_self _ _)

theorem asciiHead_append_left {a b : Bytes} (ha : AsciiHead a) (hb : AsciiHead b) :
    AsciiHead (a ++ b) := by
  cases a with
  | nil => exact hb
  | cons x a =>
    intro y hy
    simp only [List.cons_append, List.head?_cons, Option.mem_def, Option.some.injEq] at hy
    subst hy
    exact ha _ (by simp)

theorem asciiHead_subFieldB (k : Str) (hk : ∀ c ∈ k, c.toNat < 0x80) (hne : k ≠ []) (v : Bytes) :
    AsciiHead (subFieldB (utf8Bytes k) v) := by
  unfold subFieldB
  split
  · rw [List.append_assoc, List.append_assoc]
    cases k with
    | nil => exact absurd rfl hne
    | cons c k =>
      have hc := hk c (List.mem_cons_self _ _)
      have e : utf8Bytes (c :: k) = c.toNat :: utf8Bytes k := by
        simp [utf8Bytes, utf8EncodeChar_one c hc]
      rw [e]
      intro y hy
      simp only [List.cons_append, List.head?_cons, Option.mem_def, Option.some.injEq] at hy
      subst hy
      exact hc
  · exact asciiHead_nil

theorem asciiHead_blobOfB (F : TagMapB) (hF : AsciiKeys F) : AsciiHead (blobOfB F) := by
  induction F with
  | nil => exact asciiHead_nil
  | cons p F ih =>
    obtain ⟨k, e, hne, hk⟩ := hF p (List.mem_cons_self _ _)
    have e2 : blobOfB (p :: F) = subFieldB p.1 p.2 ++ blobOfB F := by simp [blobOfB]
    rw [e2, e]
    exact asciiHead_append_left (asciiHead_subFieldB k hk hne _)
      (ih (fun q hq => hF q (List.mem_cons_of_mem _ hq)))

/-- The runes of the buffer of a group are the buffer of the runes of its
subfields. -/
theorem runes_blobOfB (F : TagMapB) (hF : AsciiKeys F) :
    runes (blobOfB F) = blobOf (TagMapB.runes F) := by
  induction F with
  | nil => rfl
  | cons p F ih =>
    obtain ⟨k, e, hne, hk⟩ := hF p (List.mem_cons_self _ _)
    have hF' : AsciiKeys F := fun q hq => hF q (List.mem_cons_of_mem _ hq)
    have e2 : blobOfB (p :: F) = subFieldB p.1 p.2 ++ blobOfB F := by simp [blobOfB]
    have e3 : blobOf (TagMapB.runes (p :: F)) =
        subField (runes p.1) (runes p.2) ++ blobOf (TagMapB.runes F) := by
      simp [blobOf, TagMapB.runes]
    rw [e2, e3, runes_append _ _ (asciiHead_blobOfB F hF'), ih hF', e, runes_subFieldB k hk,
      runes_utf8Bytes]

theorem mapGetB_mapSetB (m : TagMapB) (k v k' : Bytes) :
    mapGetB (mapSetB m k v) k' = if k = k' then v else mapGetB m k' := by
  induction m with
  | nil => simp [mapSetB, mapGetB]
  | cons p rest ih =>
    obtain ⟨a, b⟩ := p
    unfold mapSetB
    by_cases h : a = k
    · subst h
      by_cases h2 : a = k' <;> simp [mapGetB, h2]
    · by_cases h2 : a = k'
      · subst h2
        have : ¬ k = a := fun e => h e.symm
        simp [mapGetB, h, this]
      · simp [mapGetB, h, h2, ih]

theorem mapGetB_ite (c : Prop) [Decidable c] (a b : TagMapB) (k : Bytes) :
    mapGetB (if c then a else b) k = if c then mapGetB a k else mapGetB b k := by
  split <;> rfl

theorem mem_mapKeysB_mapSetB (m : TagMapB) (k v x : Bytes) :
    x ∈ mapKeysB (mapSetB m k v) ↔ x = k ∨ x ∈ mapKeysB m := by
  induction m with
  | nil => simp [mapSetB, mapKeysB]
  | cons p rest ih =>
    obtain ⟨a, b⟩ := p
    unfold mapSetB
    by_cases h : a = k
    · subst h
      simp [mapKeysB]
    · simp only [h, if_false]
      simp only [mapKeysB, List.map_cons, List.mem_cons] at ih ⊢
      rw [ih]
      tauto

theorem mapKeysB_ite (c : Prop) [Decidable c] (a b : TagMapB) (x : Bytes) :
    x ∈ mapKeysB (if c then a else b) ↔ if c then x ∈ mapKeysB a else x ∈ mapKeysB b := by
  split <;> rfl

theorem mapKeysB_nil : mapKeysB ([] : TagMapB) = [] := rfl

theorem mapGetB_fillMapB_29_if (q : QRB) :
    mapGetB (fillMapB q) (lit "29") =
      if q.Merchant.ID.PromptPay.AID ≠ [] ∨ q.Merchant.ID.PromptPay.MobileNumber ≠ [] ∨
        q.Merchant.ID.PromptPay.NationalID ≠ [] ∨ q.Merchant.ID.PromptPay.EWalletID ≠ [] ∨
        q.Merchant.ID.PromptPay.BankAccount ≠ [] ∨
        q.Merchant.ID.PromptPay.NationalEWalletID ≠ [] then
        promptPayBlobB q.Merchant.ID.PromptPay
      else [] := by
  unfold fillMapB
  simp [mapGetB_mapSetB, mapGetB_ite, mapGetB, lit_eq, utf8Bytes_inj]

theorem mapGetB_fillMapB_30_if (q : QRB) :
    mapGetB (fillMapB q) (lit "30") =
      if q.Merchant.ID.PromptPayBillPayment.AID ≠ [] ∨
        q.Merchant.ID.PromptPayBillPayment.BillerID ≠ [] ∨
        q.Merchant.ID.PromptPayBillPayment.Reference1 ≠ [] ∨
        q.Merchant.ID.PromptPayBillPayment.Reference2 ≠ [] then
        billPaymentBlobB q.Merchant.ID.PromptPayBillPayment
      else [] := by
  unfold fillMapB
  simp [mapGetB_mapSetB, mapGetB_ite, mapGetB, lit_eq, utf8Bytes_inj]

theorem mapGetB_fillMapB_31_if (q : QRB) :
    mapGetB (fillMapB q) (lit "31") =
      if q.Merchant.ID.API.AID ≠ [] ∨ q.Merchant.ID.API.AcquirerID ≠ [] ∨
        q.Merchant.ID.API.MerchantID ≠ [] then
        apiBlobB q.Merchant.ID.API
      else [] := by
  unfold fillMapB
  simp [mapGetB_mapSetB, mapGetB_ite, mapGetB, lit_eq, utf8Bytes_inj]

theorem mapGetB_fillMapB_62_if (q : QRB) :
    mapGetB (fillMapB q) (lit "62") =
      if q.AdditionalData.BillNumber ≠ [] ∨ q.AdditionalData.MobileNumber ≠ [] ∨
        q.AdditionalData.StoreID ≠ [] ∨ q.AdditionalData.LoyaltyNumber ≠ [] ∨
        q.AdditionalData.ReferenceID ≠ [] ∨ q.AdditionalData.ConsumerID ≠ [] ∨
        q.AdditionalData.TerminalID ≠ [] ∨ q.AdditionalData.PurposeOfTransaction ≠ [] ∨
        q.AdditionalData.AdditionalConsumerDataRequest ≠ [] then
        additionalBlobB q.AdditionalData
      else [] := by
  unfold fillMapB
  simp [mapGetB_mapSetB, mapGetB_ite, mapGetB, lit_eq, utf8Bytes_inj]

theorem mapGetB_fillMapB_29 (q : QRB) :
    mapGetB (fillMapB q) (lit "29") = blobOfB (promptPayFieldsB q.Merchant.ID.PromptPay) := by
  rw [mapGetB_fillMapB_29_if]
  split
  · simp [promptPayBlobB, blobOfB, promptPayFieldsB]
  · rename_i h
    simp only [not_or, not_not, ne_eq] at h
    obtain ⟨h1, h2, h3, h4, h5, h6⟩ := h
    simp [blobOfB, promptPayFieldsB, subFieldB, h1, h2, h3, h4, h5, h6]

theorem mapGetB_fillMapB_30 (q : QRB) :
    mapGetB (fillMapB q) (lit "30") =
      blobOfB (billPaymentFieldsB q.Merchant.ID.PromptPayBillPayment) := by
  rw [mapGetB_fillMapB_30_if]
  split
  · simp [billPaymentBlobB, blobOfB, billPaymentFieldsB]
  · rename_i h
    simp only [not_or, not_not, ne_eq] at h
    obtain ⟨h1, h2, h3, h4⟩ := h
    simp [blobOfB, billPaymentFieldsB, subFieldB, h1, h2, h3, h4]

theorem mapGetB_fillMapB_31 (q : QRB)
    (hapi : q.Merchant.ID.API.AID ≠ [] ∨ q.Merchant.ID.API.AcquirerID ≠ [] ∨
      q.Merchant.ID.API.MerchantID ≠ []) :
    mapGetB (fillMapB q) (lit "31") = blobOfB (apiFieldsB q.Merchant.ID.API) := by
  rw [mapGetB_fillMapB_31_if, if_pos hapi]
  simp [apiBlobB, blobOfB, apiFieldsB]

theorem mapGetB_fillMapB_62 (q : QRB) :
    mapGetB (fillMapB q) (lit "62") = blobOfB (additionalFieldsB q.AdditionalData) := by
  rw [mapGetB_fillMapB_62_if]
  split
  · simp [additionalBlobB, blobOfB, additionalFieldsB]
  · rename_i h
    simp only [not_or, not_not, ne_eq] at h
    obtain ⟨h1, h2, h3, h4, h5, h6, h7, h8, h9⟩ := h
    simp [blobOfB, additionalFieldsB, subFieldB, h1, h2, h3, h4, h5, h6, h7, h8, h9]

theorem api_guard_of_memB (q : QRB) (h : lit "31" ∈ mapKeysB (fillMapB q)) :
    q.Merchant.ID.API.AID ≠ [] ∨ q.Merchant.ID.API.AcquirerID ≠ [] ∨
      q.Merchant.ID.API.MerchantID ≠ [] := by
  by_contra hc
  simp only [not_or, not_not] at hc
  obtain ⟨h1, h2, h3⟩ := hc
  revert h
  unfold fillMapB
  simp [mem_mapKeysB_mapSetB, mapKeysB_ite, mapKeysB_nil, h1, h2, h3, lit_eq, utf8Bytes_inj]

theorem runeCount_nil : runeCount [] = 0 := rfl

theorem checkTagLengthsB_none (m : TagMapB) (h : checkTagLengthsB m = none) (k : Bytes) :
    runeCount (mapGetB m k) ≤ 99 := by
  induction m with
  | nil => simp [mapGetB, runeCount_nil]
  | cons p rest ih =>
    obtain ⟨a, b⟩ := p
    unfold checkTagLengthsB at h
    split at h
    · simp at h
    · rename_i hb
      unfold mapGetB
      split
      · omega
      · exact ih h

theorem ConvertQRToMapB_some {q : QRB} {m : TagMapB} (h : ConvertQRToMapB q = (some m, none)) :
    m = fillMapB q ∧ checkTagLengthsB (fillMapB q) = none := by
  unfold ConvertQRToMapB at h
  split at h
  · simp at h
  · simp only [] at h
    split at h
    · simp at h
    · rename_i h2
      simp only [Prod.mk.injEq, Option.some.injEq, and_true] at h
      exact ⟨h.symm, h2⟩

theorem subFieldB_eq (id v : Bytes) (h : runeCount v ≤ 99) :
    subFieldB id v = if v ≠ [] then recordTextB (id, v) else [] := by
  unfold subFieldB recordTextB
  by_cases hv : v ≠ []
  · simp only [hv, if_true]
    rw [← twoDigits_sub _ h, utf8Bytes_append, ← List.append_assoc]
    congr 2
    split <;> rfl
  · simp [hv]

theorem blobOfB_filter (F : TagMapB) (h : ∀ p ∈ F, runeCount p.2 ≤ 99) :
    blobOfB F = (F.filter (fun p => p.2 ≠ [])).flatMap recordTextB := by
  induction F with
  | nil => rfl
  | cons q F ih =>
    have hq : runeCount q.2 ≤ 99 := h q (List.mem_cons_self _ _)
    have hrest := ih (fun p hp => h p (List.mem_cons_of_mem _ hp))
    have e : blobOfB (q :: F) = subFieldB q.1 q.2 ++ blobOfB F := by simp [blobOfB]
    rw [e, hrest, subFieldB_eq q.1 q.2 hq]
    by_cases hv : q.2 ≠ []
    · simp [List.filter_cons, hv]
    · simp [List.filter_cons, hv]

/-- The value of a group that passed the last loop of the encoder, on strings
of any bytes: it is the text of the records of its non-empty subfields, and is
tokenized to the runes of these subfields. -/
theorem group_value_tokenizesB (M : TagMapB) (tag : Bytes) (FB : TagMapB) (hak : AsciiKeys FB)
    (hnd : (mapKeys (TagMapB.runes FB)).Nodup) (hk : KeysTwo (TagMapB.runes FB))
    (hval : mapGetB M tag = blobOfB FB) (hlen : runeCount (mapGetB M tag) ≤ 99)
    (slack : Nat → Nat) (st : Scratch) :
    (∀ p ∈ FB, runeCount p.2 ≤ 99) ∧
    mapGetB M tag = (FB.filter (fun p => p.2 ≠ [])).flatMap recordTextB ∧
    ∃ sub st', ConvertStringToMapB slack st (mapGetB M tag) = Run.ret (sub, none) st' ∧
      (mapKeys sub).Nodup ∧
      (∀ k v, (k, v) ∈ sub ↔ ∃ w, (utf8Bytes k, w) ∈ FB ∧ w ≠ [] ∧ v = runes w) ∧
      ((∀ p ∈ FB, ∃ x, p.2 = utf8Bytes x) →
        ∀ k v, (k, v) ∈ sub ↔ ((utf8Bytes k, utf8Bytes v) ∈ FB ∧ v ≠ [])) := by
  have hr : runes (mapGetB M tag) = blobOf (TagMapB.runes FB) := by
    rw [hval, runes_blobOfB FB hak]
  have hl : (mapGet [(([] : Str), blobOf (TagMapB.runes FB))] []).length ≤ 99 := by
    simp only [mapGet, if_true]
    rw [← hr]
    exact hlen
  obtain ⟨h99, _, sub, st', htok, hnd', hiff⟩ :=
    group_value_tokenizes [(([] : Str), blobOf (TagMapB.runes FB))] [] (TagMapB.runes FB) hnd hk
      (by simp [mapGet]) hl slack st
  have hB : ∀ p ∈ FB, runeCount p.2 ≤ 99 := by
    intro p hp
    exact h99 (runes p.1, runes p.2) (List.mem_map.mpr ⟨p, hp, rfl⟩)
  have hiff' : ∀ k v, (k, v) ∈ sub ↔ ∃ w, (utf8Bytes k, w) ∈ FB ∧ w ≠ [] ∧ v = runes w := by
    intro k v
    rw [hiff]
    constructor
    · rintro ⟨hmem, hv⟩
      obtain ⟨p, hp, e⟩ := List.mem_map.mp hmem
      simp only [Prod.mk.injEq] at e
      obtain ⟨e1, e2⟩ := e
      obtain ⟨k', ek, _, _⟩ := hak p hp
      have ek' : k = k' := by rw [← e1, ek, runes_utf8Bytes]
      subst ek'
      refine ⟨p.2, ?_, ?_, e2.symm⟩
      · rw [← ek]; exact hp
      · intro h0; rw [h0] at e2; exact hv e2.symm
    · rintro ⟨w, hw, hne, rfl⟩
      refine ⟨List.mem_map.mpr ⟨_, hw, ?_⟩, fun h0 => hne (runes_eq_nil.mp h0)⟩
      simp only [runes_utf8Bytes]
  refine ⟨hB, by rw [hval]; exact blobOfB_filter FB hB, sub, st', ?_, hnd', hiff', ?_⟩
  · unfold ConvertStringToMapB
    rw [hr]
    simpa [mapGet] using htok
  · intro hvalid k v
    rw [hiff']
    constructor
    · rintro ⟨w, hw, hne, rfl⟩
      obtain ⟨x, ex⟩ := hvalid _ hw
      simp only [] at ex
      subst ex
      rw [runes_utf8Bytes]
      exact ⟨hw, fun h0 => hne (by rw [h0]; rfl)⟩
    · rintro ⟨hmem, hv⟩
      exact ⟨utf8Bytes v, hmem, utf8Bytes_ne_nil.mpr hv, (runes_utf8Bytes v).symm⟩

theorem asciiKeys_of (F : TagMapB) (ks : List Str) (h : mapKeysB F = ks.map utf8Bytes)
    (hk : ∀ k ∈ ks, k ≠ [] ∧ ∀ c ∈ k, c.toNat < 0x80) : AsciiKeys F := by
  intro p hp
  have hm : p.1 ∈ mapKeysB F := List.mem_map_of_mem Prod.fst hp
  rw [h] at hm
  obtain ⟨k, hk1, e⟩ := List.mem_map.mp hm
  exact ⟨k, e.symm, (hk k hk1).1, (hk k hk1).2⟩

theorem mapKeys_runes (F : TagMapB) (ks : List Str) (h : mapKeysB F = ks.map utf8Bytes) :
    mapKeys (TagMapB.runes F) = ks := by
  have e : mapKeys (TagMapB.runes F) = (mapKeysB F).map runes := by
    simp [mapKeys, mapKeysB, TagMapB.runes]
  rw [e, h, List.map_map]
  conv_rhs => rw [← List.map_id ks]
  apply List.map_congr_left
  intro k _
  exact runes_utf8Bytes k

theorem promptPayFieldsB_keys (p : QRMerchantIDPromptPayB) :
    mapKeysB (promptPayFieldsB p) =
      ["00".toList, "01".toList, "02".toList, "03".toList, "04".toList, "05".toList].map
        utf8Bytes := rfl

theorem billPaymentFieldsB_keys (p : QRMerchantIDPromptPayBillPaymentB) :
    mapKeysB (billPaymentFieldsB p) =
      ["00".toList, "01".toList, "02".toList, "03".toList].map utf8Bytes := rfl

theorem apiFieldsB_keys (p : QRMerchantIDPromptPayAPIB) :
    mapKeysB (apiFieldsB p) =
      ["00".toList, "01".toList, "02".toList, "03".toList, "04".toList, "05".toList].map
        utf8Bytes := rfl

theorem additionalFieldsB_keys (p : QRAdditionalDataB) :
    mapKeysB (additionalFieldsB p) =
      ["01".toList, "02".toList, "03".toList, "04".toList, "05".toList, "06".toList,
        "07".toList, "08".toList, "09".toList].map utf8Bytes := rfl

/-- The value of a group whose subfields have the ids `ks`, two ASCII
characters each and all different, once it has passed the last loop of the
encoder. -/
theorem group_value_of_keys (M : TagMapB) (tag : Bytes) (FB : TagMapB) (ks : List Str)
    (hks : mapKeysB FB = ks.map utf8Bytes)
    (hk : ∀ k ∈ ks, (k ≠ [] ∧ ∀ c ∈ k, c.toNat < 0x80) ∧ k.length = 2) (hnd : ks.Nodup)
    (hval : mapGetB M tag = blobOfB FB) (hlen : runeCount (mapGetB M tag) ≤ 99)
    (slack : Nat → Nat) (st : Scratch) :
    (∀ p ∈ FB, runeCount p.2 ≤ 99) ∧
    mapGetB M tag = (FB.filter (fun p => p.2 ≠ [])).flatMap recordTextB ∧
    ∃ sub st', ConvertStringToMapB slack st (mapGetB M tag) = Run.ret (sub, none) st' ∧
      (mapKeys sub).Nodup ∧
      (∀ k v, (k, v) ∈ sub ↔ ∃ w, (utf8Bytes k, w) ∈ FB ∧ w ≠ [] ∧ v = runes w) ∧
      ((∀ p ∈ FB, ∃ x, p.2 = utf8Bytes x) →
        ∀ k v, (k, v) ∈ sub ↔ ((utf8Bytes k, utf8Bytes v) ∈ FB ∧ v ≠ [])) := by
  apply group_value_tokenizesB M tag FB (asciiKeys_of FB ks hks (fun k h => (hk k h).1)) _ _
    hval hlen slack st
  · rw [mapKeys_runes FB ks hks]; exact hnd
  · unfold KeysTwo
    rw [mapKeys_runes FB ks hks]
    exact fun k h => (hk k h).2


/-! ## The claims -/

/-- C1, as stated, fails: the minimal model (country code `TH`, currency code
`764`, everything else empty) is encoded to `53037645802TH63047FDA`, and
decoding that payload gives a model whose `CRC` is `7FDA`, not the empty `CRC`
of the model; a data object of the mandated 25 code points and a merchant name
of 100 code points are refused by the encoder; a PromptPay mobile number
without the AID is encoded but refused by the decoder; a terminal id alone in
the API group and a JCB merchant id are not encoded at all; and the minimal
model with the merchant city of the single byte 0x80, which is no UTF-8 text,
is encoded with the checksum `F5B4` of that byte, and the payload is refused
by the decoder, which takes the checksum of the text with U+FFFD. -/
theorem roundtrip_decode_encode_counterexample :
    (ConvertQRToMap minimalModel = (some (fillMap minimalModel), none) ∧
      ConvertMapToString (fillMap minimalModel) = ("53037645802TH63047FDA".toList, none) ∧
      DecodeQRVisa tightSlack freshScratch "53037645802TH63047FDA".toList =
        Run.ret (some { minimalModel with CRC := "7FDA".toList }, none)
          ⟨"53037645802TH".toList, "7FDA".toList⟩ ∧
      { minimalModel with CRC := "7FDA".toList } ≠ minimalModel) ∧
    (ConvertQRToMap dataObjectModel).1 = none ∧
    (ConvertQRToMap longNameModel).1 = none ∧
    (ConvertQRToMap mobileOnlyModel = (some (fillMap mobileOnlyModel), none) ∧
      ConvertMapToString (fillMap mobileOnlyModel) =
        ("29140110081234567853037645802TH6304B757".toList, none) ∧
      DecodeQRVisa tightSlack freshScratch "29140110081234567853037645802TH6304B757".toList =
        Run.ret (some zeroQR, some "invalid subtag \x27Credit Transfer with PromptPayID\x27")
          ⟨"01100812345678".toList, "B757".toList⟩) ∧
    (ConvertQRToMap terminalOnlyModel = (some (fillMap terminalOnlyModel), none) ∧
      ConvertMapToString (fillMap terminalOnlyModel) = ("53037645802TH63047FDA".toList, none)) ∧
    (ConvertQRToMap jcbModel = (some (fillMap jcbModel), none) ∧
      ConvertMapToString (fillMap jcbModel) = ("53037645802TH63047FDA".toList, none)) ∧
    (ConvertQRToMapB badCityModel = (some (fillMapB badCityModel), none) ∧
      ConvertMapToStringB (fillMapB badCityModel) =
        (lit "53037645802TH6001" ++ [0x80] ++ lit "6304F5B4", none) ∧
      DecodeQRVisaB tightSlack freshScratch
          (lit "53037645802TH6001" ++ [0x80] ++ lit "6304F5B4") =
        Run.ret (some zeroQR, some "Error, CRC is mismatch or QR(string) is invalid.")
          ⟨"53037645802TH6001".toList ++ [Char.ofNat 0xFFFD], "F5B4".toList⟩) := by
  refine ⟨⟨?_, ?_, ?_, ?_⟩, ?_, ?_, ⟨?_, ?_, ?_⟩, ⟨?_, ?_⟩, ⟨?_, ?_⟩, ⟨?_, ?_, ?_⟩⟩ <;> decide!

/-- C1, amended: for every model whose strings are valid UTF-8, given by
their code points, that `ConvertQRToMap` accepts, with an empty `CRC`, country
code `TH`, currency code `764`, empty legacy data object, empty JCB and AMEX
ids, a PromptPay group and a bill payment group that are all-empty or carry
their AID, and an API group that has one of AID, AcquirerID and MerchantID
when it has any subfield, `ConvertMapToString` returns a payload without
error, and `DecodeQRVisa` of that payload returns without error the model with
its `CRC` replaced by the four checksum digits at the end of the payload,
whatever the spare capacity of rune slices and the earlier contents of the
package-level variables. -/
theorem roundtrip_decode_encode (m : QR) (MB : TagMapB)
    (hacc : ConvertQRToMapB m.toBytes = (some MB, none)) (hc : Canonical m)
    (_hcrc : m.CRC = []) (slack : Nat → Nat) (st : Scratch) :
    ∃ body crc st', ConvertMapToStringB MB = (utf8Bytes (body ++ "6304".toList ++ crc), none) ∧
      crc.length = 4 ∧
      DecodeQRVisaB slack st (utf8Bytes (body ++ "6304".toList ++ crc)) =
        Run.ret (some { m with CRC := crc }, none) st' := by
  obtain ⟨M, hM, rfl⟩ := ConvertQRToMapB_ok m MB hacc
  obtain ⟨h1, st', h2⟩ := roundtrip_core m M hM hc slack st
  refine ⟨bodyOf M, checksumOf (bodyOf M), st', ConvertMapToStringB_ok M _ h1,
    checksumOf_length _, ?_⟩
  rw [DecodeQRVisaB_utf8Bytes]
  exact h2

theorem canonical_scenarioModel (crc : Str) : Canonical (scenarioModel crc) := by
  constructor
  · rfl
  · rfl
  · rfl
  · rfl
  · rfl
  · exact Or.inr rfl
  · exact Or.inl ⟨rfl, rfl, rfl, rfl⟩
  · exact Or.inl ⟨rfl, rfl, rfl⟩

/-- The amended C1 at the model of the scenario, with an empty `CRC`. -/
theorem roundtrip_decode_encode_witness :
    ConvertQRToMapB (scenarioModel []).toBytes =
      (some (TagMap.toBytes (fillMap (scenarioModel []))), none) ∧
    Canonical (scenarioModel []) ∧ (scenarioModel []).CRC = [] ∧
    ∃ body crc st', ConvertMapToStringB (TagMap.toBytes (fillMap (scenarioModel []))) =
        (utf8Bytes (body ++ "6304".toList ++ crc), none) ∧
      crc.length = 4 ∧
      DecodeQRVisaB tightSlack freshScratch (utf8Bytes (body ++ "6304".toList ++ crc)) =
        Run.ret (some { scenarioModel [] with CRC := crc }, none) st' :=
  ⟨by decide!, canonical_scenarioModel [], rfl,
    roundtrip_decode_encode (scenarioModel []) (TagMap.toBytes (fillMap (scenarioModel [])))
      (by decide!) (canonical_scenarioModel []) rfl tightSlack freshScratch⟩

/-- C2, as stated, fails: each of the payloads is a sequence of well-formed
records in ascending tag order with a correct checksum and is decoded without
error, but the record of tag `03`, for which the model has no field, and the
record of tag `54` with an empty value are missing from the encoding of the
decoded model; the decoded model with the data object of tag `51` is refused
by the encoder; the records of group 29 that come in descending order of their
ids are written back in ascending order; the group 31 with only the terminal
id is not written back; the payload with the byte 0xFF in the merchant
name, whose checksum `F82D` is also the checksum of the text with U+FFFD, is
written back with the three bytes of U+FFFD; the record of group 62 with the
length field `+2` is written back with `02`; and the group 62 that holds only
a record with the id `10`, for which the group has no subfield, or only a
record with an empty value, is not written back. -/
theorem roundtrip_encode_decode_counterexample :
    (DecodeQRVisa tightSlack freshScratch "0302AB53037645802TH63040E2B".toList =
        Run.ret (some { minimalModel with CRC := "0E2B".toList }, none)
          ⟨"0302AB53037645802TH".toList, "0E2B".toList⟩ ∧
      ConvertQRToMap { minimalModel with CRC := "0E2B".toList } =
        (some (fillMap minimalModel), none) ∧
      ConvertMapToString (fillMap minimalModel) = ("53037645802TH63047FDA".toList, none)) ∧
    (DecodeQRVisa tightSlack freshScratch "530376454005802TH6304067A".toList =
        Run.ret (some { minimalModel with CRC := "067A".toList }, none)
          ⟨"530376454005802TH".toList, "067A".toList⟩ ∧
      ConvertQRToMap { minimalModel with CRC := "067A".toList } =
        (some (fillMap minimalModel), none)) ∧
    (DecodeQRVisa tightSlack freshScratch
        "5125ABCDEFGHIJKLMNOPQRSTUVWXY53037645802TH630448CC".toList =
        Run.ret (some { dataObjectModel with CRC := "48CC".toList }, none)
          ⟨"5125ABCDEFGHIJKLMNOPQRSTUVWXY53037645802TH".toList, "48CC".toList⟩ ∧
      (ConvertQRToMap { dataObjectModel with CRC := "48CC".toList }).1 = none) ∧
    (DecodeQRVisa tightSlack freshScratch
        ("2937011300668123456780016A000000677010111".toList ++
          "53037645802TH630412B0".toList) =
        Run.ret (some { scenarioModel "12B0".toList with
          PayloadFormatIndicator := [], PointOfInitiationMethod := [],
          Merchant := { (scenarioModel []).Merchant with CategoryCode := [] } }, none)
          ⟨"011300668123456780016A000000677010111".toList, "12B0".toList⟩ ∧
      (ConvertMapToString (fillMap { scenarioModel "12B0".toList with
          PayloadFormatIndicator := [], PointOfInitiationMethod := [],
          Merchant := { (scenarioModel []).Merchant with CategoryCode := [] } })).1 =
        ("29370016A00000067701011101130066812345678".toList ++
          "53037645802TH630494DE".toList)) ∧
    (DecodeQRVisa tightSlack freshScratch "31060502T153037645802TH6304381A".toList =
        Run.ret (some { terminalOnlyModel with CRC := "381A".toList }, none)
          ⟨"0502T1".toList, "381A".toList⟩ ∧
      ConvertMapToString (fillMap { terminalOnlyModel with CRC := "381A".toList }) =
        ("53037645802TH63047FDA".toList, none)) ∧
    (ChecksumCCITTFalse (lit "53037645802TH5904T29" ++ [0xFF] ++ lit "6304") = 0xF82D ∧
      DecodeQRVisaB tightSlack freshScratch
          (lit "53037645802TH5904T29" ++ [0xFF] ++ lit "6304F82D") =
        Run.ret (some { minimalModel with
            Merchant := { zeroQR.Merchant with Name := "T29".toList ++ [Char.ofNat 0xFFFD] },
            CRC := "F82D".toList }, none)
          ⟨"53037645802TH5904T29".toList ++ [Char.ofNat 0xFFFD], "F82D".toList⟩ ∧
      (ConvertMapToStringB (fillMapB (QR.toBytes { minimalModel with
            Merchant := { zeroQR.Merchant with Name := "T29".toList ++ [Char.ofNat 0xFFFD] },
            CRC := "F82D".toList }))).1 =
        lit "53037645802TH5904T29" ++ [0xEF, 0xBF, 0xBD] ++ lit "6304F82D") ∧
    (DecodeQRVisa tightSlack freshScratch "53037645802TH620601+2ab6304B5DE".toList =
        Run.ret (some { minimalModel with
          AdditionalData := { zeroQR.AdditionalData with BillNumber := "ab".toList },
          CRC := "B5DE".toList }, none) ⟨"0102ab".toList, "B5DE".toList⟩ ∧
      ConvertMapToString (fillMap { minimalModel with
          AdditionalData := { zeroQR.AdditionalData with BillNumber := "ab".toList },
          CRC := "B5DE".toList }) = ("53037645802TH62060102ab63045EC5".toList, none)) ∧
    (DecodeQRVisa tightSlack freshScratch "53037645802TH62061002ab6304DAA3".toList =
        Run.ret (some { minimalModel with CRC := "DAA3".toList }, none)
          ⟨"1002ab".toList, "DAA3".toList⟩ ∧
      DecodeQRVisa tightSlack freshScratch "53037645802TH6204010063046332".toList =
        Run.ret (some { minimalModel with CRC := "6332".toList }, none)
          ⟨"0100".toList, "6332".toList⟩ ∧
      ConvertQRToMap { minimalModel with CRC := "DAA3".toList } =
        (some (fillMap minimalModel), none) ∧
      ConvertQRToMap { minimalModel with CRC := "6332".toList } =
        (some (fillMap minimalModel), none)) := by
  refine ⟨⟨?_, ?_, ?_⟩, ⟨?_, ?_⟩, ⟨?_, ?_⟩, ⟨?_, ?_⟩, ⟨?_, ?_⟩, ⟨?_, ?_, ?_⟩, ⟨?_, ?_⟩,
    ⟨?_, ?_, ?_, ?_⟩⟩ <;> decide!

/-- C2, amended: let a payload be valid UTF-8 and consist of records (tag, two
decimal digits of the number of code points, value) in strictly ascending tag
order, each with a tag that the encoder writes (`encoderTags`, so neither `51`
nor a tag without a field) and a value of 1 to 99 code points, followed by the
record of tag `63` with the four upper-case hexadecimal digits of the CRC of
everything before them; let the value of each of the tags 29, 30, 31 and 62,
when the tag is there, consist in the same way of records in strictly
ascending order of the ids of the subfields of the group, each with a value
of 1 to 99 code points, and let the value of tag 31 have one of the ids 00, 01
and 02.  When `DecodeQRVisa` returns a model for the payload without error,
`ConvertQRToMap` accepts that model and `ConvertMapToString` of its map returns
exactly the payload. -/
theorem roundtrip_encode_decode (top : List (Str × Str))
    (htop : CanonicalRecords encoderTags top)
    (sub29 sub30 sub31 sub62 : List (Str × Str))
    (c29 : CanonicalRecords (groupIds "29".toList) sub29)
    (c30 : CanonicalRecords (groupIds "30".toList) sub30)
    (c31 : CanonicalRecords (groupIds "31".toList) sub31)
    (c62 : CanonicalRecords (groupIds "62".toList) sub62)
    (v29 : mapGet top "29".toList = sub29.flatMap recordText)
    (v30 : mapGet top "30".toList = sub30.flatMap recordText)
    (v31 : mapGet top "31".toList = sub31.flatMap recordText)
    (v62 : mapGet top "62".toList = sub62.flatMap recordText)
    (hapi : sub31 ≠ [] → ∃ q ∈ sub31, q.1 ∈ ["00".toList, "01".toList, "02".toList])
    (slack : Nat → Nat) (st st' : Scratch) (m : QR)
    (hdec : DecodeQRVisaB slack st (utf8Bytes (payloadOf (top.flatMap recordText))) =
      Run.ret (some m, none) st') :
    ∃ MB, ConvertQRToMapB m.toBytes = (some MB, none) ∧
      ConvertMapToStringB MB = (utf8Bytes (payloadOf (top.flatMap recordText)), none) := by
  rw [DecodeQRVisaB_utf8Bytes] at hdec
  obtain ⟨h1, h2⟩ := canonical_payload_core top htop sub29 sub30 sub31 sub62 c29 c30 c31 c62
    v29 v30 v31 v62 hapi slack st st' m hdec
  exact ⟨_, ConvertQRToMapB_of m _ h1, ConvertMapToStringB_ok _ _ h2⟩

/-- The amended C2 at the payload of the scenario. -/
theorem roundtrip_encode_decode_witness :
    CanonicalRecords encoderTags scenarioTop ∧
    CanonicalRecords (groupIds "29".toList) scenarioSub29 ∧
    CanonicalRecords (groupIds "30".toList) [] ∧
    CanonicalRecords (groupIds "31".toList) [] ∧
    CanonicalRecords (groupIds "62".toList) [] ∧
    mapGet scenarioTop "29".toList = scenarioSub29.flatMap recordText ∧
    mapGet scenarioTop "30".toList = ([] : List (Str × Str)).flatMap recordText ∧
    mapGet scenarioTop "31".toList = ([] : List (Str × Str)).flatMap recordText ∧
    mapGet scenarioTop "62".toList = ([] : List (Str × Str)).flatMap recordText ∧
    DecodeQRVisaB tightSlack freshScratch
        (utf8Bytes (payloadOf (scenarioTop.flatMap recordText))) =
      Run.ret (some (scenarioModel "018D".toList), none)
        ⟨"0016A00000067701011101130066812345678".toList, "018D".toList⟩ ∧
    ∃ MB, ConvertQRToMapB (scenarioModel "018D".toList).toBytes = (some MB, none) ∧
      ConvertMapToStringB MB =
        (utf8Bytes (payloadOf (scenarioTop.flatMap recordText)), none) :=
  ⟨by unfold CanonicalRecords Ascending; decide!,
    by unfold CanonicalRecords Ascending; decide!,
    by unfold CanonicalRecords Ascending; decide!,
    by unfold CanonicalRecords Ascending; decide!,
    by unfold CanonicalRecords Ascending; decide!,
    by decide!, by decide!, by decide!, by decide!, by decide!,
    roundtrip_encode_decode scenarioTop (by unfold CanonicalRecords Ascending; decide!)
      scenarioSub29 [] [] []
      (by unfold CanonicalRecords Ascending; decide!)
      (by unfold CanonicalRecords Ascending; decide!)
      (by unfold CanonicalRecords Ascending; decide!)
      (by unfold CanonicalRecords Ascending; decide!)
      (by decide!) (by decide!) (by decide!) (by decide!) (fun h => absurd rfl h)
      tightSlack freshScratch ⟨"0016A00000067701011101130066812345678".toList, "018D".toList⟩
      (scenarioModel "018D".toList) (by decide!)⟩

/-- C3: the payload of the scenario (its checksum value is `018D`) is decoded
without error, whatever the spare capacity of rune slices and the earlier
contents of the package-level variables; the model has the PromptPay AID
`A000000677010111`, the mobile number `0066812345678`, the category code
`5999`, the currency code `764` and the country code `TH`, and encoding the
model gives exactly the payload again. -/
theorem scenario_decodes_and_reencodes (slack : Nat → Nat) (st : Scratch) :
    scenarioPayload = scenarioBody ++ "018D".toList ∧
    DecodeQRVisa slack st scenarioPayload =
      Run.ret (some (scenarioModel "018D".toList), none)
        ⟨"0016A00000067701011101130066812345678".toList, "018D".toList⟩ ∧
    (scenarioModel "018D".toList).Merchant.ID.PromptPay.AID = "A000000677010111".toList ∧
    (scenarioModel "018D".toList).Merchant.ID.PromptPay.MobileNumber = "0066812345678".toList ∧
    (scenarioModel "018D".toList).Merchant.CategoryCode = "5999".toList ∧
    (scenarioModel "018D".toList).Transaction.CurrencyCode = "764".toList ∧
    (scenarioModel "018D".toList).CountryCode = "TH".toList ∧
    ConvertQRToMap (scenarioModel "018D".toList) =
      (some (fillMap (scenarioModel "018D".toList)), none) ∧
    ConvertMapToString (fillMap (scenarioModel "018D".toList)) = (scenarioPayload, none) := by
  refine ⟨scenarioPayload_eq, ?_, rfl, rfl, rfl, rfl, rfl, by decide!, by decide!⟩
  rw [scenarioPayload_eq]
  have h := scenario_decode_with slack st "02".toList "018D".toList (by decide) rfl rfl
    (by decide!)
  have e : "00".toList ++ "02".toList ++ "01".toList ++ rawText scenarioRecords.tail ++
      "6304".toList ++ "018D".toList = scenarioBody ++ "018D".toList := by decide!
  rw [e] at h
  exact h

/-- C4, as stated, fails: the payload of the scenario is decoded without
error, and so is the payload in which the last character `D` of the checksum
value is replaced by `d`. -/
theorem checksum_tamper_counterexample :
    DecodeQRVisa tightSlack freshScratch (scenarioBody ++ "018D".toList) =
      Run.ret (some (scenarioModel "018D".toList), none)
        ⟨"0016A00000067701011101130066812345678".toList, "018D".toList⟩ ∧
    DecodeQRVisa tightSlack freshScratch (scenarioBody ++ "018d".toList) =
      Run.ret (some (scenarioModel "018d".toList), none)
        ⟨"0016A00000067701011101130066812345678".toList, "018d".toList⟩ := by
  constructor <;> decide!

/-- C4, amended: let a payload consist of records that the tokenizer accepts
and a last record `63`, `04` with a checksum value `c` of four code points, and
let `DecodeQRVisa` return no error on it.  Then for every value `c'` of four
code points that the decoder reads as another 16-bit number than `c` (a
hexadecimal digit replaced by a digit of another value, not a letter replaced
by the same letter in the other case), `DecodeQRVisa` of the payload with `c'`
in the place of `c` returns the zero model and the checksum error. -/
theorem checksum_tamper_detected (recs : List RawRecord) (hwf : ∀ r ∈ recs, r.WellFormed)
    (c c' : Str) (hc : c.length = 4) (hc' : c'.length = 4)
    (slack : Nat → Nat) (st st1 : Scratch) (r : Option QR)
    (hok : DecodeQRVisa slack st (rawText recs ++ "6304".toList ++ c) = Run.ret (r, none) st1)
    (hdiff : parseCRCInt c' % 0x10000 ≠ parseCRCInt c % 0x10000) :
    ∃ st2, DecodeQRVisa slack st (rawText recs ++ "6304".toList ++ c') =
      Run.ret (some zeroQR, some "Error, CRC is mismatch or QR(string) is invalid.") st2 := by
  obtain ⟨m, st1', htok, hq⟩ := DecodeQRVisa_ok hok
  rw [tokenize_with_checksum slack st recs hwf c hc] at htok
  simp only [Run.ret.injEq, Prod.mk.injEq, and_true] at htok
  obtain ⟨_, hst⟩ := htok
  have hcheck := (ConvertMapToQR_ok hq).1
  rw [← hst] at hcheck
  simp only [] at hcheck
  rw [checkCRC_none_iff] at hcheck
  refine ⟨_, DecodeQRVisa_crc_mismatch slack st _ _ _
    (tokenize_with_checksum slack st recs hwf c' hc') ?_⟩
  simp only []
  intro hn
  rw [checkCRC_none_iff] at hn
  exact hdiff (by rw [← hn, ← hcheck])

/-- The amended C4 at the payload of the scenario, with the last checksum
digit `D` replaced by `E`. -/
theorem checksum_tamper_detected_witness :
    DecodeQRVisa tightSlack freshScratch (rawText scenarioRecords ++ "6304".toList ++ "018D".toList) =
      Run.ret (some (scenarioModel "018D".toList), none)
        ⟨"0016A00000067701011101130066812345678".toList, "018D".toList⟩ ∧
    parseCRCInt "018E".toList % 0x10000 ≠ parseCRCInt "018D".toList % 0x10000 ∧
    ∃ st2, DecodeQRVisa tightSlack freshScratch
        (rawText scenarioRecords ++ "6304".toList ++ "018E".toList) =
      Run.ret (some zeroQR, some "Error, CRC is mismatch or QR(string) is invalid.") st2 :=
  ⟨by decide!, by decide!,
    checksum_tamper_detected scenarioRecords
      (by unfold scenarioRecords RawRecord.WellFormed; decide)
      "018D".toList "018E".toList rfl rfl tightSlack freshScratch
      ⟨"0016A00000067701011101130066812345678".toList, "018D".toList⟩
      (some (scenarioModel "018D".toList)) (by decide!) (by decide!)⟩

/-- C5 fails on the code: in the payload of the scenario the first length
field `02` is replaced by `+2` and the checksum is left as it is, yet the
payload is decoded without error, to the model of the untouched payload. -/
theorem body_tamper_undetected (slack : Nat → Nat) (st : Scratch) :
    DecodeQRVisa slack st
        ("00+201".toList ++ "010211".toList ++ "2937".toList ++
          "0016A000000677010111".toList ++ "01130066812345678".toList ++ "52045999".toList ++
          "5303764".toList ++ "5802TH".toList ++ "6304".toList ++ "018D".toList) =
      Run.ret (some (scenarioModel "018D".toList), none)
        ⟨"0016A00000067701011101130066812345678".toList, "018D".toList⟩ := by
  have h := scenario_decode_with slack st "+2".toList "018D".toList (by decide) rfl rfl
    (by decide!)
  have e : "00".toList ++ "+2".toList ++ "01".toList ++ rawText scenarioRecords.tail ++
      "6304".toList ++ "018D".toList =
      "00+201".toList ++ "010211".toList ++ "2937".toList ++
          "0016A000000677010111".toList ++ "01130066812345678".toList ++ "52045999".toList ++
          "5303764".toList ++ "5802TH".toList ++ "6304".toList ++ "018D".toList := by decide!
  rw [e] at h
  exact h

/-- C6 fails on the code: the string of 36 code points is one complete record
followed by a tag and one code point of a length field; when the rune slice of
a string of 36 code points has no spare capacity, the tokenizer ends in a panic
on it instead of returning the error. -/
theorem truncated_length_panics (slack : Nat → Nat) (st : Scratch) (h : slack 36 = 0) :
    ConvertStringToMap slack st "5929ABCDEFGHIJKLMNOPQRSTUVWXYZABC580".toList = Run.panic := by
  have e : "5929ABCDEFGHIJKLMNOPQRSTUVWXYZABC580".toList =
      [] ++ (⟨"59".toList, "29".toList, "ABCDEFGHIJKLMNOPQRSTUVWXYZABC".toList⟩ : RawRecord).text ++
        "580".toList := by decide
  have hl : "5929ABCDEFGHIJKLMNOPQRSTUVWXYZABC580".toList.length = 36 := by decide
  unfold ConvertStringToMap
  rw [hl, h]
  have hstep := tokenLoop_record 0 "5929ABCDEFGHIJKLMNOPQRSTUVWXYZABC580".toList []
    "580".toList ⟨"59".toList, "29".toList, "ABCDEFGHIJKLMNOPQRSTUVWXYZABC".toList⟩
    ⟨rfl, rfl, by decide⟩ e 36 [] { st with stringWithNoCRC := [] }
  simp only [List.length_nil, Nat.cast_zero] at hstep
  rw [hstep]
  have hi : ((0 : Nat) : Int) + ((⟨"59".toList, "29".toList,
      "ABCDEFGHIJKLMNOPQRSTUVWXYZABC".toList⟩ : RawRecord).text.length : Int) = 33 := by decide
  simp only [Nat.cast_zero] at hi
  rw [hi, tokenLoop]
  have hk : sliceRunes 0 "5929ABCDEFGHIJKLMNOPQRSTUVWXYZABC580".toList 33 (33 + 2)
      = some "58".toList := by decide
  have hls : sliceRunes 0 "5929ABCDEFGHIJKLMNOPQRSTUVWXYZABC580".toList (33 + 2) (33 + 2 + 2)
      = none := by decide
  simp only [hl, hk, hls]
  rw [if_neg (by norm_num), if_neg (by norm_num)]

/-- The failure of C6 under the capacity that the language promises. -/
theorem truncated_length_panics_witness :
    tightSlack 36 = 0 ∧
    ConvertStringToMap tightSlack freshScratch "5929ABCDEFGHIJKLMNOPQRSTUVWXYZABC580".toList
      = Run.panic :=
  ⟨rfl, truncated_length_panics tightSlack freshScratch rfl⟩

/-- C7 fails on the code: on the input `00-1`, whose length field reads -1,
the tokenizer and the decoder end in a panic (the slice `[4:3]` has inverted
bounds), whatever the spare capacity of rune slices and the earlier contents of
the package-level variables. -/
theorem negative_length_panics (slack : Nat → Nat) (st : Scratch) :
    ConvertStringToMap slack st "00-1".toList = Run.panic ∧
    DecodeQRVisa slack st "00-1".toList = Run.panic := by
  have h : "00-1".toList = ['0', '0', '-', '1'] := by decide
  have hl : parseInt10 (['-', '1']) = -1 := by decide
  have htok : ConvertStringToMap slack st "00-1".toList = Run.panic := by
    rw [h]
    unfold ConvertStringToMap
    simp only [List.length_cons, List.length_nil, Nat.zero_add, Nat.reduceAdd]
    rw [tokenLoop]
    simp [sliceRunes, hl]
    split <;> rfl
  refine ⟨htok, ?_⟩
  unfold DecodeQRVisa
  rw [htok]

/-- Whenever `DecodeQRVisa` returns, a model returned without error has
the country code `TH` and the currency code `764`; and when the top-level map
of the payload has another value (or none) under `58` or under `53`, what is
returned is the zero model and an error. -/
theorem fixed_values_enforced (slack : Nat → Nat) (st st' : Scratch) (s : Str)
    (r : Option QR × Option GoError) (h : DecodeQRVisa slack st s = Run.ret r st') :
    (r.2 = none → ∃ qr, r.1 = some qr ∧ qr.CountryCode = "TH".toList ∧
      qr.Transaction.CurrencyCode = "764".toList) ∧
    (∀ m st1, ConvertStringToMap slack st s = Run.ret (m, none) st1 →
      (mapGet m "58".toList ≠ "TH".toList ∨ mapGet m "53".toList ≠ "764".toList) →
      r.1 = some zeroQR ∧ r.2 ≠ none) := by
  obtain ⟨r1, r2⟩ := r
  have hok : r2 = none → ∃ m st1 pp bp api ad,
      ConvertStringToMap slack st s = Run.ret (m, none) st1 ∧
      mapGet m "58".toList = "TH".toList ∧ mapGet m "53".toList = "764".toList ∧
      r1 = some (assembleQR m pp bp api ad) := by
    intro hr
    subst hr
    obtain ⟨m, st1, htok, hq⟩ := DecodeQRVisa_ok h
    obtain ⟨_, pp, _, bp, _, api, _, ad, _, _, _, _, hfin⟩ := ConvertMapToQR_ok hq
    obtain ⟨h58, h53, hr1, _⟩ := finishMapToQR_ok hfin
    exact ⟨m, st1, pp, bp, api, ad, htok, h58, h53, hr1⟩
  constructor
  · intro hr
    obtain ⟨m, st1, pp, bp, api, ad, _, h58, h53, hr1⟩ := hok hr
    exact ⟨_, hr1, h58, h53⟩
  · intro m st1 htok hne
    cases r2 with
    | none =>
      obtain ⟨m', st1', _, _, _, _, htok', h58, h53, _⟩ := hok rfl
      rw [htok] at htok'
      simp only [Run.ret.injEq, Prod.mk.injEq, and_true] at htok'
      rw [← htok'.1] at h58 h53
      rcases hne with hne | hne
      · exact absurd h58 hne
      · exact absurd h53 hne
    | some e => exact ⟨DecodeQRVisa_error_zero slack st st' s r1 e h, by simp⟩

/-- The fixed values at a payload with the country code `US` and a correct
checksum. -/
theorem fixed_values_enforced_witness :
    DecodeQRVisa tightSlack freshScratch "53037645802US6304D2DF".toList =
      Run.ret (some zeroQR, some "invalid country code, expected \x27TH\x27")
        ⟨"53037645802US".toList, "D2DF".toList⟩ ∧
    ConvertStringToMap tightSlack freshScratch "53037645802US6304D2DF".toList =
      Run.ret ([("53".toList, "764".toList), ("58".toList, "US".toList),
        ("63".toList, "D2DF".toList)], none) ⟨"53037645802US".toList, "D2DF".toList⟩ ∧
    (some zeroQR = some zeroQR ∧
      some "invalid country code, expected \x27TH\x27" ≠ (none : Option GoError)) :=
  ⟨by decide!, by decide!,
    (fixed_values_enforced tightSlack freshScratch ⟨"53037645802US".toList, "D2DF".toList⟩
      "53037645802US6304D2DF".toList
      (some zeroQR, some "invalid country code, expected \x27TH\x27") (by decide!)).2
      [("53".toList, "764".toList), ("58".toList, "US".toList), ("63".toList, "D2DF".toList)]
      ⟨"53037645802US".toList, "D2DF".toList⟩ (by decide!) (Or.inl (by decide))⟩

/-- C8 fails on the code: the payload `290400-15802US6304F75E` is tokenized
without error, its checksum verifies and its tag 58 holds `US`, yet
`DecodeQRVisa` ends in a panic instead of returning an error: the value
`00-1` of tag 29 is tokenized before the country code is compared, and its
length field reads -1; this holds whatever the spare capacity of rune slices
and the earlier contents of the package-level variables. -/
theorem fixed_values_not_reached (slack : Nat → Nat) (st : Scratch) :
    ConvertStringToMap slack st "290400-15802US6304F75E".toList =
      Run.ret ([("29".toList, "00-1".toList), ("58".toList, "US".toList),
        ("63".toList, "F75E".toList)], none) ⟨"290400-15802US".toList, "F75E".toList⟩ ∧
    checkCRC ("290400-15802US".toList ++ "6304".toList) "F75E".toList = none ∧
    mapGet [("29".toList, "00-1".toList), ("58".toList, "US".toList),
        ("63".toList, "F75E".toList)] "58".toList = "US".toList ∧
    DecodeQRVisa slack st "290400-15802US6304F75E".toList = Run.panic := by
  have htok : ConvertStringToMap slack st "290400-15802US6304F75E".toList =
      Run.ret ([("29".toList, "00-1".toList), ("58".toList, "US".toList),
        ("63".toList, "F75E".toList)], none) ⟨"290400-15802US".toList, "F75E".toList⟩ := by
    have h := tokenize_with_checksum slack st
      [⟨"29".toList, "04".toList, "00-1".toList⟩, ⟨"58".toList, "02".toList, "US".toList⟩]
      (by unfold RawRecord.WellFormed; decide) "F75E".toList rfl
    have e : rawText [⟨"29".toList, "04".toList, "00-1".toList⟩,
        ⟨"58".toList, "02".toList, "US".toList⟩] ++ "6304".toList ++ "F75E".toList =
        "290400-15802US6304F75E".toList := by decide
    have s4 : sprintf02d (4 : Int) = "04".toList := by decide
    have s2 : sprintf02d (2 : Int) = "02".toList := by decide
    rw [e] at h
    rw [h]
    simp [tokenSteps, tokenStep, mapSet, s4, s2]
  have hcrc : checkCRC ("290400-15802US".toList ++ "6304".toList) "F75E".toList = none := by
    decide!
  refine ⟨htok, hcrc, by decide, ?_⟩
  unfold DecodeQRVisa
  rw [htok]
  simp only []
  unfold ConvertMapToQR
  simp only [hcrc]
  have hg : decodeGroup slack ⟨"290400-15802US".toList, "F75E".toList⟩
      [("29".toList, "00-1".toList), ("58".toList, "US".toList), ("63".toList, "F75E".toList)]
      "29".toList (some ("A000000677010111".toList,
          "invalid subtag \x27Credit Transfer with PromptPayID\x27")) = Run.panic := by
    unfold decodeGroup
    have e29 : mapGet [("29".toList, "00-1".toList), ("58".toList, "US".toList),
        ("63".toList, "F75E".toList)] "29".toList = "00-1".toList := by decide
    rw [e29, if_pos (by decide), ConvertStringToMap_negative_length]
  rw [hg]

/-- C9: when the checksum of a payload verifies and the value of its tag `29`
is not empty and is tokenized to a map whose entry `00` is missing or is not
`A000000677010111`, `DecodeQRVisa` returns the zero model and the error
`invalid subtag 'Credit Transfer with PromptPayID'`; and every model returned
without error that has a non-empty PromptPay subfield has that AID. -/
theorem promptPay_discriminator_enforced (slack : Nat → Nat) (st : Scratch) (s : Str) :
    (∀ m st1 pp st2, ConvertStringToMap slack st s = Run.ret (m, none) st1 →
      checkCRC (st1.stringWithNoCRC ++ "6304".toList) st1.crcFromStr = none →
      mapGet m "29".toList ≠ [] →
      ConvertStringToMap slack st1 (mapGet m "29".toList) = Run.ret (pp, none) st2 →
      mapGet pp "00".toList ≠ "A000000677010111".toList →
      DecodeQRVisa slack st s =
        Run.ret (some zeroQR,
          some "invalid subtag \x27Credit Transfer with PromptPayID\x27") st2) ∧
    (∀ qr st', DecodeQRVisa slack st s = Run.ret (some qr, none) st' →
      (qr.Merchant.ID.PromptPay.AID ≠ [] ∨ qr.Merchant.ID.PromptPay.MobileNumber ≠ [] ∨
        qr.Merchant.ID.PromptPay.NationalID ≠ [] ∨ qr.Merchant.ID.PromptPay.EWalletID ≠ [] ∨
        qr.Merchant.ID.PromptPay.BankAccount ≠ [] ∨
        qr.Merchant.ID.PromptPay.NationalEWalletID ≠ []) →
      qr.Merchant.ID.PromptPay.AID = "A000000677010111".toList) := by
  constructor
  · intro m st1 pp st2 htok hcrc h29 hsub haid
    unfold DecodeQRVisa
    rw [htok]
    simp only []
    unfold ConvertMapToQR
    simp only []
    rw [hcrc]
    simp only []
    unfold decodeGroup
    simp only [h29, hsub, haid, if_true, ne_eq, not_false_eq_true]
  · intro qr st' h hne
    obtain ⟨m, st1, htok, hq⟩ := DecodeQRVisa_ok h
    obtain ⟨_, pp, _, bp, _, api, _, ad, h29, _, _, _, hfin⟩ := ConvertMapToQR_ok hq
    obtain ⟨_, _, hr1, _⟩ := finishMapToQR_ok hfin
    simp only [Option.some.injEq] at hr1
    subst hr1
    rcases decodeGroup_checked_ok h29 with hnil | haid
    · subst hnil
      simp [assembleQR, mapGet] at hne
    · exact haid

/-- C9 at the payload of a model with a PromptPay mobile number and no AID,
and at the payload of the scenario. -/
theorem promptPay_discriminator_enforced_witness :
    DecodeQRVisa tightSlack freshScratch "29140110081234567853037645802TH6304B757".toList =
      Run.ret (some zeroQR, some "invalid subtag \x27Credit Transfer with PromptPayID\x27")
        ⟨"01100812345678".toList, "B757".toList⟩ ∧
    (scenarioModel "018D".toList).Merchant.ID.PromptPay.AID = "A000000677010111".toList :=
  ⟨(promptPay_discriminator_enforced tightSlack freshScratch
      "29140110081234567853037645802TH6304B757".toList).1
      [("29".toList, "01100812345678".toList), ("53".toList, "764".toList),
        ("58".toList, "TH".toList), ("63".toList, "B757".toList)]
      ⟨"29140110081234567853037645802TH".toList, "B757".toList⟩
      [("01".toList, "0812345678".toList)] ⟨"01100812345678".toList, "B757".toList⟩
      (by decide!) (by decide!) (by decide) (by decide!) (by decide),
    (promptPay_discriminator_enforced tightSlack freshScratch
      (scenarioBody ++ "018D".toList)).2 (scenarioModel "018D".toList)
      ⟨"0016A00000067701011101130066812345678".toList, "018D".toList⟩ (by decide!)
      (Or.inl (by decide))⟩

/-- C10: whenever `DecodeQRVisa` returns an error, the model it returns with
it is the zero value of `QR`, in which every field, also of the nested
groups, is the empty string. -/
theorem decode_failure_returns_zero_model (slack : Nat → Nat) (st st' : Scratch) (s : Str)
    (r : Option QR) (e : GoError)
    (h : DecodeQRVisa slack st s = Run.ret (r, some e) st') :
    r = some zeroQR ∧ zeroQR = ⟨[], [], ⟨⟨[], [], [], [], [], [], [], [], [], [],
      ⟨[], [], [], [], [], []⟩, ⟨[], [], [], []⟩, ⟨[], [], [], [], [], []⟩⟩, [], [], []⟩,
      ⟨[], []⟩, [], ⟨[], [], [], [], [], [], [], [], []⟩, [], []⟩ :=
  ⟨DecodeQRVisa_error_zero slack st st' s r e h, rfl⟩

/-- C10 at the input `0`, which is cut off inside its first tag. -/
theorem decode_failure_returns_zero_model_witness :
    DecodeQRVisa tightSlack freshScratch "0".toList =
      Run.ret (some zeroQR, some "QRVisa(string) is invalid") freshScratch ∧
    some zeroQR = some zeroQR :=
  ⟨by decide!, (decode_failure_returns_zero_model tightSlack freshScratch freshScratch
    "0".toList (some zeroQR) "QRVisa(string) is invalid" (by decide!)).1⟩

/-- C11: whenever `DecodeQRVisa` returns without error, it returns a model
(not a nil pointer), and in it the payload format indicator is empty or has 2
code points, the point of initiation method is empty or has 2, the category
code is empty or has 4, the currency code has 3, the country code has 2, the
`CRC` is empty or has 4 and the legacy data object is empty or has 25. -/
theorem decoded_widths (slack : Nat → Nat) (st st' : Scratch) (s : Str) (r : Option QR)
    (h : DecodeQRVisa slack st s = Run.ret (r, none) st') :
    ∃ qr, r = some qr ∧
      (qr.PayloadFormatIndicator = [] ∨ qr.PayloadFormatIndicator.length = 2) ∧
      (qr.PointOfInitiationMethod = [] ∨ qr.PointOfInitiationMethod.length = 2) ∧
      (qr.Merchant.CategoryCode = [] ∨ qr.Merchant.CategoryCode.length = 4) ∧
      qr.Transaction.CurrencyCode.length = 3 ∧
      qr.CountryCode.length = 2 ∧
      (qr.CRC = [] ∨ qr.CRC.length = 4) ∧
      (qr.DataObjectForMerchantAccountInformationByMasterCard = [] ∨
        qr.DataObjectForMerchantAccountInformationByMasterCard.length = 25) := by
  obtain ⟨m, st1, _, hq⟩ := DecodeQRVisa_ok h
  obtain ⟨_, pp, _, bp, _, api, _, ad, _, _, _, _, hfin⟩ := ConvertMapToQR_ok hq
  obtain ⟨h58, h53, hr, hlen⟩ := finishMapToQR_ok hfin
  obtain ⟨w1, w2, w3, _, _, w6, w7⟩ := decodeLengthCheck_none hlen
  refine ⟨_, hr, w1, w2, w3, ?_, ?_, w6, w7⟩
  · show (mapGet m "53".toList).length = 3
    rw [h53]; rfl
  · show (mapGet m "58".toList).length = 2
    rw [h58]; rfl

/-- C11 at the payload of the scenario. -/
theorem decoded_widths_witness :
    DecodeQRVisa tightSlack freshScratch (scenarioBody ++ "018D".toList) =
      Run.ret (some (scenarioModel "018D".toList), none)
        ⟨"0016A00000067701011101130066812345678".toList, "018D".toList⟩ ∧
    ∃ qr, some (scenarioModel "018D".toList) = some qr ∧
      (qr.PayloadFormatIndicator = [] ∨ qr.PayloadFormatIndicator.length = 2) ∧
      (qr.PointOfInitiationMethod = [] ∨ qr.PointOfInitiationMethod.length = 2) ∧
      (qr.Merchant.CategoryCode = [] ∨ qr.Merchant.CategoryCode.length = 4) ∧
      qr.Transaction.CurrencyCode.length = 3 ∧
      qr.CountryCode.length = 2 ∧
      (qr.CRC = [] ∨ qr.CRC.length = 4) ∧
      (qr.DataObjectForMerchantAccountInformationByMasterCard = [] ∨
        qr.DataObjectForMerchantAccountInformationByMasterCard.length = 25) :=
  ⟨by decide!, decoded_widths tightSlack freshScratch
    ⟨"0016A00000067701011101130066812345678".toList, "018D".toList⟩
    (scenarioBody ++ "018D".toList) (some (scenarioModel "018D".toList)) (by decide!)⟩

/-- C12 fails on the code: the encoder refuses a legacy data object of 25
code points, with a message that asks for 25, and accepts one of 4 code
points, while the width checks of the decoder accept the first and refuse the
second. -/
theorem encoder_data_object_width :
    encodeLengthCheck dataObjectModel =
      some "utf8.RuneCountInString(qr.DataObjectForMerchantAccountInformationByMasterCard) must be 25 (got 25)" ∧
    (ConvertQRToMap dataObjectModel).1 = none ∧
    decodeLengthCheck dataObjectModel = none ∧
    encodeLengthCheck shortDataObjectModel = none ∧
    decodeLengthCheck shortDataObjectModel =
      some "Invalid QR (utf8.RuneCountInString(qr.DataObjectForMerchantAccountInformationByMasterCard) must be 25 but got 4" := by
  refine ⟨?_, ?_, ?_, ?_, ?_⟩ <;> decide!

/-- C13 fails on the code: the model with only a terminal id in the API group
is accepted by `ConvertQRToMap`, but the returned map has no entry for tag
`31`, so its value there is empty. -/
theorem api_group_not_emitted :
    terminalOnlyModel.Merchant.ID.API.TerminalID = "T1".toList ∧
    ConvertQRToMap terminalOnlyModel = (some (fillMap terminalOnlyModel), none) ∧
    "31".toList ∉ mapKeys (fillMap terminalOnlyModel) ∧
    mapGet (fillMap terminalOnlyModel) "31".toList = [] := by
  refine ⟨?_, ?_, ?_, ?_⟩ <;> decide!

/-- C14: for every model that `ConvertQRToMap` accepts and each of the groups
PromptPay, PromptPayBillPayment, API and AdditionalData whose subfields are
all empty, the returned map has no entry for the tag of the group (29, 30, 31,
62), and what `ConvertMapToString` returns for the map is a sequence of
well-formed records none of which has that tag. -/
theorem empty_groups_omitted (m : QR) (M : TagMap) (hacc : ConvertQRToMap m = (some M, none)) :
    ((m.Merchant.ID.PromptPay.AID = [] ∧ m.Merchant.ID.PromptPay.MobileNumber = [] ∧
        m.Merchant.ID.PromptPay.NationalID = [] ∧ m.Merchant.ID.PromptPay.EWalletID = [] ∧
        m.Merchant.ID.PromptPay.BankAccount = [] ∧
        m.Merchant.ID.PromptPay.NationalEWalletID = []) →
      "29".toList ∉ mapKeys M ∧ HasNoRecord "29".toList (ConvertMapToString M).1) ∧
    ((m.Merchant.ID.PromptPayBillPayment.AID = [] ∧
        m.Merchant.ID.PromptPayBillPayment.BillerID = [] ∧
        m.Merchant.ID.PromptPayBillPayment.Reference1 = [] ∧
        m.Merchant.ID.PromptPayBillPayment.Reference2 = []) →
      "30".toList ∉ mapKeys M ∧ HasNoRecord "30".toList (ConvertMapToString M).1) ∧
    ((m.Merchant.ID.API.AID = [] ∧ m.Merchant.ID.API.AcquirerID = [] ∧
        m.Merchant.ID.API.MerchantID = [] ∧ m.Merchant.ID.API.TransactionRef = [] ∧
        m.Merchant.ID.API.ReferenceNo = [] ∧ m.Merchant.ID.API.TerminalID = []) →
      "31".toList ∉ mapKeys M ∧ HasNoRecord "31".toList (ConvertMapToString M).1) ∧
    ((m.AdditionalData.BillNumber = [] ∧ m.AdditionalData.MobileNumber = [] ∧
        m.AdditionalData.StoreID = [] ∧ m.AdditionalData.LoyaltyNumber = [] ∧
        m.AdditionalData.ReferenceID = [] ∧ m.AdditionalData.ConsumerID = [] ∧
        m.AdditionalData.TerminalID = [] ∧ m.AdditionalData.PurposeOfTransaction = [] ∧
        m.AdditionalData.AdditionalConsumerDataRequest = []) →
      "62".toList ∉ mapKeys M ∧ HasNoRecord "62".toList (ConvertMapToString M).1) := by
  obtain ⟨_, hM, htags⟩ := ConvertQRToMap_ok hacc
  subst hM
  have hM99 := checkTagLengths_none _ htags
  have hk := keysTwo_fillMap m
  refine ⟨fun h => ?_, fun h => ?_, fun h => ?_, fun h => ?_⟩
  · have hn := not_mem_fillMap_29 m h
    exact ⟨hn, hasNoRecord_of_not_mem _ hM99 hk _ (by decide) hn⟩
  · have hn := not_mem_fillMap_30 m h
    exact ⟨hn, hasNoRecord_of_not_mem _ hM99 hk _ (by decide) hn⟩
  · have hn := not_mem_fillMap_31 m ⟨h.1, h.2.1, h.2.2.1⟩
    exact ⟨hn, hasNoRecord_of_not_mem _ hM99 hk _ (by decide) hn⟩
  · have hn := not_mem_fillMap_62 m h
    exact ⟨hn, hasNoRecord_of_not_mem _ hM99 hk _ (by decide) hn⟩

/-- C14 at the minimal model, all of whose groups are empty. -/
theorem empty_groups_omitted_witness :
    ConvertQRToMap minimalModel = (some (fillMap minimalModel), none) ∧
    ("29".toList ∉ mapKeys (fillMap minimalModel) ∧
      HasNoRecord "29".toList (ConvertMapToString (fillMap minimalModel)).1) ∧
    ("30".toList ∉ mapKeys (fillMap minimalModel) ∧
      HasNoRecord "30".toList (ConvertMapToString (fillMap minimalModel)).1) ∧
    ("31".toList ∉ mapKeys (fillMap minimalModel) ∧
      HasNoRecord "31".toList (ConvertMapToString (fillMap minimalModel)).1) ∧
    ("62".toList ∉ mapKeys (fillMap minimalModel) ∧
      HasNoRecord "62".toList (ConvertMapToString (fillMap minimalModel)).1) :=
  ⟨by decide!,
    (empty_groups_omitted minimalModel (fillMap minimalModel) (by decide!)).1
      ⟨rfl, rfl, rfl, rfl, rfl, rfl⟩,
    (empty_groups_omitted minimalModel (fillMap minimalModel) (by decide!)).2.1
      ⟨rfl, rfl, rfl, rfl⟩,
    (empty_groups_omitted minimalModel (fillMap minimalModel) (by decide!)).2.2.1
      ⟨rfl, rfl, rfl, rfl, rfl, rfl⟩,
    (empty_groups_omitted minimalModel (fillMap minimalModel) (by decide!)).2.2.2
      ⟨rfl, rfl, rfl, rfl, rfl, rfl, rfl, rfl, rfl⟩⟩

/-- C15: a model that passes the width checks and has a merchant name of more
than 99 code points gets an error and no map from `ConvertQRToMap`; when no
other value of the map has more than 99 code points, the error names tag `59`
and the length of the name, in whatever order the entries of the map are
visited; and every value of a map that `ConvertQRToMap` returns has at most 99
code points. -/
theorem encoder_rejects_long_values (m : QR) :
    (encodeLengthCheck m = none → 99 < m.Merchant.Name.length →
      (∃ e, ConvertQRToMap m = (none, some e)) ∧
      ((∀ p ∈ fillMap m, p.1 ≠ "59".toList → p.2.length ≤ 99) →
        ConvertQRToMap m = (none, some (tooLongMessage "59".toList m.Merchant.Name)) ∧
        tooLongMessage "59".toList m.Merchant.Name =
          "length of each tag must not longer than 99, found tag 59 with length " ++
            fmtD m.Merchant.Name.length ∧
        ∀ order : TagMap, order.Perm (fillMap m) →
          checkTagLengths order = some (tooLongMessage "59".toList m.Merchant.Name))) ∧
    (∀ M, ConvertQRToMap m = (some M, none) → ∀ p ∈ M, p.2.length ≤ 99) := by
  constructor
  · intro hw hn
    have hne : mapGet (fillMap m) "59".toList ≠ [] := by
      rw [mapGet_fillMap_59]
      intro e; rw [e] at hn; simp at hn
    have hmem : ("59".toList, m.Merchant.Name) ∈ fillMap m := by
      have := mem_of_mapGet_ne_nil _ _ hne
      rwa [mapGet_fillMap_59] at this
    constructor
    · unfold ConvertQRToMap
      rw [hw]
      simp only []
      cases hc : checkTagLengths (fillMap m) with
      | none => exact absurd hc (checkTagLengths_ne_none _ _ _ hmem hn)
      | some e => exact ⟨e, rfl⟩
    · intro honly
      have hone : ∀ p ∈ fillMap m, 99 < p.2.length → p = ("59".toList, m.Merchant.Name) := by
        intro p hp hlong
        obtain ⟨k, v⟩ := p
        by_cases hk : k = "59".toList
        · subst hk
          have := mapGet_of_mem _ (nodup_fillMap m) _ _ hp
          rw [mapGet_fillMap_59] at this
          rw [this]
        · have := honly (k, v) hp hk
          simp only at hlong this
          omega
      refine ⟨?_, rfl, ?_⟩
      · unfold ConvertQRToMap
        rw [hw]
        simp only []
        rw [checkTagLengths_some _ _ _ hmem hn hone]
      · intro order hperm
        exact checkTagLengths_some order _ _ (hperm.mem_iff.mpr hmem) hn
          (fun p hp => hone p (hperm.mem_iff.mp hp))
  · intro M hM
    obtain ⟨_, hM2, hc⟩ := ConvertQRToMap_ok hM
    subst hM2
    exact checkTagLengths_all _ hc

/-- C15 at the minimal model with a merchant name of 100 code points, and at
the minimal model. -/
theorem encoder_rejects_long_values_witness :
    ConvertQRToMap longNameModel =
      (none, some "length of each tag must not longer than 99, found tag 59 with length 100") ∧
    (∀ p ∈ fillMap minimalModel, p.2.length ≤ 99) :=
  ⟨by
      have h := ((encoder_rejects_long_values longNameModel).1 (by decide!) (by decide!)).2
        (by decide!)
      rw [h.1, h.2.1]
      decide!,
    (encoder_rejects_long_values minimalModel).2 (fillMap minimalModel) (by decide!)⟩

/-- C16: for every map with an empty or no value under `63` and with every
value of at most 99 code points, `ConvertMapToString` returns without error
the text `P ++ "6304" ++ H`: `P` is the concatenation of the records (key, two
decimal digits of the length, value) of the keys with a non-empty value, the
keys taken in ascending order, and `H` is the four upper-case hexadecimal
digits of the CRC of `P ++ "6304"`, zeros in front included. -/
theorem serializer_generates_checksum (M : TagMap) (h63 : mapGet M "63".toList = [])
    (hM : ∀ p ∈ M, p.2.length ≤ 99) :
    ∃ (keys : List Str) (P : Str) (v : Nat),
      keys.Perm (mapKeys M) ∧ keys.Sorted (fun a b => strLE a b = true) ∧
      P = (keys.filter (fun k => mapGet M k ≠ [])).flatMap
        (fun k => k ++ twoDigits (mapGet M k).length ++ mapGet M k) ∧
      v = ChecksumCCITTFalse (utf8Bytes (P ++ "6304".toList)) ∧ v < 0x10000 ∧
      ConvertMapToString M =
        (P ++ "6304".toList ++
          [hexDigitUpper (v / 0x1000 % 0x10), hexDigitUpper (v / 0x100 % 0x10),
           hexDigitUpper (v / 0x10 % 0x10), hexDigitUpper (v % 0x10)], none) ∧
      (∀ d, d < 16 → hexDigitUpper d ∈ "0123456789ABCDEF".toList) := by
  have hM' := mapGet_length M hM
  refine ⟨sortStrings (mapKeys M), _, _, sortStrings_perm _, sortStrings_sorted _, rfl, rfl,
    ChecksumCCITTFalse_lt _, ?_, fun d hd => hexDigitUpper_mem ⟨d, hd⟩⟩
  rw [ConvertMapToString_generated M hM' h63, payloadOf, checksumOf,
    pad4_sprintfX _ (ChecksumCCITTFalse_lt _), bodyOf, rawText_recordsOf]
  rfl

/-- C16 at the map of the scenario without a value under `63`. -/
theorem serializer_generates_checksum_witness :
    mapGet (scenarioMap []) "63".toList = [] ∧
    (∀ p ∈ scenarioMap [], p.2.length ≤ 99) ∧
    ∃ (keys : List Str) (P : Str) (v : Nat),
      keys.Perm (mapKeys (scenarioMap [])) ∧ keys.Sorted (fun a b => strLE a b = true) ∧
      P = (keys.filter (fun k => mapGet (scenarioMap []) k ≠ [])).flatMap
        (fun k => k ++ twoDigits (mapGet (scenarioMap []) k).length ++ mapGet (scenarioMap []) k) ∧
      v = ChecksumCCITTFalse (utf8Bytes (P ++ "6304".toList)) ∧ v < 0x10000 ∧
      ConvertMapToString (scenarioMap []) =
        (P ++ "6304".toList ++
          [hexDigitUpper (v / 0x1000 % 0x10), hexDigitUpper (v / 0x100 % 0x10),
           hexDigitUpper (v / 0x10 % 0x10), hexDigitUpper (v % 0x10)], none) ∧
      (∀ d, d < 16 → hexDigitUpper d ∈ "0123456789ABCDEF".toList) :=
  ⟨by decide, by decide,
    serializer_generates_checksum (scenarioMap []) (by decide) (by decide)⟩

/-- C17 fails on the code: in the map of the scenario the records before tag
`63` have the CRC `018D`; with that value under `63` the serializer returns an
error and the empty string, and with the value `18D`, which differs from it, it
succeeds and writes the record `630318D`. -/
theorem supplied_checksum_compared_unpadded :
    bodyOf (scenarioMap []) =
      "00020101021129370016A000000677010111011300668123456785204599953037645802TH".toList ∧
    pad4 (sprintfX (ChecksumCCITTFalse (utf8Bytes (bodyOf (scenarioMap []) ++ "6304".toList))))
      = "018D".toList ∧
    ConvertMapToString (scenarioMap "018D".toList) =
      ([], some "Invalid CRC ! expected 18D, but got, 018D") ∧
    ConvertMapToString (scenarioMap "18D".toList) =
      (bodyOf (scenarioMap []) ++ "630318D".toList, none) := by
  refine ⟨?_, ?_, ?_, ?_⟩ <;> decide!

/-- C18 fails on the code: the payload `53037645802TH` has no record of tag
`63`.  Decoded first, it is refused with the checksum error; decoded after the
payload `53037645802TH63047FDA`, whose checksum value `7FDA` is still in
`crcFromStr`, it is accepted and gives the minimal model; so the same payload
has two results, and the checksum it is verified against is not empty. -/
theorem decode_depends_on_earlier_calls (slack : Nat → Nat) :
    DecodeQRVisa slack freshScratch "53037645802TH".toList =
      Run.ret (some zeroQR, some "Error, CRC is mismatch or QR(string) is invalid.")
        ⟨"53037645802TH".toList, []⟩ ∧
    DecodeQRVisa slack freshScratch "53037645802TH63047FDA".toList =
      Run.ret (some { minimalModel with CRC := "7FDA".toList }, none)
        ⟨"53037645802TH".toList, "7FDA".toList⟩ ∧
    DecodeQRVisa slack ⟨"53037645802TH".toList, "7FDA".toList⟩ "53037645802TH".toList =
      Run.ret (some minimalModel, none) ⟨"53037645802TH".toList, "7FDA".toList⟩ := by
  have hwf : ∀ r ∈ minimalRecords, r.WellFormed := by
    unfold minimalRecords RawRecord.WellFormed; decide
  have hwf2 : ∀ r ∈ minimalRecords ++ [⟨"63".toList, "04".toList, "7FDA".toList⟩],
      r.WellFormed := by
    unfold minimalRecords RawRecord.WellFormed; decide
  have e1 : "53037645802TH".toList = rawText minimalRecords := by decide
  have e2 : "53037645802TH63047FDA".toList =
      rawText (minimalRecords ++ [⟨"63".toList, "04".toList, "7FDA".toList⟩]) := by decide
  refine ⟨?_, ?_, ?_⟩
  · rw [e1]
    exact DecodeQRVisa_flat_mismatch slack freshScratch _ minimalRecords _ hwf
      (by decide! : _ = ([("53".toList, "764".toList), ("58".toList, "TH".toList)],
        (⟨"53037645802TH".toList, []⟩ : Scratch))) (by decide!)
  · rw [e2]
    exact DecodeQRVisa_flat slack freshScratch _ _ _ _ hwf2
      (by decide! : _ = ([("53".toList, "764".toList), ("58".toList, "TH".toList),
        ("63".toList, "7FDA".toList)], (⟨"53037645802TH".toList, "7FDA".toList⟩ : Scratch)))
      (by decide!) (by decide!) (by decide!) (by decide!) (by decide!) (by decide!)
  · rw [e1]
    exact DecodeQRVisa_flat slack _ _ minimalRecords _ _ hwf
      (by decide! : _ = ([("53".toList, "764".toList), ("58".toList, "TH".toList)],
        (⟨"53037645802TH".toList, "7FDA".toList⟩ : Scratch)))
      (by decide!) (by decide!) (by decide!) (by decide!) (by decide!) (by decide!)

/-- C19 fails on the code: the CRC of the text below is zero, and `checkCRC`
returns nil for it with an empty claimed checksum and with the claimed
checksum `zzzz`, neither of which is a hexadecimal numeral; and for the text
of the scenario, whose CRC is 0x018D, it returns nil with the claimed checksum
`1018D`, whose value is 0x1018D. -/
theorem unparsable_checksum_accepted :
    ChecksumCCITTFalse (utf8Bytes (zeroCrcBody ++ "6304".toList)) = 0 ∧
    checkCRC (zeroCrcBody ++ "6304".toList) [] = none ∧
    checkCRC (zeroCrcBody ++ "6304".toList) "zzzz".toList = none ∧
    ChecksumCCITTFalse (utf8Bytes scenarioBody) = 0x018D ∧
    checkCRC scenarioBody "1018D".toList = none := by
  refine ⟨?_, ?_, ?_, ?_, ?_⟩ <;> decide!

/-- C20, as stated, fails: the value of the single byte 0xFF counts as one
code point, but `ConvertStringToMap` of the record `00`, `01`, 0xFF returns,
without error, a map whose value under `00` is the three bytes of U+FFFD, and
leaves these bytes instead of the byte 0xFF in `stringWithNoCRC`. -/
theorem tokenizer_correct_counterexample :
    runeCount (lit "00") = 2 ∧ runeCount [0xFF] = 1 ∧
    ConvertStringToMapB tightSlack freshScratch (lit "00" ++ lit "01" ++ [0xFF]) =
      Run.ret ([("00".toList, [Char.ofNat 0xFFFD])], none)
        ⟨"0001".toList ++ [Char.ofNat 0xFFFD], []⟩ ∧
    utf8Bytes [Char.ofNat 0xFFFD] = [0xEF, 0xBF, 0xBD] ∧
    utf8Bytes ("0001".toList ++ [Char.ofNat 0xFFFD]) ≠ lit "00" ++ lit "01" ++ [0xFF] := by
  refine ⟨?_, ?_, ?_, ?_, ?_⟩ <;> decide!

/-- C20, amended: for every list of records (key, value) of code points, in
which every key has two code points and every value at most 99,
`ConvertStringToMap` of the UTF-8 text of the concatenation of the records
(key, two decimal digits of the length, value) returns without error a map
whose entries are exactly the pairs of a key of the list and the value of its
last record; afterwards `stringWithNoCRC` is the concatenation, in the order
of the list, of the records whose key is not `63`, and `crcFromStr` is the
value of the last record with key `63`, or what it was before when there is
none. -/
theorem tokenizer_correct (recs : List (Str × Str)) (hk : ∀ p ∈ recs, p.1.length = 2)
    (hv : ∀ p ∈ recs, p.2.length ≤ 99) (slack : Nat → Nat) (st : Scratch) :
    ∃ M st', ConvertStringToMapB slack st (utf8Bytes (recs.flatMap recordText)) =
        Run.ret (M, none) st' ∧
      (mapKeys M).Nodup ∧
      (∀ k v, (k, v) ∈ M ↔ lastValue recs k = some v) ∧
      st'.stringWithNoCRC = (recs.filter (fun p => p.1 ≠ "63".toList)).flatMap recordText ∧
      st'.crcFromStr = (lastValue recs "63".toList).getD st.crcFromStr := by
  have hwf : ∀ r ∈ recs.map (fun p => record p.1 p.2), r.WellFormed := by
    intro r hr
    obtain ⟨p, hp, rfl⟩ := List.mem_map.mp hr
    exact ⟨hk p hp, rfl, twoDigits_parse _ (hv p hp)⟩
  have htok := ConvertStringToMap_records slack st _ hwf
  rw [rawText_map_record] at htok
  have hnd := tokenSteps_nodup (recs.map (fun p => record p.1 p.2)) []
    { st with stringWithNoCRC := [] } (by simp [mapKeys])
  rw [← ConvertStringToMapB_utf8Bytes] at htok
  refine ⟨_, _, htok, hnd, ?_, ?_, ?_⟩
  · intro k v
    rw [mem_iff_mapFind _ hnd, tokenSteps_mapFind]
    cases lastValue recs k <;> simp [mapFind]
  · rw [tokenSteps_scratch recs hv]
    simp
  · rw [tokenSteps_scratch recs hv]

/-- The amended C20 at a list with two records of key `53` and a record of
key `63`. -/
theorem tokenizer_correct_witness :
    (∀ p ∈ [("53".toList, "840".toList), ("63".toList, "AB".toList),
        ("53".toList, "764".toList)], p.1.length = 2) ∧
    (∀ p ∈ [("53".toList, "840".toList), ("63".toList, "AB".toList),
        ("53".toList, "764".toList)], p.2.length ≤ 99) ∧
    ∃ M st', ConvertStringToMapB tightSlack freshScratch
        (utf8Bytes ([("53".toList, "840".toList), ("63".toList, "AB".toList),
          ("53".toList, "764".toList)].flatMap recordText)) = Run.ret (M, none) st' ∧
      (mapKeys M).Nodup ∧
      (∀ k v, (k, v) ∈ M ↔ lastValue [("53".toList, "840".toList), ("63".toList, "AB".toList),
        ("53".toList, "764".toList)] k = some v) ∧
      st'.stringWithNoCRC = ([("53".toList, "840".toList), ("63".toList, "AB".toList),
        ("53".toList, "764".toList)].filter (fun p => p.1 ≠ "63".toList)).flatMap recordText ∧
      st'.crcFromStr = (lastValue [("53".toList, "840".toList), ("63".toList, "AB".toList),
        ("53".toList, "764".toList)] "63".toList).getD freshScratch.crcFromStr :=
  ⟨by decide, by decide,
    tokenizer_correct [("53".toList, "840".toList), ("63".toList, "AB".toList),
      ("53".toList, "764".toList)] (by decide) (by decide) tightSlack freshScratch⟩

/-- C21 fails on the code: the inputs `00+201` and `00ab` hold no record of
tag `63` and are tokenized without error, whatever the spare capacity of rune
slices and the earlier contents of the package-level variables, yet the
side buffer afterwards is `000201` and `0000`: the length is written back
from the parsed number with two digits, not taken from the input. -/
theorem side_buffer_not_substring (slack : Nat → Nat) (st : Scratch) :
    ConvertStringToMap slack st "00+201".toList =
      Run.ret ([("00".toList, "01".toList)], none) ⟨"000201".toList, st.crcFromStr⟩ ∧
    "000201".toList ≠ "00+201".toList ∧
    ConvertStringToMap slack st "00ab".toList =
      Run.ret ([("00".toList, [])], none) ⟨"0000".toList, st.crcFromStr⟩ ∧
    "0000".toList ≠ "00ab".toList := by
  have h1 := ConvertStringToMap_records slack st [⟨"00".toList, "+2".toList, "01".toList⟩]
    (by unfold RawRecord.WellFormed; decide)
  have h2 := ConvertStringToMap_records slack st [⟨"00".toList, "ab".toList, []⟩]
    (by unfold RawRecord.WellFormed; decide)
  have e1 : rawText [⟨"00".toList, "+2".toList, "01".toList⟩] = "00+201".toList := by decide
  have e2 : rawText [⟨"00".toList, "ab".toList, []⟩] = "00ab".toList := by decide
  have s2 : sprintf02d (2 : Int) = "02".toList := by decide
  have s0 : sprintf02d (0 : Int) = "00".toList := by decide
  rw [e1] at h1
  rw [e2] at h2
  refine ⟨?_, by decide, ?_, by decide⟩
  · rw [h1]
    simp [tokenSteps, tokenStep, mapSet, s2]
  · rw [h2]
    simp [tokenSteps, tokenStep, mapSet, s0]

/-- C22, as stated, fails in its second part: the model with the AID of the
PromptPay group and the mobile number of the single byte 0xFF is accepted by
`ConvertQRToMap`; the value under `29` is the two records with the byte as it
is, but `ConvertStringToMap` of that value returns U+FFFD, not the byte 0xFF,
under `01`. -/
theorem group_blobs_canonical_counterexample :
    ConvertQRToMapB badMobileModel = (some (fillMapB badMobileModel), none) ∧
    lit "29" ∈ mapKeysB (fillMapB badMobileModel) ∧
    runeCount [0xFF] = 1 ∧
    mapGetB (fillMapB badMobileModel) (lit "29") =
      lit "00" ++ lit "16" ++ lit "A000000677010111" ++ (lit "01" ++ lit "01" ++ [0xFF]) ∧
    ConvertStringToMapB tightSlack freshScratch (mapGetB (fillMapB badMobileModel) (lit "29")) =
      Run.ret ([("00".toList, "A000000677010111".toList), ("01".toList, [Char.ofNat 0xFFFD])],
        none) ⟨"0016A0000006770101110101".toList ++ [Char.ofNat 0xFFFD], []⟩ ∧
    utf8Bytes [Char.ofNat 0xFFFD] ≠ [0xFF] := by
  refine ⟨?_, ?_, ?_, ?_, ?_, ?_⟩ <;> decide!

/-- C22, amended: for every model, whatever the bytes of its strings, that
`ConvertQRToMap` accepts, and each group (29, 30, 31, 62) whose tag is a key
of the returned map, the ids of the subfields of the group are listed in
strictly ascending order, every subfield has at most 99 runes, and the value
under the tag is the concatenation, in that order and over the non-empty
subfields only, of the id, the two decimal digits of the number of runes and
the bytes of the value; `ConvertStringToMap` of that value returns without
error, whatever the spare capacity of rune slices and the earlier contents of
the package-level variables, a map whose entries are exactly the pairs of the
id and the runes of the value of the non-empty subfields, which are the pairs
(id, value) themselves when the subfields of the group are valid UTF-8. -/
theorem group_blobs_canonical (q : QRB) (MB : TagMapB)
    (hacc : ConvertQRToMapB q = (some MB, none))
    (tag : Bytes) (FB : TagMapB) (hg : (tag, FB) ∈ groupFieldsB q)
    (hin : tag ∈ mapKeysB MB) (slack : Nat → Nat) (st : Scratch) :
    (mapKeysB FB).Sorted (fun a b => bytesLE a b = true ∧ a ≠ b) ∧
    (∀ p ∈ FB, runeCount p.2 ≤ 99) ∧
    mapGetB MB tag = (FB.filter (fun p => p.2 ≠ [])).flatMap recordTextB ∧
    ∃ sub st', ConvertStringToMapB slack st (mapGetB MB tag) = Run.ret (sub, none) st' ∧
      (mapKeys sub).Nodup ∧
      (∀ k v, (k, v) ∈ sub ↔ ∃ w, (utf8Bytes k, w) ∈ FB ∧ w ≠ [] ∧ v = runes w) ∧
      ((∀ p ∈ FB, ∃ x, p.2 = utf8Bytes x) →
        ∀ k v, (k, v) ∈ sub ↔ ((utf8Bytes k, utf8Bytes v) ∈ FB ∧ v ≠ [])) := by
  obtain ⟨rfl, htags⟩ := ConvertQRToMapB_some hacc
  have h99 := checkTagLengthsB_none _ htags
  simp only [groupFieldsB, List.mem_cons, Prod.mk.injEq, List.mem_singleton, List.not_mem_nil,
    or_false] at hg
  rcases hg with ⟨rfl, rfl⟩ | ⟨rfl, rfl⟩ | ⟨rfl, rfl⟩ | ⟨rfl, rfl⟩
  · exact ⟨by rw [promptPayFieldsB_keys]; decide,
      group_value_of_keys _ _ _ _ (promptPayFieldsB_keys _) (by decide) (by decide)
        (mapGetB_fillMapB_29 q) (h99 _) slack st⟩
  · exact ⟨by rw [billPaymentFieldsB_keys]; decide,
      group_value_of_keys _ _ _ _ (billPaymentFieldsB_keys _) (by decide) (by decide)
        (mapGetB_fillMapB_30 q) (h99 _) slack st⟩
  · exact ⟨by rw [apiFieldsB_keys]; decide,
      group_value_of_keys _ _ _ _ (apiFieldsB_keys _) (by decide) (by decide)
        (mapGetB_fillMapB_31 q (api_guard_of_memB q hin)) (h99 _) slack st⟩
  · exact ⟨by rw [additionalFieldsB_keys]; decide,
      group_value_of_keys _ _ _ _ (additionalFieldsB_keys _) (by decide) (by decide)
        (mapGetB_fillMapB_62 q) (h99 _) slack st⟩

/-- The amended C22 at group 29 of the model with the AID of the PromptPay
group and the mobile number of the single byte 0xFF. -/
theorem group_blobs_canonical_witness :
    ConvertQRToMapB badMobileModel = (some (fillMapB badMobileModel), none) ∧
    (lit "29", promptPayFieldsB badMobileModel.Merchant.ID.PromptPay) ∈
      groupFieldsB badMobileModel ∧
    lit "29" ∈ mapKeysB (fillMapB badMobileModel) ∧
    (mapKeysB (promptPayFieldsB badMobileModel.Merchant.ID.PromptPay)).Sorted
      (fun a b => bytesLE a b = true ∧ a ≠ b) ∧
    (∀ p ∈ promptPayFieldsB badMobileModel.Merchant.ID.PromptPay, runeCount p.2 ≤ 99) ∧
    mapGetB (fillMapB badMobileModel) (lit "29") =
      ((promptPayFieldsB badMobileModel.Merchant.ID.PromptPay).filter
        (fun p => p.2 ≠ [])).flatMap recordTextB ∧
    ∃ sub st', ConvertStringToMapB tightSlack freshScratch
        (mapGetB (fillMapB badMobileModel) (lit "29")) = Run.ret (sub, none) st' ∧
      (mapKeys sub).Nodup ∧
      (∀ k v, (k, v) ∈ sub ↔
        ∃ w, (utf8Bytes k, w) ∈ promptPayFieldsB badMobileModel.Merchant.ID.PromptPay ∧
          w ≠ [] ∧ v = runes w) ∧
      ((∀ p ∈ promptPayFieldsB badMobileModel.Merchant.ID.PromptPay, ∃ x, p.2 = utf8Bytes x) →
        ∀ k v, (k, v) ∈ sub ↔
          ((utf8Bytes k, utf8Bytes v) ∈ promptPayFieldsB badMobileModel.Merchant.ID.PromptPay ∧
            v ≠ [])) :=
  ⟨by decide!, by decide!, by decide!,
    group_blobs_canonical badMobileModel (fillMapB badMobileModel) (by decide!) (lit "29")
      (promptPayFieldsB badMobileModel.Merchant.ID.PromptPay) (by decide!) (by decide!)
      tightSlack freshScratch⟩

/-- C23 fails on the code: the minimal model and the same model with the
legacy data object `ABCD` are both accepted by `ConvertQRToMap` and differ
only in the data object, yet the returned maps differ under `63`: the data
object is stored there, and nothing is stored under `51`. -/
theorem data_object_stored_under_checksum_tag :
    shortDataObjectModel =
      { minimalModel with
        DataObjectForMerchantAccountInformationByMasterCard := "ABCD".toList } ∧
    ConvertQRToMap minimalModel = (some (fillMap minimalModel), none) ∧
    ConvertQRToMap shortDataObjectModel = (some (fillMap shortDataObjectModel), none) ∧
    mapGet (fillMap minimalModel) "63".toList = [] ∧
    mapGet (fillMap shortDataObjectModel) "63".toList = "ABCD".toList ∧
    "51".toList ∉ mapKeys (fillMap shortDataObjectModel) ∧
    mapGet (fillMap shortDataObjectModel) "51".toList = [] := by
  refine ⟨rfl, ?_, ?_, ?_, ?_, ?_, ?_⟩ <;> decide!

/-- C24: the checksum that `checkCRC` and `ConvertMapToString` take is the
function `ChecksumCCITTFalse`, which works through the bytes from the first to
the last, each from its highest bit, with the polynomial 0x1021 from the
initial value 0xFFFF and gives the register as it is; on no bytes it gives
0xFFFF and on the nine bytes of `123456789` it gives 0x29B1, and `checkCRC`
accepts the empty text with `FFFF` and the text `123456789` with `29B1`. -/
theorem checksum_is_ccitt_false :
    ChecksumCCITTFalse [] = 0xFFFF ∧
    utf8Bytes "123456789".toList = [0x31, 0x32, 0x33, 0x34, 0x35, 0x36, 0x37, 0x38, 0x39] ∧
    ChecksumCCITTFalse (utf8Bytes "123456789".toList) = 0x29B1 ∧
    checkCRC [] "FFFF".toList = none ∧
    checkCRC "123456789".toList "29B1".toList = none ∧
    checkCRC "123456789".toList "29B0".toList ≠ none := by
  refine ⟨?_, ?_, ?_, ?_, ?_, ?_⟩ <;> decide!

/-- C26, as stated, fails: the map with the single entry of key `59` and the
value of the single byte 0xFF has keys of two code points, a value of one code
point and no entry for `63`; `ConvertMapToString` returns a payload whose
checksum `09A0` is taken of the byte 0xFF, `ConvertStringToMap` of the payload
gives the value U+FFFD under `59`, and `checkCRC` of `stringWithNoCRC` with
`6304` added and of `crcFromStr` returns the error. -/
theorem serializer_output_verifies_counterexample :
    runeCount (lit "59") = 2 ∧ runeCount [0xFF] = 1 ∧
    ConvertMapToStringB [(lit "59", [0xFF])] =
      (lit "5901" ++ [0xFF] ++ lit "630409A0", none) ∧
    ConvertStringToMapB tightSlack freshScratch (lit "5901" ++ [0xFF] ++ lit "630409A0") =
      Run.ret ([("59".toList, [Char.ofNat 0xFFFD]), ("63".toList, "09A0".toList)], none)
        ⟨"5901".toList ++ [Char.ofNat 0xFFFD], "09A0".toList⟩ ∧
    utf8Bytes [Char.ofNat 0xFFFD] ≠ [0xFF] ∧
    checkCRC ("5901".toList ++ [Char.ofNat 0xFFFD] ++ "6304".toList) "09A0".toList =
      some "Error, CRC is mismatch or QR(string) is invalid." := by
  refine ⟨?_, ?_, ?_, ?_, ?_, ?_⟩ <;> decide!

/-- C26, amended: for every map of keys and values that are valid UTF-8, given
by their code points, whose keys have two code points, whose values have at
most 99 code points and whose value under `63` is empty or absent,
`ConvertMapToString` returns without error a payload, the UTF-8 text of `p`;
`ConvertStringToMap` of the payload returns without error a map whose entries
are exactly the entry of `63` with the last four code points of `p` and the
pairs of a key and its non-empty value in the given map; and afterwards
`checkCRC` of `stringWithNoCRC` with `6304` added and of `crcFromStr` returns
`nil`; whatever the spare capacity of rune slices and the earlier contents of
the package-level variables. -/
theorem serializer_output_verifies (M : TagMap) (hkeys : ∀ p ∈ M, p.1.length = 2)
    (hvals : ∀ p ∈ M, p.2.length ≤ 99) (h63 : mapGet M "63".toList = [])
    (slack : Nat → Nat) (st : Scratch) :
    ∃ p M' st', ConvertMapToStringB (TagMap.toBytes M) = (utf8Bytes p, none) ∧
      ConvertStringToMapB slack st (utf8Bytes p) = Run.ret (M', none) st' ∧
      (mapKeys M').Nodup ∧
      (∀ k v, (k, v) ∈ M' ↔
        ((k = "63".toList ∧ v = p.drop (p.length - 4)) ∨ (v ≠ [] ∧ mapGet M k = v))) ∧
      checkCRC (st'.stringWithNoCRC ++ "6304".toList) st'.crcFromStr = none := by
  have hM := mapGet_length M hvals
  have hk : ∀ k ∈ mapKeys M, k.length = 2 := by
    intro k hmem
    obtain ⟨p, hp, rfl⟩ := List.mem_map.mp hmem
    exact hkeys p hp
  obtain ⟨M', htok, hnd, hent⟩ := tokenize_generated_entries M hM h63 hk slack st
  rw [← ConvertStringToMapB_utf8Bytes] at htok
  refine ⟨payloadOf (bodyOf M), M', _,
    ConvertMapToStringB_ok M _ (ConvertMapToString_generated M hM h63), htok, hnd, ?_, ?_⟩
  · rw [payloadOf_last4]
    exact hent
  · exact checkCRC_generated _

/-- The amended C26 at the map of the scenario without a value under `63`. -/
theorem serializer_output_verifies_witness :
    (∀ p ∈ scenarioMap [], p.1.length = 2) ∧
    (∀ p ∈ scenarioMap [], p.2.length ≤ 99) ∧
    mapGet (scenarioMap []) "63".toList = [] ∧
    ∃ p M' st', ConvertMapToStringB (TagMap.toBytes (scenarioMap [])) = (utf8Bytes p, none) ∧
      ConvertStringToMapB tightSlack freshScratch (utf8Bytes p) = Run.ret (M', none) st' ∧
      (mapKeys M').Nodup ∧
      (∀ k v, (k, v) ∈ M' ↔
        ((k = "63".toList ∧ v = p.drop (p.length - 4)) ∨
          (v ≠ [] ∧ mapGet (scenarioMap []) k = v))) ∧
      checkCRC (st'.stringWithNoCRC ++ "6304".toList) st'.crcFromStr = none :=
  ⟨by decide, by decide, by decide,
    serializer_output_verifies (scenarioMap []) (by decide) (by decide) (by decide)
      tightSlack freshScratch⟩

end ThaiQR
